import Mathlib

/-!
# A2DP source node (`spa/plugins/bluez5/a2dp-source.c`)

A shallow embedding of the node state machine, the buffer pool and the
`process` entry point of the Bluetooth A2DP source node.

* `struct impl`, `struct port`, `struct buffer` become the structures `Impl`,
  `Port`, `Buffer`; every C function becomes a function of the same name that
  takes the state and returns the result code together with the new state.
* Values returned by collaborators (transport, codec, decode buffer, clocks)
  are passed to the function that consumes them as an explicit environment
  record; calls made to collaborators are appended to `Impl.calls`.
* `uint32_t`/`uint64_t` arithmetic is arithmetic on `Nat` reduced modulo
  `2^32`/`2^64`; a division by zero, a null dereference and a failed
  `spa_assert` are traps, modelled by `none`.
* Logging is left out. Declarations of headers that are not among the sources
  (constants, structures, `spa_list`) are modelled and marked so.
-/

namespace A2dpSource

/-! ## Constants -/

/-- Modelled from the spec: the error kind IoState, `EIO` of `errno.h`, which is
not among the sources. -/
def EIO : Int := 5
/-- Modelled from the spec: the error kind InvalidArg, `EINVAL` of `errno.h`,
which is not among the sources. -/
def EINVAL : Int := 22
/-- Modelled from the spec: the error kind NotFound, `ENOENT` of `errno.h`, which
is not among the sources. -/
def ENOENT : Int := 2
/-- Modelled from the spec: the error kind Unsupported, `ENOTSUP` of `errno.h`,
which is not among the sources. -/
def ENOTSUP : Int := 95

/-- Modelled from the spec: the status OK, `SPA_STATUS_OK` of `spa/node/io.h`,
which is not among the sources. -/
def SPA_STATUS_OK : Int := 0
/-- Modelled from the spec: the status HAVE_DATA, `SPA_STATUS_HAVE_DATA` of
`spa/node/io.h`, which is not among the sources. -/
def SPA_STATUS_HAVE_DATA : Int := 2
/-- Modelled from the spec: the cleared buffer id, `SPA_ID_INVALID` of
`spa/utils/defs.h`, which is not among the sources. -/
def SPA_ID_INVALID : Nat := 0xffffffff
/-- Modelled from the spec: `INT32_MAX` of `stdint.h`, the upper end of the
Buffers size range. -/
def INT32_MAX : Int := 2147483647

/-- `#define MAX_BUFFERS 32`. -/
def MAX_BUFFERS : Nat := 32
/-- `#define FILL_FRAMES 2`. -/
def FILL_FRAMES : Nat := 2
/-- `#define DEFAULT_CLOCK_NAME`. -/
def DEFAULT_CLOCK_NAME : String := "clock.system.monotonic"
/-- Modelled from the spec: `SPA_NSEC_PER_MSEC` of `spa/utils/defs.h`, which is
not among the sources (the duplex poll period is 2.5 ms). -/
def SPA_NSEC_PER_MSEC : Nat := 1000000

/-- Modelled from the spec: the parameter kind Format, `SPA_PARAM_Format` of
`enum spa_param_type` (`spa/param/param.h`, not among the sources). -/
def SPA_PARAM_Format : Nat := 4
/-- Modelled from the spec: the parameter kind Buffers, `SPA_PARAM_Buffers`. -/
def SPA_PARAM_Buffers : Nat := 5
/-- Modelled from the spec: the parameter kind Latency, `SPA_PARAM_Latency`. -/
def SPA_PARAM_Latency : Nat := 15

/-- Modelled from the spec: the IO id Buffers, `SPA_IO_Buffers` of
`enum spa_io_type` (`spa/node/io.h`, not among the sources). -/
def SPA_IO_Buffers : Nat := 1
/-- Modelled from the spec: the IO id Clock, `SPA_IO_Clock`. -/
def SPA_IO_Clock : Nat := 3
/-- Modelled from the spec: the IO id Position, `SPA_IO_Position`. -/
def SPA_IO_Position : Nat := 7
/-- Modelled from the spec: the IO id RateMatch, `SPA_IO_RateMatch`. -/
def SPA_IO_RateMatch : Nat := 8

/-- Modelled from the spec: the flag `rate_match.ACTIVE`,
`SPA_IO_RATE_MATCH_FLAG_ACTIVE` of `spa/node/io.h`, which is not among the sources. -/
def SPA_IO_RATE_MATCH_FLAG_ACTIVE : Nat := 1

/-- Modelled from the spec: the media type of `audio/raw`, `SPA_MEDIA_TYPE_audio`
of `spa/param/format.h`, which is not among the sources. -/
def SPA_MEDIA_TYPE_audio : Nat := 1
/-- Modelled from the spec: the media subtype of `audio/raw`,
`SPA_MEDIA_SUBTYPE_raw`. -/
def SPA_MEDIA_SUBTYPE_raw : Nat := 1

/-- Modelled from the spec: a change bit of the port info,
`SPA_PORT_CHANGE_MASK_FLAGS` of `spa/node/node.h`, which is not among the sources. -/
def SPA_PORT_CHANGE_MASK_FLAGS : Nat := 1
/-- Modelled from the spec: a change bit of the port info,
`SPA_PORT_CHANGE_MASK_RATE`. -/
def SPA_PORT_CHANGE_MASK_RATE : Nat := 2
/-- Modelled from the spec: a change bit of the port info,
`SPA_PORT_CHANGE_MASK_PARAMS`. -/
def SPA_PORT_CHANGE_MASK_PARAMS : Nat := 8
/-- Modelled from the spec: the port flag LIVE, `SPA_PORT_FLAG_LIVE` of
`spa/node/node.h`, which is not among the sources. -/
def SPA_PORT_FLAG_LIVE : Nat := 32
/-- Modelled from the spec: the port flag TERMINAL, `SPA_PORT_FLAG_TERMINAL`. -/
def SPA_PORT_FLAG_TERMINAL : Nat := 128

/-- Modelled from the spec: a change bit of the node info,
`SPA_NODE_CHANGE_MASK_FLAGS` of `spa/node/node.h`, which is not among the sources. -/
def SPA_NODE_CHANGE_MASK_FLAGS : Nat := 1
/-- Modelled from the spec: a change bit of the node info,
`SPA_NODE_CHANGE_MASK_PROPS`. -/
def SPA_NODE_CHANGE_MASK_PROPS : Nat := 2
/-- Modelled from the spec: a change bit of the node info,
`SPA_NODE_CHANGE_MASK_PARAMS`. -/
def SPA_NODE_CHANGE_MASK_PARAMS : Nat := 4
/-- Modelled from the spec: the real-time node flag, `SPA_NODE_FLAG_RT`. -/
def SPA_NODE_FLAG_RT : Nat := 1

/-- Modelled from the spec: the serial bit of a parameter,
`SPA_PARAM_INFO_SERIAL` of `spa/param/param.h`, which is not among the sources. -/
def SPA_PARAM_INFO_SERIAL : Nat := 1
/-- Modelled from the spec: a parameter that can be read, `SPA_PARAM_INFO_READ`. -/
def SPA_PARAM_INFO_READ : Nat := 2
/-- Modelled from the spec: a parameter that can be written,
`SPA_PARAM_INFO_WRITE`. -/
def SPA_PARAM_INFO_WRITE : Nat := 4
/-- Modelled from the spec: a parameter that can be read and written,
`SPA_PARAM_INFO_READWRITE`. -/
def SPA_PARAM_INFO_READWRITE : Nat := 6

/-- Truncation to `uint32_t`. -/
def u32 (n : Nat) : Nat := n % 2 ^ 32
/-- Truncation to `uint64_t`. -/
def u64 (n : Nat) : Nat := n % 2 ^ 64
/-- The `(int32_t)` cast of a `uint32_t` value, as `SPA_POD_Int` applies it. -/
def i32 (n : Nat) : Int :=
  if n % 2 ^ 32 < 2 ^ 31 then ((n % 2 ^ 32 : Nat) : Int) else ((n % 2 ^ 32 : Nat) : Int) - 2 ^ 32
/-- Unsigned division of C: a zero divisor traps. -/
def udiv (a b : Nat) : Option Nat := if b = 0 then none else some (a / b)

/-! ## Data model -/

/-- Modelled from the spec: the direction of a port, `enum spa_direction` of
`spa/utils/defs.h`, which is not among the sources. -/
inductive spa_direction
  | SPA_DIRECTION_INPUT
  | SPA_DIRECTION_OUTPUT
  deriving DecidableEq, Repr

/-- Modelled from the spec: the sample formats, `enum spa_audio_format` of
`spa/param/audio/raw.h`, which is not among the sources: those
`port_set_format` accepts, and some of those it does not. -/
inductive spa_audio_format
  | UNKNOWN | S8 | U8 | S16 | U16 | S24 | U24 | S24_32 | U24_32 | S32 | U32 | F32 | F64
  deriving DecidableEq, Repr

/-- Modelled from the spec: `AudioFormat`, `struct spa_audio_info_raw` of
`spa/param/audio/raw.h` (the fields the node reads). -/
structure spa_audio_info_raw where
  format : spa_audio_format
  rate : Nat
  channels : Nat
  deriving DecidableEq, Repr

/-- Modelled from the spec: `struct spa_audio_info` of
`spa/param/audio/format.h`, which is not among the sources. -/
structure spa_audio_info where
  media_type : Nat
  media_subtype : Nat
  raw : spa_audio_info_raw
  deriving DecidableEq, Repr

/-- Modelled from the spec: a format pod, as seen through the two parsers
`port_set_format` applies to it, which are not among the sources: the result
and output of `spa_format_parse` and of `spa_format_audio_raw_parse`. -/
structure FormatPod where
  parse_res : Int
  media_type : Nat
  media_subtype : Nat
  raw_parse_res : Int
  raw : spa_audio_info_raw
  deriving DecidableEq, Repr

/-- Modelled from the spec: the `chunk` of a data segment, `struct spa_chunk` of
`spa/buffer/buffer.h`, which is not among the sources. -/
structure spa_chunk where
  offset : Nat
  size : Nat
  stride : Nat
  deriving DecidableEq, Repr

/-- Modelled from the spec: the optional Header of a pool buffer,
`struct spa_meta_header` of `spa/buffer/meta.h` (the fields the node writes). -/
structure spa_meta_header where
  seq : Nat
  pts : Nat
  dts_offset : Nat
  deriving DecidableEq, Repr

/-- Modelled from the spec: the downstream memory of a pool buffer, a
`struct spa_buffer` of `spa/buffer/buffer.h` handed to `port_use_buffers`: the
Header meta that `spa_buffer_find_meta_data` finds in it, if any, and its
first data segment `datas[0]` (`data` is `none` for a null pointer). -/
structure spa_buffer where
  header : Option spa_meta_header
  data : Option Nat
  maxsize : Nat
  chunk : spa_chunk
  deriving DecidableEq, Repr

/-- `struct buffer`. -/
structure Buffer where
  id : Nat
  outstanding : Bool
  buf : Option spa_buffer
  h : Option spa_meta_header
  deriving DecidableEq, Repr

/-- Modelled from the spec: the port IO area, `struct spa_io_buffers` of
`spa/node/io.h`, which is not among the sources. -/
structure spa_io_buffers where
  status : Int
  buffer_id : Nat
  deriving DecidableEq, Repr

/-- Modelled from the spec: `RateMatch`, `struct spa_io_rate_match` of
`spa/node/io.h`; the `double` field `rate` is an exact rational. -/
structure spa_io_rate_match where
  delay : Nat
  size : Nat
  rate : ℚ
  flags : Nat
  deriving DecidableEq

/-- Modelled from the spec: `Clock`, `struct spa_io_clock` of `spa/node/io.h`;
the `double` field `rate_diff` is an exact rational. -/
structure spa_io_clock where
  id : Nat
  name : String
  nsec : Nat
  rate_denom : Nat
  position : Nat
  duration : Nat
  rate_diff : ℚ
  next_nsec : Nat
  deriving DecidableEq

/-- Modelled from the spec: `Position`, `struct spa_io_position` of
`spa/node/io.h` (its `clock` member). -/
structure spa_io_position where
  clock : spa_io_clock
  deriving DecidableEq

/-- Modelled from the spec: the port info, `struct spa_port_info` of
`spa/node/node.h` (the fields the node writes). -/
structure spa_port_info where
  change_mask : Nat
  flags : Nat
  rate_num : Nat
  rate_denom : Nat
  deriving DecidableEq, Repr

/-- Modelled from the spec: the `Transport` collaborator, `struct
spa_bt_transport` of `defs.h` (the fields the node reads). -/
structure spa_bt_transport where
  fd : Int
  read_mtu : Nat
  write_mtu : Nat
  deriving DecidableEq, Repr

/-- The handler installed in `this->source.func`. -/
inductive SourceFunc
  | none
  | a2dp_on_ready_read
  | a2dp_on_duplex_timeout
  deriving DecidableEq, Repr

/-- A call made to a collaborator of the node. -/
inductive Call
  | transport_acquire
  | transport_release
  | codec_init
  | codec_deinit
  | decode_buffer_clear
  | decode_buffer_init (frame_size rate quantum_min quantum_max : Nat)
  | decode_buffer_process (samples duration : Nat)
  | decode_buffer_read (size : Nat)
  | decode_buffer_write_packet (size : Nat)
  | decode_buffer_recover
  | memcpy (buffer_index size : Nat)
  | emit_node_info (change_mask : Nat)
  | emit_port_info (change_mask flags : Nat)
  | call_ready (status : Int)
  | decode_buffer_get_write
  | codec_update_props
  | codec_start_decode (src_size : Nat)
  | codec_decode (src_size avail : Nat)
  | hook_list_isolate
  | hook_list_join
  deriving DecidableEq, Repr

/-- `struct port`. The two intrusive lists `free` and `ready` (`struct spa_list`
of `spa/utils/list.h`, which is not among the sources) are modelled from the
spec as the sequences of the indices (into `buffers`) of the entries linked on
them, in list order: `spa_list_init` is `[]`, `spa_list_append` adds at the
end, `spa_list_first` with `spa_list_remove` takes the head. The array
`buffers` is indexed by all of `Nat`: a write at an index from `MAX_BUFFERS` on
is recorded at that index. `buffer`, the decode buffer, is a collaborator: the
calls made to it are in `Impl.calls`. -/
structure Port where
  current_format : spa_audio_info
  frame_size : Nat
  have_format : Bool
  info_all : Nat
  info : spa_port_info
  io : Option spa_io_buffers
  rate_match : Option spa_io_rate_match
  params_Format_flags : Nat
  params_Buffers_flags : Nat
  params_Latency_flags : Nat
  buffers : Nat → Buffer
  n_buffers : Nat
  free : List Nat
  ready : List Nat

/-- `struct impl`. -/
structure Impl where
  quantum_limit : Nat
  info_all : Nat
  info_change_mask : Nat
  info_flags : Nat
  clock_name : String
  transport : Option spa_bt_transport
  port : Port
  started : Bool
  transport_acquired : Bool
  following : Bool
  matching : Bool
  resampling : Bool
  is_input : Bool
  is_duplex : Bool
  use_duplex_source : Bool
  fd : Int
  source_loop : Bool
  source_func : SourceFunc
  timer_source_loop : Bool
  timer_value : Nat
  duplex_timer_value : Nat
  clock : Option spa_io_clock
  position : Option spa_io_position
  current_time : Nat
  next_time : Nat
  codec_data : Bool
  now : Nat
  sample_count : Nat
  duplex_timeout : Nat
  calls : List Call

/-- `CHECK_PORT(this,d,p)`. -/
def CHECK_PORT (d : spa_direction) (p : Nat) : Bool :=
  d = spa_direction.SPA_DIRECTION_OUTPUT && p = 0

/-! ## Buffer pool -/

/-- The body of the loop of `reset_buffers` for index `i`. -/
def reset_buffers_step (port : Port) (i : Nat) : Port :=
  { port with
    free := port.free ++ [i]
    buffers := Function.update port.buffers i { port.buffers i with outstanding := false } }

/-- `reset_buffers`. -/
def reset_buffers (port : Port) : Port :=
  (List.range port.n_buffers).foldl reset_buffers_step { port with free := [], ready := [] }

/-- `recycle_buffer`. -/
def recycle_buffer (port : Port) (buffer_id : Nat) : Port :=
  let b := port.buffers buffer_id
  if b.outstanding then
    { port with
      free := port.free ++ [buffer_id]
      buffers := Function.update port.buffers buffer_id { b with outstanding := false } }
  else port

/-! ## Rate matching and timers -/

/-- Modelled from the spec: marking a flag according to a condition,
`SPA_FLAG_UPDATE(field, flag, val)` of `spa/utils/defs.h`, on a `uint32_t` field. -/
def SPA_FLAG_UPDATE (field flag : Nat) (val : Bool) : Nat :=
  if val then field ||| flag else field &&& (0xffffffff ^^^ flag)

/-- `setup_matching`; `corr` is the value of `port->buffer.corr` it reads. -/
def setup_matching (this : Impl) (corr : ℚ) : Impl :=
  let this1 : Impl :=
    match this.position, this.port.rate_match with
    | some position, some rate_match =>
      { this with
        port := { this.port with rate_match := some { rate_match with rate := 1 / corr } }
        matching := this.following
        resampling := this.following ||
          decide (this.port.current_format.raw.rate ≠ position.clock.rate_denom) }
    | _, _ => { this with matching := false, resampling := false }
  match this1.port.rate_match with
  | some rate_match =>
    { this1 with
      port := { this1.port with
        rate_match := some { rate_match with
          flags := SPA_FLAG_UPDATE rate_match.flags SPA_IO_RATE_MATCH_FLAG_ACTIVE this1.matching } } }
  | none => this1

/-- `set_timeout`: arms the graph timer at the absolute time `time`. -/
def set_timeout (this : Impl) (time : Nat) : Impl :=
  { this with timer_value := time }

/-- `set_duplex_timeout`. -/
def set_duplex_timeout (this : Impl) (timeout : Nat) : Impl :=
  { this with duplex_timer_value := timeout }

/-- `set_timers`; `now` is what `spa_system_clock_gettime` returns. -/
def set_timers (this : Impl) (now : Nat) : Impl :=
  let this1 := { this with next_time := now }
  set_timeout this1 (if this1.following then 0 else this1.next_time)

/-- `is_following`. -/
def is_following (this : Impl) : Bool :=
  match this.position, this.clock with
  | some position, some clock => decide (position.clock.id ≠ clock.id)
  | _, _ => false

/-! ## Start and stop -/

/-- What the collaborators return during one `send_command`. -/
structure CommandEnv where
  /-- `this->transport->state >= SPA_BT_TRANSPORT_STATE_PENDING` -/
  transport_state_pending : Bool
  /-- result of `spa_bt_transport_acquire` -/
  acquire_res : Int
  /-- `codec->init` returned a non-null session -/
  codec_init_ok : Bool
  /-- result of `spa_bt_decode_buffer_init` -/
  decode_buffer_init_res : Int
  /-- `port->buffer.corr` -/
  corr : ℚ
  /-- `spa_system_clock_gettime` -/
  now : Nat
  /-- result of `spa_bt_transport_release` -/
  release_res : Int

/-- `transport_start`; `transport` is `*this->transport`, which `do_start`
has checked to be non-null. The `fcntl` and `setsockopt` calls on the
descriptor of the transport, which only log when they fail, are left out. -/
def transport_start (this : Impl) (transport : spa_bt_transport) (env : CommandEnv) : Int × Impl :=
  if this.transport_acquired then (0, this)
  else
    let this := { this with calls := this.calls ++ [Call.transport_acquire] }
    if env.acquire_res < 0 then (env.acquire_res, this)
    else
      let this := { this with
        transport_acquired := true
        codec_data := env.codec_init_ok
        calls := this.calls ++ [Call.codec_init] }
      if this.codec_data = false then (- EIO, this)
      else
        let this := { this with port := reset_buffers this.port }
        let this := { this with
          calls := this.calls ++ [Call.decode_buffer_clear,
            Call.decode_buffer_init this.port.frame_size this.port.current_format.raw.rate
              this.quantum_limit this.quantum_limit] }
        if env.decode_buffer_init_res < 0 then (env.decode_buffer_init_res, this)
        else
          let this := { this with fd := transport.fd }
          let this :=
            if !this.use_duplex_source then
              { this with source_func := SourceFunc.a2dp_on_ready_read, source_loop := true }
            else
              let this := { this with
                source_func := SourceFunc.a2dp_on_duplex_timeout, source_loop := true }
              let this := { this with duplex_timeout := SPA_NSEC_PER_MSEC * 25 / 10 }
              set_duplex_timeout this this.duplex_timeout
          let this := { this with timer_source_loop := true }
          let this := { this with sample_count := 0 }
          let this := setup_matching this env.corr
          let this := set_timers this env.now
          (0, this)

/-- `do_start`. -/
def do_start (this : Impl) (env : CommandEnv) : Int × Impl :=
  if this.started then (0, this)
  else
    let this := { this with following := is_following this }
    match this.transport with
    | none => (- EIO, this)
    | some transport =>
      let r : Int × Impl :=
        if env.transport_state_pending || this.is_duplex then transport_start this transport env
        else (0, this)
      (r.1, { r.2 with started := true })

/-- `do_remove_source`. -/
def do_remove_source (this : Impl) : Impl :=
  let this := set_duplex_timeout this 0
  let this := if this.source_loop then { this with source_loop := false } else this
  let this := if this.timer_source_loop then { this with timer_source_loop := false } else this
  { this with timer_value := 0 }

/-- `transport_stop`. -/
def transport_stop (this : Impl) (env : CommandEnv) : Int × Impl :=
  let this := do_remove_source this
  let r : Int × Impl :=
    if this.transport.isSome && this.transport_acquired then
      (env.release_res, { this with calls := this.calls ++ [Call.transport_release] })
    else (0, this)
  let this := { r.2 with transport_acquired := false }
  let this :=
    if this.codec_data then { this with calls := this.calls ++ [Call.codec_deinit] } else this
  let this := { this with codec_data := false }
  let this := { this with calls := this.calls ++ [Call.decode_buffer_clear] }
  (r.1, this)

/-- `do_stop`. -/
def do_stop (this : Impl) (env : CommandEnv) : Int × Impl :=
  if !this.started then (0, this)
  else
    let r := transport_stop this env
    (r.1, { r.2 with started := false })

/-- `SPA_NODE_COMMAND_ID(command)`. -/
inductive NodeCommand
  | Suspend | Pause | Start | Enable | Disable | Flush | Drain | Marker
  deriving DecidableEq, Repr

/-- `impl_node_send_command`. -/
def impl_node_send_command (this : Impl) (command : NodeCommand) (env : CommandEnv) : Int × Impl :=
  match command with
  | NodeCommand.Start =>
    if !this.port.have_format then (- EIO, this)
    else if this.port.n_buffers = 0 then (- EIO, this)
    else
      let r := do_start this env
      if r.1 < 0 then r else (0, r.2)
  | NodeCommand.Suspend | NodeCommand.Pause =>
    let r := do_stop this env
    if r.1 < 0 then r else (0, r.2)
  | _ => (-ENOTSUP, this)

/-! ## Port parameters -/

/-- `emit_port_info`. -/
def emit_port_info (this : Impl) (full : Bool) : Impl :=
  let old := if full then this.port.info.change_mask else 0
  let this :=
    if full then
      { this with port := { this.port with
          info := { this.port.info with change_mask := this.port.info_all } } }
    else this
  if this.port.info.change_mask ≠ 0 then
    { this with
      calls := this.calls ++ [Call.emit_port_info this.port.info.change_mask this.port.info.flags]
      port := { this.port with info := { this.port.info with change_mask := old } } }
  else this

/-- `clear_buffers`. -/
def clear_buffers (this : Impl) (env : CommandEnv) : Impl :=
  let this := (do_stop this env).2
  if this.port.n_buffers > 0 then
    { this with port := { this.port with free := [], ready := [], n_buffers := 0 } }
  else this

/-- The multiplier the `switch` of `port_set_format` applies to `frame_size`;
`none` is the `default:` branch. -/
def sample_size (format : spa_audio_format) : Option Nat :=
  match format with
  | spa_audio_format.S16 => some 2
  | spa_audio_format.S24 => some 3
  | spa_audio_format.S24_32 => some 4
  | spa_audio_format.S32 => some 4
  | spa_audio_format.F32 => some 4
  | _ => none

/-- The part of `port_set_format` after the format has been cleared or
stored: the port info is updated and emitted. -/
def port_set_format_info (this : Impl) : Impl :=
  let this := { this with port := { this.port with info := { this.port.info with
    change_mask := this.port.info.change_mask ||| SPA_PORT_CHANGE_MASK_PARAMS } } }
  let this :=
    if this.port.have_format then
      { this with port := { this.port with
          info := { this.port.info with
            change_mask := (this.port.info.change_mask ||| SPA_PORT_CHANGE_MASK_FLAGS)
              ||| SPA_PORT_CHANGE_MASK_RATE
            flags := SPA_PORT_FLAG_LIVE
            rate_num := 1
            rate_denom := this.port.current_format.raw.rate }
          params_Format_flags := SPA_PARAM_INFO_READWRITE
          params_Buffers_flags := SPA_PARAM_INFO_READ
          params_Latency_flags := this.port.params_Latency_flags ^^^ SPA_PARAM_INFO_SERIAL } }
    else
      { this with port := { this.port with
          params_Format_flags := SPA_PARAM_INFO_WRITE
          params_Buffers_flags := 0 } }
  emit_port_info this false

/-- `port_set_format`. -/
def port_set_format (this : Impl) (format : Option FormatPod) (env : CommandEnv) : Int × Impl :=
  match format with
  | none =>
    let this := clear_buffers this env
    let this := { this with port := { this.port with have_format := false } }
    (0, port_set_format_info this)
  | some format =>
    if format.parse_res < 0 then (format.parse_res, this)
    else if format.media_type ≠ SPA_MEDIA_TYPE_audio ||
        format.media_subtype ≠ SPA_MEDIA_SUBTYPE_raw then (-EINVAL, this)
    else if format.raw_parse_res < 0 then (-EINVAL, this)
    else
      let info : spa_audio_info :=
        { media_type := format.media_type, media_subtype := format.media_subtype,
          raw := format.raw }
      let this := { this with port := { this.port with frame_size := u32 info.raw.channels } }
      match sample_size info.raw.format with
      | none => (-EINVAL, this)
      | some k =>
        let this := { this with port := { this.port with
          frame_size := u32 (this.port.frame_size * k) } }
        let this := { this with port := { this.port with
          current_format := info, have_format := true } }
        (0, port_set_format_info this)

/-- `impl_node_port_set_param`. -/
def impl_node_port_set_param (this : Impl) (direction : spa_direction) (port_id : Nat)
    (id : Nat) (param : Option FormatPod) (env : CommandEnv) : Int × Impl :=
  if !CHECK_PORT direction port_id then (-EINVAL, this)
  else if id = SPA_PARAM_Format then port_set_format this param env
  else if id = SPA_PARAM_Latency then (0, this)
  else (-ENOENT, this)

/-- The object `impl_node_port_enum_params` builds for `SPA_PARAM_Buffers`. -/
structure ParamBuffers where
  buffers_default : Int
  buffers_min : Int
  buffers_max : Int
  blocks : Int
  size_default : Int
  size_min : Int
  size_max : Int
  stride : Int
  deriving DecidableEq, Repr

/-- What one pass through the `switch` of `impl_node_port_enum_params` gives. -/
inductive EnumResult
  | error (res : Int)
  | done
  | param (p : ParamBuffers)
  deriving DecidableEq, Repr

/-- The `case SPA_PARAM_Buffers:` branch of `impl_node_port_enum_params`, for
the index `index` of the enumeration. -/
def port_enum_params_Buffers (this : Impl) (index : Nat) : EnumResult :=
  if !this.port.have_format then EnumResult.error (- EIO)
  else if index > 0 then EnumResult.done
  else EnumResult.param
    { buffers_default := 2, buffers_min := 1, buffers_max := MAX_BUFFERS
      blocks := 1
      size_default := i32 (u32 (this.quantum_limit * this.port.frame_size))
      size_min := i32 (u32 (16 * this.port.frame_size))
      size_max := INT32_MAX
      stride := i32 this.port.frame_size }

/-! ## Buffers -/

/-- The loop of `impl_node_port_use_buffers`, from index `i` on: `true` when
it runs to its end, `false` when it leaves through `return -EINVAL`, with the
port as the loop leaves it. -/
def use_buffers_loop (port : Port) (i : Nat) : List spa_buffer → Bool × Port
  | [] => (true, port)
  | sb :: rest =>
    let b : Buffer := { port.buffers i with buf := some sb, id := i, h := sb.header }
    if sb.data = none then
      (false, { port with buffers := Function.update port.buffers i b })
    else
      use_buffers_loop
        { port with
          free := port.free ++ [i]
          buffers := Function.update port.buffers i { b with outstanding := false } }
        (i + 1) rest

/-- `impl_node_port_use_buffers`. -/
def impl_node_port_use_buffers (this : Impl) (direction : spa_direction) (port_id : Nat)
    (buffers : List spa_buffer) (env : CommandEnv) : Int × Impl :=
  if !CHECK_PORT direction port_id then (-EINVAL, this)
  else if !this.port.have_format then (- EIO, this)
  else
    let this := clear_buffers this env
    let r := use_buffers_loop this.port 0 buffers
    if r.1 then (0, { this with port := { r.2 with n_buffers := buffers.length } })
    else (-EINVAL, { this with port := r.2 })

/-- The memory `data` points to in `port_set_io`, under each of the two types
the port reads it as; a null pointer is `none` under both. -/
structure PortIoData where
  buffers : Option spa_io_buffers
  rate_match : Option spa_io_rate_match

/-- `impl_node_port_set_io`. -/
def impl_node_port_set_io (this : Impl) (direction : spa_direction) (port_id : Nat)
    (id : Nat) (data : PortIoData) : Int × Impl :=
  if !CHECK_PORT direction port_id then (-EINVAL, this)
  else if id = SPA_IO_Buffers then (0, { this with port := { this.port with io := data.buffers } })
  else if id = SPA_IO_RateMatch then
    (0, { this with port := { this.port with rate_match := data.rate_match } })
  else (-ENOENT, this)

/-- `impl_node_port_reuse_buffer`. -/
def impl_node_port_reuse_buffer (this : Impl) (port_id : Nat) (buffer_id : Nat) : Int × Impl :=
  if port_id ≠ 0 then (-EINVAL, this)
  else if this.port.n_buffers = 0 then (- EIO, this)
  else if buffer_id ≥ this.port.n_buffers then (-EINVAL, this)
  else (0, { this with port := recycle_buffer this.port buffer_id })

/-! ## Process -/

/-- `get_samples`: the returned sample count and the value stored through
`duration`. -/
def get_samples (this : Impl) : Option (Nat × Nat) := do
  let rate := this.port.current_format.raw.rate
  let samples ←
    match this.port.rate_match, this.resampling with
    | some rate_match, true => some rate_match.size
    | _, _ =>
      match this.position with
      | some position =>
        (udiv (u64 (position.clock.duration * rate)) position.clock.rate_denom).map u32
      | none => some 1024
  let duration ←
    match this.position with
    | some position =>
      (udiv (u64 (position.clock.duration * rate)) position.clock.rate_denom).map u32
    | none =>
      match this.clock with
      | some clock => (udiv (u64 (clock.duration * rate)) clock.rate_denom).map u32
      | none => some (u32 (1024 * rate) / 48000)
  pure (samples, duration)

/-- What the decode buffer returns during one `process`. -/
structure ProcessEnv where
  /-- `port->buffer.corr` after `spa_bt_decode_buffer_process` -/
  corr : ℚ
  /-- the size `spa_bt_decode_buffer_get_read` reports -/
  avail : Nat

/-- The block `/* copy data to buffers */` of `process_buffering`, entered
when the free list is `index :: free` and `avail > 0`. -/
def process_buffering_copy (this : Impl) (samples avail index : Nat) (free : List Nat) :
    Option Impl := do
  let data_size := u32 (samples * this.port.frame_size)
  let avail := min avail data_size
  let this := { this with calls := this.calls ++ [Call.decode_buffer_read avail] }
  let buffer := this.port.buffers index
  let this := { this with port := { this.port with free := free } }
  let buffer :=
    match buffer.h with
    | some _ => { buffer with
        h := some { seq := this.sample_count, pts := this.now, dts_offset := 0 } }
    | none => buffer
  let buf ← buffer.buf
  if buf.maxsize < data_size then none
  else
    let buffer := { buffer with
      buf := some { buf with
        chunk := { offset := 0, size := avail, stride := this.port.frame_size } } }
    let this := { this with calls := this.calls ++ [Call.memcpy index avail] }
    let frames ← udiv avail this.port.frame_size
    let this := { this with sample_count := u64 (this.sample_count + frames) }
    pure { this with port := { this.port with
      buffers := Function.update this.port.buffers index buffer
      ready := this.port.ready ++ [index] } }

/-- `process_buffering`. -/
def process_buffering (this : Impl) (env : ProcessEnv) : Option Impl := do
  let (samples, duration) ← get_samples this
  let this := { this with calls := this.calls ++ [Call.decode_buffer_process samples duration] }
  let this := setup_matching this env.corr
  let avail := u32 env.avail
  match this.port.free with
  | [] => pure this
  | index :: free =>
    if avail > 0 then process_buffering_copy this samples avail index free
    else pure this

/-- The part of `impl_node_process` before `process_buffering`: the buffer the
host hands back through the IO area is recycled. -/
def process_recycle (this : Impl) (io : spa_io_buffers) : Impl :=
  if io.buffer_id < this.port.n_buffers then
    { this with port := { recycle_buffer this.port io.buffer_id with
        io := some { io with buffer_id := SPA_ID_INVALID } } }
  else this

/-- The part of `impl_node_process` after `process_buffering`: the head of
the ready list is handed to the host. -/
def process_dequeue (this : Impl) : Int × Impl :=
  match this.port.ready with
  | [] => (SPA_STATUS_OK, this)
  | index :: ready =>
    let buffer := { this.port.buffers index with outstanding := true }
    (SPA_STATUS_HAVE_DATA,
      { this with port := { this.port with
          ready := ready
          buffers := Function.update this.port.buffers index buffer
          io := this.port.io.map fun io =>
            { io with buffer_id := buffer.id, status := SPA_STATUS_HAVE_DATA } } })

/-- `impl_node_process`. -/
def impl_node_process (this : Impl) (env : ProcessEnv) : Option (Int × Impl) :=
  match this.port.io with
  | none => some (- EIO, this)
  | some io =>
    if io.status = SPA_STATUS_HAVE_DATA then some (SPA_STATUS_HAVE_DATA, this)
    else
      match process_buffering (process_recycle this io) env with
      | none => none
      | some this => some (process_dequeue this)

/-! ## Node IO areas and the transport -/

/-- The memory `data` points to in `set_io`, under each of the two types the
node reads it as; a null pointer is `none` under both. -/
structure NodeIoData where
  clock : Option spa_io_clock
  position : Option spa_io_position

/-- `impl_node_set_io`. -/
def impl_node_set_io (this : Impl) (id : Nat) (data : NodeIoData) : Int × Impl :=
  let r : Option Impl :=
    if id = SPA_IO_Clock then
      some { this with clock := data.clock.map fun clock => { clock with name := this.clock_name } }
    else if id = SPA_IO_Position then some { this with position := data.position }
    else none
  match r with
  | none => (-ENOENT, this)
  | some this =>
    let following := is_following this
    if this.started && following != this.following then
      (0, { this with following := following, calls := this.calls ++ [Call.decode_buffer_recover] })
    else (0, this)

/-- `do_transport_destroy`. -/
def do_transport_destroy (this : Impl) : Impl :=
  { this with transport := none, transport_acquired := false }

/-! ## Initialisation -/

/-- The arguments of `impl_init`, as far as it reads them. -/
structure InitInfo where
  /-- the support array provides a data loop -/
  data_loop : Bool
  /-- the support array provides a data system -/
  data_system : Bool
  /-- `clock.quantum-limit`, when the key is there and `spa_atou32` parses it -/
  quantum_limit : Option Nat
  /-- `api.bluez5.transport` -/
  transport : Option spa_bt_transport
  /-- `this->transport->a2dp_codec != NULL` -/
  a2dp_codec : Bool
  /-- `this->transport->a2dp_codec->duplex_codec != NULL` -/
  duplex_codec : Bool
  /-- `duplex_codec != NULL` holds of the duplex codec too -/
  duplex_codec_of_duplex : Bool
  /-- `bluez5.a2dp-source-role`, when the key is there: whether it is `input` -/
  role_input : Option Bool
  /-- `api.bluez5.a2dp-duplex`, when the key is there -/
  duplex : Option Bool

/-- The handle memory as the host hands it to `impl_init`: all zero. -/
def zeroed : Impl :=
  { quantum_limit := 0, info_all := 0, info_change_mask := 0, info_flags := 0
    clock_name := "", transport := none
    port :=
      { current_format :=
          { media_type := 0, media_subtype := 0
            raw := { format := spa_audio_format.UNKNOWN, rate := 0, channels := 0 } }
        frame_size := 0, have_format := false, info_all := 0
        info := { change_mask := 0, flags := 0, rate_num := 0, rate_denom := 0 }
        io := none, rate_match := none
        params_Format_flags := 0, params_Buffers_flags := 0, params_Latency_flags := 0
        buffers := fun _ => { id := 0, outstanding := false, buf := none, h := none }
        n_buffers := 0, free := [], ready := [] }
    started := false, transport_acquired := false, following := false
    matching := false, resampling := false
    is_input := false, is_duplex := false, use_duplex_source := false
    fd := 0, source_loop := false, source_func := SourceFunc.none
    timer_source_loop := false, timer_value := 0, duplex_timer_value := 0
    clock := none, position := none, current_time := 0, next_time := 0
    codec_data := false, now := 0, sample_count := 0, duplex_timeout := 0
    calls := [] }

/-- `impl_init`. -/
def impl_init (info : InitInfo) : Int × Impl :=
  let this := zeroed
  if !info.data_loop then (-EINVAL, this)
  else if !info.data_system then (-EINVAL, this)
  else
    let this := { this with clock_name := DEFAULT_CLOCK_NAME }
    let this := { this with
      info_all := (SPA_NODE_CHANGE_MASK_FLAGS ||| SPA_NODE_CHANGE_MASK_PROPS)
        ||| SPA_NODE_CHANGE_MASK_PARAMS
      info_change_mask := 0
      info_flags := SPA_NODE_FLAG_RT }
    let this := { this with port := { this.port with
      info_all := SPA_PORT_CHANGE_MASK_FLAGS ||| SPA_PORT_CHANGE_MASK_PARAMS
      info := { change_mask := SPA_PORT_CHANGE_MASK_FLAGS
                flags := SPA_PORT_FLAG_LIVE ||| SPA_PORT_FLAG_TERMINAL
                rate_num := 0, rate_denom := 0 }
      params_Format_flags := SPA_PARAM_INFO_WRITE
      params_Buffers_flags := 0
      params_Latency_flags := SPA_PARAM_INFO_READWRITE
      ready := [], free := [] } }
    let this := { this with quantum_limit := 8192 }
    let this :=
      match info.quantum_limit with
      | some q => { this with quantum_limit := u32 q }
      | none => this
    let this := { this with transport := info.transport }
    let this :=
      match info.role_input with
      | some b => { this with is_input := b }
      | none => this
    let this :=
      match info.duplex with
      | some b => { this with is_duplex := b }
      | none => this
    if this.transport.isNone then (-EINVAL, this)
    else if !info.a2dp_codec then (-EINVAL, this)
    else if this.is_duplex && !info.duplex_codec then (-EINVAL, this)
    else
      let this := if this.is_duplex then { this with is_input := true } else this
      let this := { this with
        use_duplex_source := this.is_duplex ||
          (if this.is_duplex then info.duplex_codec_of_duplex else info.duplex_codec) }
      (0, this)

/-! ## Reachable states -/

/-- An operation on the node, with the values its collaborators return. -/
inductive Op
  | port_set_param (direction : spa_direction) (port_id id : Nat) (param : Option FormatPod)
      (env : CommandEnv)
  | port_use_buffers (direction : spa_direction) (port_id : Nat) (buffers : List spa_buffer)
      (env : CommandEnv)
  | port_set_io (direction : spa_direction) (port_id id : Nat) (data : PortIoData)
  | port_reuse_buffer (port_id buffer_id : Nat)
  | send_command (command : NodeCommand) (env : CommandEnv)
  | process (env : ProcessEnv)
  | set_io (id : Nat) (data : NodeIoData)
  | transport_destroy

/-- The result and the state after an operation; `none` when it traps. -/
def Op.run (this : Impl) : Op → Option (Int × Impl)
  | Op.port_set_param direction port_id id param env =>
    some (impl_node_port_set_param this direction port_id id param env)
  | Op.port_use_buffers direction port_id buffers env =>
    some (impl_node_port_use_buffers this direction port_id buffers env)
  | Op.port_set_io direction port_id id data =>
    some (impl_node_port_set_io this direction port_id id data)
  | Op.port_reuse_buffer port_id buffer_id =>
    some (impl_node_port_reuse_buffer this port_id buffer_id)
  | Op.send_command command env => some (impl_node_send_command this command env)
  | Op.process env => impl_node_process this env
  | Op.set_io id data => some (impl_node_set_io this id data)
  | Op.transport_destroy => some (0, do_transport_destroy this)

/-- The states the node reaches from a successful `impl_init` by operations. -/
inductive Reachable : Impl → Prop
  | init (info : InitInfo) (this : Impl) (h : impl_init info = (0, this)) : Reachable this
  | step (this : Impl) (op : Op) (res : Int) (next : Impl) (h : Reachable this)
      (hrun : op.run this = some (res, next)) : Reachable next

/-- The result of the last of `envs.length + 1` calls of `impl_node_process`
in a row; `none` when one of them traps. -/
def process_repeatedly (this : Impl) (env : ProcessEnv) : List ProcessEnv → Option (Int × Impl)
  | [] => impl_node_process this env
  | next :: envs =>
    match impl_node_process this env with
    | none => none
    | some r => process_repeatedly r.2 next envs

/-! ## Concrete inputs -/

namespace Example

/-- A transport. -/
def transport : spa_bt_transport := { fd := 7, read_mtu := 672, write_mtu := 672 }

/-- Arguments of `impl_init` that it accepts. -/
def info : InitInfo :=
  { data_loop := true, data_system := true, quantum_limit := none
    transport := some transport, a2dp_codec := true, duplex_codec := false
    duplex_codec_of_duplex := false, role_input := none, duplex := none }

/-- Collaborators that succeed. -/
def env : CommandEnv :=
  { transport_state_pending := true, acquire_res := 0, codec_init_ok := true
    decode_buffer_init_res := 0, corr := 1, now := 1000, release_res := 0 }

/-- A decode buffer that holds `avail` readable bytes. -/
def penv (avail : Nat) : ProcessEnv := { corr := 1, avail := avail }

/-- A raw audio format pod. -/
def pod (format : spa_audio_format) (channels rate : Nat) : FormatPod :=
  { parse_res := 0, media_type := SPA_MEDIA_TYPE_audio, media_subtype := SPA_MEDIA_SUBTYPE_raw
    raw_parse_res := 0, raw := { format := format, rate := rate, channels := channels } }

/-- A buffer whose first data segment is mapped and which has a Header meta. -/
def mapped : spa_buffer :=
  { header := some { seq := 0, pts := 0, dts_offset := 0 }, data := some 4096
    maxsize := 65536, chunk := { offset := 0, size := 0, stride := 0 } }

/-- A buffer whose first data segment is not mapped. -/
def unmapped : spa_buffer := { mapped with data := none }

/-- An IO area in which the host asks for data. -/
def io_need_data : PortIoData :=
  { buffers := some { status := 1, buffer_id := SPA_ID_INVALID }, rate_match := none }

/-- An IO area that still holds data. -/
def io_have_data : PortIoData :=
  { buffers := some { status := SPA_STATUS_HAVE_DATA, buffer_id := 0 }, rate_match := none }

/-- The node after `impl_init`. -/
def node_init : Impl := (impl_init info).2

/-- The node after the format S16, 2 channels, 48000 Hz has been set. -/
def node_format : Impl :=
  (impl_node_port_set_param node_init spa_direction.SPA_DIRECTION_OUTPUT 0 SPA_PARAM_Format
    (some (pod spa_audio_format.S16 2 48000)) env).2

/-- The node after two mapped buffers have been given to it. -/
def node_buffers : Impl :=
  (impl_node_port_use_buffers node_format spa_direction.SPA_DIRECTION_OUTPUT 0
    [mapped, mapped] env).2

/-- The node with its IO area set. -/
def node_io : Impl :=
  (impl_node_port_set_io node_buffers spa_direction.SPA_DIRECTION_OUTPUT 0 SPA_IO_Buffers
    io_need_data).2

/-- The node after `Start`. -/
def node_started : Impl := (impl_node_send_command node_io NodeCommand.Start env).2

/-- The started node after the recycling and buffering steps of a `process`
that finds 100 readable bytes. -/
def node_buffered : Impl :=
  match process_buffering
      (process_recycle node_started { status := 1, buffer_id := SPA_ID_INVALID }) (penv 100) with
  | some next => next
  | none => node_started

/-- The started node after that `process`: buffer 0 is with the host. -/
def node_handed : Impl :=
  match impl_node_process node_started (penv 100) with
  | some r => r.2
  | none => node_started

/-- The node with a format after a `port_use_buffers` whose second buffer is
not mapped. -/
def node_failed_buffers : Impl :=
  (impl_node_port_use_buffers node_format spa_direction.SPA_DIRECTION_OUTPUT 0
    [mapped, unmapped] env).2

/-- The node with its IO area set to one that still holds data. -/
def node_have_data : Impl :=
  (impl_node_port_set_io node_buffers spa_direction.SPA_DIRECTION_OUTPUT 0 SPA_IO_Buffers
    io_have_data).2

end Example

/-! ## Properties of states -/

/-- The node is started only with a format and with buffers. -/
def started_ok (this : Impl) : Prop :=
  this.started = true → this.port.have_format = true ∧ 0 < this.port.n_buffers

/-- The number of buffers below `n_buffers` that are outstanding. -/
def outstanding_count (port : Port) : Nat :=
  ((List.range port.n_buffers).filter fun id => (port.buffers id).outstanding).length

/-- The pool as the specification describes it: every buffer id below
`n_buffers` is in exactly one of the free list, the ready list and the
outstanding buffers, no id is twice in a list, and the free, ready and
outstanding buffers are `n_buffers` together. -/
def pool_partitioned (port : Port) : Prop :=
  (∀ id, id < port.n_buffers →
    (id ∈ port.free ∧ id ∉ port.ready ∧ (port.buffers id).outstanding = false) ∨
    (id ∉ port.free ∧ id ∈ port.ready ∧ (port.buffers id).outstanding = false) ∨
    (id ∉ port.free ∧ id ∉ port.ready ∧ (port.buffers id).outstanding = true)) ∧
  port.free.Nodup ∧ port.ready.Nodup ∧
  port.free.length + port.ready.length + outstanding_count port = port.n_buffers


/-- The lists hold, once each, exactly the buffers below `n_buffers` that are
not outstanding. -/
def pool_ok (port : Port) : Prop :=
  (port.free ++ port.ready).Nodup ∧
  ∀ id, id ∈ port.free ++ port.ready ↔
    (id < port.n_buffers ∧ (port.buffers id).outstanding = false)

/-- The operations in which every buffer given to `port_use_buffers` is mapped. -/
def Op.mapped : Op → Prop
  | Op.port_use_buffers _ _ buffers _ => ∀ b ∈ buffers, b.data ≠ none
  | _ => True

/-- The states the node reaches from a successful `impl_init` by operations in
which every buffer given to `port_use_buffers` is mapped. -/
inductive ReachableMapped : Impl → Prop
  | init (info : InitInfo) (this : Impl) (h : impl_init info = (0, this)) : ReachableMapped this
  | step (this : Impl) (op : Op) (res : Int) (next : Impl) (h : ReachableMapped this)
      (hmapped : op.mapped) (hrun : op.run this = some (res, next)) : ReachableMapped next

/-! ## Listeners -/

/-- `emit_node_info`. -/
def emit_node_info (this : Impl) (full : Bool) : Impl :=
  let old := if full then this.info_change_mask else 0
  let this := if full then { this with info_change_mask := this.info_all } else this
  if this.info_change_mask ≠ 0 then
    { this with
      calls := this.calls ++ [Call.emit_node_info this.info_change_mask]
      info_change_mask := old }
  else this

/-- `impl_node_add_listener`: between `spa_hook_list_isolate` and
`spa_hook_list_join` the new listener is the only one on the hook list. -/
def impl_node_add_listener (this : Impl) : Int × Impl :=
  let this := { this with calls := this.calls ++ [Call.hook_list_isolate] }
  let this := emit_node_info this true
  let this := emit_port_info this true
  let this := { this with calls := this.calls ++ [Call.hook_list_join] }
  (0, this)

/-! ## Runs of operations -/

/-- The operation is a `port_set_param(Format, non-null)` that returned 0. -/
def Op.installs_format (op : Op) (res : Int) : Prop :=
  match op with
  | Op.port_set_param _ _ id (some _) _ => id = SPA_PARAM_Format ∧ res = 0
  | _ => False

/-- The operation is a `port_use_buffers` with at least one buffer that
returned 0. -/
def Op.installs_buffers (op : Op) (res : Int) : Prop :=
  match op with
  | Op.port_use_buffers _ _ buffers _ => buffers ≠ [] ∧ res = 0
  | _ => False

/-- A run of operations from one state to another, with the result of each. -/
inductive Run : Impl → List (Op × Int) → Impl → Prop
  | nil (this : Impl) : Run this [] this
  | cons (this mid next : Impl) (op : Op) (res : Int) (rest : List (Op × Int))
      (hrun : op.run this = some (res, mid)) (h : Run mid rest next) :
      Run this ((op, res) :: rest) next

/-- The states the node reaches from a successful `impl_init` by operations
that satisfy `allowed`. -/
inductive ReachableBy (allowed : Op → Prop) : Impl → Prop
  | init (info : InitInfo) (this : Impl) (h : impl_init info = (0, this)) :
      ReachableBy allowed this
  | step (this : Impl) (op : Op) (res : Int) (next : Impl) (h : ReachableBy allowed this)
      (hallowed : allowed op) (hrun : op.run this = some (res, next)) :
      ReachableBy allowed next

/-- The operations in which a format given to `port_set_param` has a sample
format that `port_set_format` supports. -/
def Op.format_supported : Op → Prop
  | Op.port_set_param _ _ _ (some pod) _ => sample_size pod.raw.format ≠ none
  | _ => True

/-- The operations in which a format given to `port_set_param` has between 1
and `2^30 - 1` channels and a rate that is not 0. -/
def Op.format_positive : Op → Prop
  | Op.port_set_param _ _ _ (some pod) _ =>
    0 < pod.raw.channels ∧ pod.raw.channels < 2 ^ 30 ∧ 0 < pod.raw.rate
  | _ => True

/-- The operations during which `codec->init` and `spa_bt_decode_buffer_init`
succeed, if they are called. -/
def Op.codec_ok : Op → Prop
  | Op.send_command _ env => env.codec_init_ok = true ∧ 0 ≤ env.decode_buffer_init_res
  | _ => True

/-! ## The handlers of the data loop -/

/-- Modelled from the spec: `EINTR` of `errno.h`, which is not among the
sources: the read was interrupted and is retried. -/
def EINTR : Int := 4
/-- Modelled from the spec: `EAGAIN` of `errno.h`, which is not among the
sources: the socket has no data. -/
def EAGAIN : Int := 11
/-- Modelled from the spec: `EWOULDBLOCK` of `errno.h`, which is not among the
sources: the socket has no data. -/
def EWOULDBLOCK : Int := 11
/-- Modelled from the spec: the error kind NoSpace, `ENOSPC` of `errno.h`, which
is not among the sources. -/
def ENOSPC : Int := 28
/-- Modelled from the spec: `SPA_NSEC_PER_SEC` of `spa/utils/defs.h`, which is
not among the sources. -/
def SPA_NSEC_PER_SEC : Nat := 1000000000

/-- The `(int32_t)` conversion of a signed value. -/
def i32_of_int (z : Int) : Int := (z + 2 ^ 31) % 2 ^ 32 - 2 ^ 31

/-- The `uint32_t` that `a -= b` leaves in `a`, for a `ssize_t` value `b`. -/
def u32_sub (a : Nat) (b : Int) : Nat := (((a : Int) - b) % 2 ^ 32).toNat

/-- One return of `recv`: its value and the `errno` it leaves. -/
structure Recv where
  ret : Int
  errno : Int
  deriving DecidableEq, Repr

/-- `read_data`, over the returns of the successive calls of `recv`; `none`
when every recorded call was interrupted. -/
def read_data : List Recv → Option Int
  | [] => none
  | r :: rest =>
    let size_read := r.ret
    if size_read = 0 then some 0
    else if size_read < 0 then
      if r.errno = EINTR then read_data rest
      else if r.errno = EAGAIN ∨ r.errno = EWOULDBLOCK then some 0
      else some (-r.errno)
    else some size_read

/-- Modelled from the spec: the codec session as `decode_data` sees it (the
codecs are not among the sources): what `start_decode` returns for a source of
`src_size` bytes, and what the call number `index` of `decode`, given
`src_size` source bytes and `avail` bytes of room, returns and stores in
`written`. -/
structure CodecOracle where
  start_decode : Nat → Int
  decode : Nat → Nat → Nat → Int × Nat

/-- The `while` loop of `decode_data`, for at most `fuel` turns: the value
returned and the calls of `decode` made; `none` when the turns run out. -/
def decode_loop (codec : CodecOracle) (dst_size : Nat) :
    Nat → Nat → Nat → Nat → Option (Int × List Call)
  | 0, _, src_size, avail =>
    if src_size > 0 then none else some (i32 (dst_size - avail), [])
  | fuel + 1, index, src_size, avail =>
    if src_size > 0 then
      let r := codec.decode index src_size avail
      if r.1 ≤ 0 then some (i32_of_int r.1, [Call.codec_decode src_size avail])
      else if ¬ avail > r.2 then some (-ENOSPC, [Call.codec_decode src_size avail])
      else
        match decode_loop codec dst_size fuel (index + 1) (u32_sub src_size r.1) (avail - r.2) with
        | none => none
        | some (res, calls) => some (res, Call.codec_decode src_size avail :: calls)
    else some (i32 (dst_size - avail), [])

/-- `decode_data`, with at most `fuel` turns of its loop: the value returned
and the calls made to the codec. -/
def decode_data (codec : CodecOracle) (fuel src_size dst_size : Nat) :
    Option (Int × List Call) :=
  let processed := codec.start_decode src_size
  if processed < 0 then some (i32_of_int processed, [Call.codec_start_decode src_size])
  else
    match decode_loop codec dst_size fuel 0 (u32_sub src_size processed) dst_size with
    | none => none
    | some (res, calls) => some (res, Call.codec_start_decode src_size :: calls)

/-- What the collaborators return during one `a2dp_on_ready_read`. -/
structure ReadEnv where
  /-- `source->rmask & SPA_IO_IN` is not 0 -/
  rmask_in : Bool
  /-- the returns of `recv` -/
  recv : List Recv
  /-- `spa_system_clock_gettime` -/
  now : Nat
  /-- `this->codec_props_changed && this->codec_props && this->codec->update_props` -/
  update_props : Bool
  /-- the size `spa_bt_decode_buffer_get_write` reports -/
  avail : Nat
  /-- the codec session -/
  codec : CodecOracle
  /-- the turns granted to the loop of `decode_data` -/
  fuel : Nat

/-- The label `stop:` of `a2dp_on_ready_read`. -/
def a2dp_on_ready_read_stop (this : Impl) : Impl :=
  if this.source_loop then { this with source_loop := false } else this

/-- `a2dp_on_ready_read`; `none` when `recv` is interrupted for ever or
`decode_data` runs out of turns. -/
def a2dp_on_ready_read (this : Impl) (env : ReadEnv) : Option Impl :=
  if !env.rmask_in then some (a2dp_on_ready_read_stop this)
  else if this.transport.isNone then some (a2dp_on_ready_read_stop this)
  else
    match read_data env.recv with
    | none => none
    | some size_read =>
      if size_read = 0 then some this
      else if size_read < 0 then some (a2dp_on_ready_read_stop this)
      else
        let this :=
          if env.update_props then { this with calls := this.calls ++ [Call.codec_update_props] }
          else this
        let this := { this with calls := this.calls ++ [Call.decode_buffer_get_write] }
        let avail := u32 env.avail
        match decode_data env.codec env.fuel size_read.toNat avail with
        | none => none
        | some (decoded, calls) =>
          let this := { this with calls := this.calls ++ calls }
          if decoded < 0 then some this
          else if decoded = 0 then some this
          else if !this.started then some this
          else
            let this := { this with
              calls := this.calls ++ [Call.decode_buffer_write_packet decoded.toNat] }
            some { this with now := env.now }

/-- `a2dp_on_duplex_timeout`. -/
def a2dp_on_duplex_timeout (this : Impl) (env : ReadEnv) : Option Impl :=
  a2dp_on_ready_read (set_duplex_timeout this this.duplex_timeout) env

/-- `a2dp_on_timeout`; `corr` is the value of `port->buffer.corr` it reads. The
`double` arithmetic is exact, and the conversion to `uint64_t` takes the
integer part; where C leaves the conversion undefined (a division by 0, a
quotient below 0 or from `2^64` on) the model takes the quotient by 0 as 0,
a value below 0 as 0, and the low 64 bits. A null `io` is a trap. -/
def a2dp_on_timeout (this : Impl) (corr : ℚ) : Option Impl :=
  if this.transport.isNone then some this
  else
    let now_time := this.next_time
    let this := { this with current_time := now_time }
    let duration := match this.position with
      | some position => position.clock.duration
      | none => 1024
    let rate := match this.position with
      | some position => position.clock.rate_denom
      | none => 48000
    let this := setup_matching this corr
    let this := { this with
      next_time := u64 (Int.toNat ⌊(now_time : ℚ) +
        (u64 (duration * SPA_NSEC_PER_SEC) : ℚ) / corr / (rate : ℚ)⌋) }
    let this := { this with
      clock := this.clock.map fun (clock : spa_io_clock) =>
        { clock with
          nsec := now_time
          position := u64 (clock.position + duration)
          duration := duration
          rate_diff := corr
          next_nsec := this.next_time } }
    match this.port.io with
    | none => none
    | some io =>
      let this := { this with
        port := { this.port with io := some { io with status := SPA_STATUS_HAVE_DATA } } }
      let this := { this with calls := this.calls ++ [Call.call_ready SPA_STATUS_HAVE_DATA] }
      some (set_timeout this this.next_time)

/-- An invocation of a handler by the data loop, with what its collaborators
return. -/
inductive Handler
  | ready_read (env : ReadEnv)
  | duplex_timeout (env : ReadEnv)
  | timeout (corr : ℚ)

/-- The state after a handler; `none` when it traps or does not return. -/
def Handler.run (this : Impl) : Handler → Option Impl
  | Handler.ready_read env => a2dp_on_ready_read this env
  | Handler.duplex_timeout env => a2dp_on_duplex_timeout this env
  | Handler.timeout corr => a2dp_on_timeout this corr

/-- The state after a sequence of handlers. -/
def Handler.runs (this : Impl) : List Handler → Option Impl
  | [] => some this
  | handler :: rest =>
    match handler.run this with
    | none => none
    | some next => Handler.runs next rest

/-- The calls that change the decode buffer; `get_write` only reserves a
region. -/
def Call.changes_decode_buffer : Call → Bool
  | Call.decode_buffer_clear => true
  | Call.decode_buffer_init _ _ _ _ => true
  | Call.decode_buffer_process _ _ => true
  | Call.decode_buffer_read _ => true
  | Call.decode_buffer_write_packet _ => true
  | Call.decode_buffer_recover => true
  | _ => false

/-- The calls made so far that change the decode buffer. -/
def decode_buffer_changes (this : Impl) : List Call :=
  this.calls.filter Call.changes_decode_buffer

/-- The fields of the infos, the format and the session, which the operations
on the pool and the IO areas leave alone. -/
def same_config (this next : Impl) : Prop :=
  next.info_all = this.info_all ∧
  next.port.info_all = this.port.info_all ∧
  next.port.info.flags = this.port.info.flags ∧
  next.port.have_format = this.port.have_format ∧
  next.port.frame_size = this.port.frame_size ∧
  next.port.current_format = this.port.current_format ∧
  next.transport_acquired = this.transport_acquired ∧
  next.codec_data = this.codec_data ∧
  next.source_loop = this.source_loop ∧
  next.port.n_buffers = this.port.n_buffers


/-- An acquired transport comes with a codec session and a registered source. -/
def session_ok (this : Impl) : Prop :=
  this.transport_acquired = true → this.codec_data = true ∧ this.source_loop = true

/-- The port flags are LIVE with TERMINAL or LIVE alone, and LIVE alone once a
format is set. -/
def flags_ok (this : Impl) : Prop :=
  (this.port.info.flags = SPA_PORT_FLAG_LIVE ||| SPA_PORT_FLAG_TERMINAL ∨
    this.port.info.flags = SPA_PORT_FLAG_LIVE) ∧
  (this.port.have_format = true → this.port.info.flags = SPA_PORT_FLAG_LIVE)

/-- With a format, the frame size is the channel count times the size of a
sample, in 32 bits. -/
def frame_ok (this : Impl) : Prop :=
  this.port.have_format = true →
    ∃ k, sample_size this.port.current_format.raw.format = some k ∧
      this.port.frame_size = u32 (u32 this.port.current_format.raw.channels * k)

/-- With a format, the frame size and the rate are not 0. -/
def positive_ok (this : Impl) : Prop :=
  this.port.have_format = true →
    0 < this.port.frame_size ∧ 0 < this.port.current_format.raw.rate

/-- What a handler may do on a node that is not started: it stays not started,
and the calls it adds leave the decode buffer alone. -/
def quiet_step (this next : Impl) : Prop :=
  next.started = false ∧
  ∃ added, next.calls = this.calls ++ added ∧ ∀ c ∈ added, Call.changes_decode_buffer c = false

/-! ## More of the example -/

namespace Example

/-- Collaborators that succeed, with a `spa_bt_transport_release` that
returns 1. -/
def env_release_one : CommandEnv := { env with release_res := 1 }

/-- Collaborators of which `codec->init` returns NULL. -/
def env_codec_fails : CommandEnv := { env with codec_init_ok := false }

/-- The started node after `Pause`. -/
def node_paused : Impl := (impl_node_send_command node_started NodeCommand.Pause env).2

/-- The node after a `Start` during which `codec->init` returns NULL. -/
def node_codec_failed : Impl :=
  (impl_node_send_command node_io NodeCommand.Start env_codec_fails).2

/-- A codec session that strips a header of 12 bytes and decodes 100 bytes
into 400 at every call. -/
def codec : CodecOracle :=
  { start_decode := fun _ => 12, decode := fun _ _ _ => (100, 400) }

/-- A socket that delivers 212 bytes after one interrupted `recv`, a decode
buffer with room for 4096 bytes, and the codec of the example. -/
def renv : ReadEnv :=
  { rmask_in := true, recv := [{ ret := -1, errno := EINTR }, { ret := 212, errno := 0 }]
    now := 2000, update_props := false, avail := 4096, codec := codec, fuel := 8 }

/-- The handlers of the example: the socket handler, the duplex timer and the
graph timer. -/
def handlers : List Handler :=
  [Handler.ready_read renv, Handler.duplex_timeout renv, Handler.timeout 1]

/-- The paused node after the handlers of the example. -/
def node_paused_handled : Impl :=
  match Handler.runs node_paused handlers with
  | some next => next
  | none => node_paused

end Example

namespace Example

/-- The node after the format S16 with `2^31` channels has been set. -/
def node_format_wide : Impl :=
  (impl_node_port_set_param node_init spa_direction.SPA_DIRECTION_OUTPUT 0 SPA_PARAM_Format
    (some (pod spa_audio_format.S16 2147483648 48000)) env).2

/-- The node with the format S16, 2 channels, after a `port_set_param` with the
format U8, 1 channel, which `port_set_format` does not support. -/
def node_format_rejected : Impl :=
  (impl_node_port_set_param node_format spa_direction.SPA_DIRECTION_OUTPUT 0 SPA_PARAM_Format
    (some (pod spa_audio_format.U8 1 48000)) env).2

/-- The node after the format S16 with no channels has been set. -/
def node_format_no_channels : Impl :=
  (impl_node_port_set_param node_init spa_direction.SPA_DIRECTION_OUTPUT 0 SPA_PARAM_Format
    (some (pod spa_audio_format.S16 0 48000)) env).2

/-- The node after the format S16, 2 channels, with rate 0 has been set. -/
def node_format_no_rate : Impl :=
  (impl_node_port_set_param node_init spa_direction.SPA_DIRECTION_OUTPUT 0 SPA_PARAM_Format
    (some (pod spa_audio_format.S16 2 0)) env).2

/-- The node with a format after 33 mapped buffers have been given to it. -/
def node_many_buffers : Impl :=
  (impl_node_port_use_buffers node_format spa_direction.SPA_DIRECTION_OUTPUT 0
    (List.replicate 33 mapped) env).2

end Example

/-! ## The graph timer and the samples, in parts -/

/-- The part of `a2dp_on_timeout` from the check of the transport up to the
publication of the clock, before `io` is written through: the state in which
`io->status = SPA_STATUS_HAVE_DATA` is then executed. -/
def a2dp_on_timeout_clock (this : Impl) (corr : ℚ) : Impl :=
  let now_time := this.next_time
  let this := { this with current_time := now_time }
  let duration := match this.position with
    | some position => position.clock.duration
    | none => 1024
  let rate := match this.position with
    | some position => position.clock.rate_denom
    | none => 48000
  let this := setup_matching this corr
  let this := { this with
    next_time := u64 (Int.toNat ⌊(now_time : ℚ) +
      (u64 (duration * SPA_NSEC_PER_SEC) : ℚ) / corr / (rate : ℚ)⌋) }
  { this with
    clock := this.clock.map fun (clock : spa_io_clock) =>
      { clock with
        nsec := now_time
        position := u64 (clock.position + duration)
        duration := duration
        rate_diff := corr
        next_nsec := this.next_time } }

/-- What a tick of the graph timer publishes, in the words of the
specification: with the duration and the rate of the tick, `next` has
`current_time` at the previous `next_time`, `next_time` at
`current_time + duration · NSEC_PER_SEC / corr / rate`, and the clock `clock`
with `nsec`, `position`, `duration`, `rate_diff` and `next_nsec` updated. -/
def tick_published (this : Impl) (clock : spa_io_clock) (corr : ℚ) (duration rate : Nat)
    (next : Impl) : Prop :=
  next.current_time = this.next_time ∧
  next.next_time = u64 (Int.toNat ⌊(this.next_time : ℚ) +
    (u64 (duration * SPA_NSEC_PER_SEC) : ℚ) / corr / (rate : ℚ)⌋) ∧
  next.clock = some { clock with
    nsec := next.current_time
    position := u64 (clock.position + duration)
    duration := duration
    rate_diff := corr
    next_nsec := next.next_time }

/-- The required sample count in the words of the specification: the size of
the rate match when resampling, else from the position, else from the clock,
else `1024 · rate / 48000`. -/
def claimed_samples (this : Impl) : Option Nat :=
  let rate := this.port.current_format.raw.rate
  match this.port.rate_match, this.resampling with
  | some rate_match, true => some rate_match.size
  | _, _ =>
    match this.position with
    | some position => udiv (position.clock.duration * rate) position.clock.rate_denom
    | none =>
      match this.clock with
      | some clock => udiv (clock.duration * rate) clock.rate_denom
      | none => some (1024 * rate / 48000)

/-! ## The calls of `decode_data` -/

/-- What the codec returned to the calls of `decode` in a call log, the first of
which is the call number `index`. -/
def decode_returns (codec : CodecOracle) : Nat → List Call → List (Int × Nat)
  | _, [] => []
  | index, Call.codec_decode src_size avail :: rest =>
    codec.decode index src_size avail :: decode_returns codec (index + 1) rest
  | index, _ :: rest => decode_returns codec index rest

/-- The sum of the `written` counts of returns of `decode`. -/
def written_sum (returns : List (Int × Nat)) : Nat := (returns.map Prod.snd).sum

/-- The source sizes given to the calls of `decode` in a call log. -/
def decode_src_sizes : List Call → List Nat
  | [] => []
  | Call.codec_decode src_size _ :: rest => src_size :: decode_src_sizes rest
  | _ :: rest => decode_src_sizes rest

/-! ## The RAOP discovery module -/

namespace RaopDiscover

/-- Modelled from the spec: `strncmp(s1, s2, n) == 0` of the C library, which is
not among the sources, on strings given without their final NUL. -/
def strncmp_eq : List Char → List Char → Nat → Bool
  | _, _, 0 => true
  | [], [], _ + 1 => true
  | a :: s1, b :: s2, n + 1 => a == b && strncmp_eq s1 s2 n
  | _, _, _ + 1 => false

/-- Modelled from the spec: `spa_strneq` of `spa/utils/string.h`, which is not
among the sources, on two strings that are not null. -/
def spa_strneq (s1 s2 : List Char) (len : Nat) : Bool := strncmp_eq s1 s2 len

/-- Modelled from the spec: `pw_split_walk` of `pipewire/utils.c`, which is not
among the sources, from the position `state`: it skips the delimiters, returns
NULL (`none`) at the end of the string, and else the string from the start of
the token, the length of the token and the position after the token. -/
def pw_split_walk (state delimiter : List Char) : Option (List Char × Nat × List Char) :=
  let s := state.dropWhile fun c => delimiter.contains c
  match s with
  | [] => none
  | _ :: _ =>
    let len := (s.takeWhile fun c => !delimiter.contains c).length
    some (s, len, s.drop len)

/-- The loop of `str_in_list` from the position `state`, for at most `fuel`
turns; `none` when the turns run out. -/
def str_in_list_loop (delimiters needle : List Char) : Nat → List Char → Option Bool
  | 0, _ => none
  | fuel + 1, state =>
    match pw_split_walk state delimiters with
    | none => some false
    | some (s, len, state) =>
      if spa_strneq needle s len then some true
      else str_in_list_loop delimiters needle fuel state

/-- `str_in_list`, with one turn of the loop for every character of the
haystack and one for the end. -/
def str_in_list (haystack delimiters needle : List Char) : Option Bool :=
  str_in_list_loop delimiters needle (haystack.length + 1) haystack

/-- The branch for the key `cn` of `pw_properties_from_avahi_string`: the value
it sets for `raop.audio.codec`. -/
def pw_properties_from_avahi_string_cn (value : List Char) : Option String :=
  match str_in_list value [','] ['0'] with
  | none => none
  | some true => some "PCM"
  | some false =>
    match str_in_list value [','] ['1'] with
    | none => none
    | some true => some "ALAC"
    | some false =>
      match str_in_list value [','] ['2'] with
      | none => none
      | some true => some "AAC"
      | some false =>
        match str_in_list value [','] ['2'] with
        | none => none
        | some true => some "AAC-ELD"
        | some false => some "unknown"

/-- The entries of a comma-separated list, against which `str_in_list` is
compared: the maximal runs of characters other than the comma, in order (`acc`
is the run being read). -/
def entries : List Char → List Char → List (List Char)
  | [], acc => if acc = [] then [] else [acc]
  | c :: rest, acc =>
    if c = ',' then (if acc = [] then entries rest [] else acc :: entries rest [])
    else entries rest (acc ++ [c])

end RaopDiscover

/-! ## The rest of the example -/

namespace Example

/-- A clock area with a quantum of 256 samples at 48000 Hz. -/
def clock : spa_io_clock :=
  { id := 1, name := "", nsec := 0, rate_denom := 48000, position := 5000, duration := 256
    rate_diff := 1, next_nsec := 0 }

/-- A position area whose clock has a quantum of 512 samples at 44100 Hz. -/
def position : spa_io_position :=
  { clock := { id := 2, name := "", nsec := 0, rate_denom := 44100, position := 0
               duration := 512, rate_diff := 1, next_nsec := 0 } }

/-- The started node with a clock area and no position area. -/
def node_clock : Impl :=
  (impl_node_set_io node_started SPA_IO_Clock { clock := some clock, position := none }).2

/-- The started node with a clock area and a position area. -/
def node_position : Impl :=
  (impl_node_set_io node_clock SPA_IO_Position
    { clock := none, position := some position }).2

/-- The node with a format, with a clock area and no position area. -/
def node_format_clock : Impl :=
  (impl_node_set_io node_format SPA_IO_Clock { clock := some clock, position := none }).2

/-- The node after the format S16, 2 channels, 44100 Hz has been set. -/
def node_format_44100 : Impl :=
  (impl_node_port_set_param node_init spa_direction.SPA_DIRECTION_OUTPUT 0 SPA_PARAM_Format
    (some (pod spa_audio_format.S16 2 44100)) env).2

/-- A mapped buffer whose first data segment holds 64 bytes, 16 frames of the
format S16 with 2 channels. -/
def small : spa_buffer := { mapped with maxsize := 64 }

/-- The node with a format after two small buffers have been given to it. -/
def node_small_buffers : Impl :=
  (impl_node_port_use_buffers node_format spa_direction.SPA_DIRECTION_OUTPUT 0
    [small, small] env).2

/-- The node with two small buffers, its IO area set, after `Start`. -/
def node_small_started : Impl :=
  (impl_node_send_command
    (impl_node_port_set_io node_small_buffers spa_direction.SPA_DIRECTION_OUTPUT 0
      SPA_IO_Buffers io_need_data).2
    NodeCommand.Start env).2

/-- The node with a format and buffers after `Start`, without an IO area on
the port. -/
def node_started_no_io : Impl :=
  (impl_node_send_command node_buffers NodeCommand.Start env).2

/-- Collaborators of which `spa_bt_transport_acquire` fails. -/
def env_acquire_fails : CommandEnv := { env with acquire_res := -1 }

/-- The node after a `Start` during which `spa_bt_transport_acquire` fails. -/
def node_acquire_failed : Impl :=
  (impl_node_send_command node_io NodeCommand.Start env_acquire_fails).2

/-- Arguments of `impl_init` with `clock.quantum-limit` set to 1. -/
def info_quantum_one : InitInfo := { info with quantum_limit := some 1 }

/-- The node with the quantum limit 1 after the format S16, 2 channels, 48000 Hz
has been set. -/
def node_quantum_one : Impl :=
  (impl_node_port_set_param (impl_init info_quantum_one).2
    spa_direction.SPA_DIRECTION_OUTPUT 0 SPA_PARAM_Format
    (some (pod spa_audio_format.S16 2 48000)) env).2

/-- The node with the default quantum limit after the format S32 with 65536
channels has been set. -/
def node_many_channels : Impl :=
  (impl_node_port_set_param node_init spa_direction.SPA_DIRECTION_OUTPUT 0 SPA_PARAM_Format
    (some (pod spa_audio_format.S32 65536 48000)) env).2

/-- A codec session that strips a header of 12 bytes, decodes 100 bytes into
400 at the first call of `decode` and returns 0 at the next. -/
def codec_stops : CodecOracle :=
  { start_decode := fun _ => 12
    decode := fun index _ _ => if index = 0 then (100, 400) else (0, 0) }

/-- A codec session that strips a header of at most 12 bytes and decodes at
most 100 bytes of what is left into 400 at every call. -/
def codec_bounded : CodecOracle :=
  { start_decode := fun src_size => min (src_size : Int) 12
    decode := fun _ src_size _ => (min (src_size : Int) 100, 400) }

end Example

/-! ## Start needs a format and buffers -/

/-- C1: `send_command(Start)` returns `-EIO` when `have_format` is false or
`n_buffers` is 0, and then leaves the whole state as it was: `started`,
`transport_acquired`, `following` and the buffer pool among it. -/
theorem send_command_start_needs_format_and_buffers (this : Impl) (env : CommandEnv)
    (h : this.port.have_format = false ∨ this.port.n_buffers = 0) :
    impl_node_send_command this NodeCommand.Start env = (- EIO, this) := by
  unfold impl_node_send_command
  rcases h with h | h
  · simp [h]
  · simp [h]

/-- C1 at the node as `impl_init` leaves it. -/
theorem send_command_start_needs_format_and_buffers_witness :
    (Example.node_init.port.have_format = false ∨ Example.node_init.port.n_buffers = 0) ∧
      impl_node_send_command Example.node_init NodeCommand.Start Example.env
        = (- EIO, Example.node_init) :=
  ⟨Or.inl rfl, send_command_start_needs_format_and_buffers _ _ (Or.inl rfl)⟩

/-! ## Lemmas -/

/-- The fields `setup_matching` leaves alone. -/
theorem setup_matching_frame (this : Impl) (corr : ℚ) :
    (setup_matching this corr).started = this.started ∧
    (setup_matching this corr).transport_acquired = this.transport_acquired ∧
    (setup_matching this corr).following = this.following ∧
    (setup_matching this corr).calls = this.calls ∧
    (setup_matching this corr).sample_count = this.sample_count ∧
    (setup_matching this corr).now = this.now ∧
    (setup_matching this corr).port.io = this.port.io ∧
    (setup_matching this corr).port.free = this.port.free ∧
    (setup_matching this corr).port.ready = this.port.ready ∧
    (setup_matching this corr).port.buffers = this.port.buffers ∧
    (setup_matching this corr).port.n_buffers = this.port.n_buffers ∧
    (setup_matching this corr).port.have_format = this.port.have_format ∧
    (setup_matching this corr).port.frame_size = this.port.frame_size ∧
    (setup_matching this corr).port.current_format = this.port.current_format := by
  unfold setup_matching
  cases this.position <;> cases h : this.port.rate_match <;> simp [h]

/-- The fields the copy block of `process_buffering` leaves alone. -/
theorem process_buffering_copy_frame (this next : Impl) (samples avail index : Nat)
    (free : List Nat) (h : process_buffering_copy this samples avail index free = some next) :
    next.started = this.started ∧
    next.port.io = this.port.io ∧
    next.port.n_buffers = this.port.n_buffers ∧
    next.port.have_format = this.port.have_format := by
  simp only [process_buffering_copy, Option.bind_eq_bind, Option.bind_eq_some, Option.pure_def] at h
  obtain ⟨buf, -, h⟩ := h
  split at h
  · simp at h
  · simp only [Option.bind_eq_some, Option.some.injEq] at h
    obtain ⟨frames, -, h⟩ := h
    subst h
    simp

/-- The fields `process_buffering` leaves alone. -/
theorem process_buffering_frame (this next : Impl) (env : ProcessEnv)
    (h : process_buffering this env = some next) :
    next.started = this.started ∧
    next.port.io = this.port.io ∧
    next.port.n_buffers = this.port.n_buffers ∧
    next.port.have_format = this.port.have_format := by
  unfold process_buffering at h
  cases hs : get_samples this with
  | none => simp [hs] at h
  | some sd =>
    obtain ⟨samples, duration⟩ := sd
    obtain ⟨f1, -, -, -, -, -, f2, -, -, -, f3, f4, -, -⟩ := setup_matching_frame
      { this with calls := this.calls ++ [Call.decode_buffer_process samples duration] } env.corr
    simp only [hs, Option.bind_eq_bind, Option.some_bind] at h
    split at h
    · simp only [Option.pure_def, Option.some.injEq] at h
      subst h
      exact ⟨f1, f2, f3, f4⟩
    · split at h
      · obtain ⟨g1, g2, g3, g4⟩ := process_buffering_copy_frame _ _ _ _ _ _ h
        exact ⟨g1.trans f1, g2.trans f2, g3.trans f3, g4.trans f4⟩
      · simp only [Option.pure_def, Option.some.injEq] at h
        subst h
        exact ⟨f1, f2, f3, f4⟩

/-- The fields `recycle_buffer` leaves alone. -/
theorem recycle_buffer_frame (port : Port) (buffer_id : Nat) :
    (recycle_buffer port buffer_id).io = port.io ∧
    (recycle_buffer port buffer_id).n_buffers = port.n_buffers ∧
    (recycle_buffer port buffer_id).have_format = port.have_format ∧
    (recycle_buffer port buffer_id).ready = port.ready := by
  by_cases h : (port.buffers buffer_id).outstanding = true <;> simp [recycle_buffer, h]

/-- `process_recycle` keeps the status of the IO area, and the area is still there. -/
theorem process_recycle_io (this : Impl) (io : spa_io_buffers) (hio : this.port.io = some io) :
    ∃ io1, (process_recycle this io).port.io = some io1 ∧ io1.status = io.status := by
  unfold process_recycle
  split
  · exact ⟨_, rfl, rfl⟩
  · exact ⟨io, hio, rfl⟩

/-- The fields `process_recycle` leaves alone. -/
theorem process_recycle_frame (this : Impl) (io : spa_io_buffers) :
    (process_recycle this io).started = this.started ∧
    (process_recycle this io).port.n_buffers = this.port.n_buffers ∧
    (process_recycle this io).port.have_format = this.port.have_format := by
  unfold process_recycle
  split
  · simp [recycle_buffer_frame]
  · simp

/-- The fields `process_dequeue` leaves alone. -/
theorem process_dequeue_frame (this : Impl) :
    (process_dequeue this).2.started = this.started ∧
    (process_dequeue this).2.port.n_buffers = this.port.n_buffers ∧
    (process_dequeue this).2.port.have_format = this.port.have_format := by
  unfold process_dequeue
  split <;> simp


/-- `get_samples` returns when the denominators it divides by are not zero. -/
theorem get_samples_returns (this : Impl)
    (hposition : ∀ p, this.position = some p → p.clock.rate_denom ≠ 0)
    (hclock : this.position = none → ∀ c, this.clock = some c → c.rate_denom ≠ 0) :
    ∃ samples duration, get_samples this = some (samples, duration) := by
  unfold get_samples
  cases hp : this.position with
  | some p =>
    have hd := hposition p hp
    cases hr : this.port.rate_match <;> cases hres : this.resampling <;>
      simp [udiv, hd]
  | none =>
    cases hc : this.clock with
    | none => cases hr : this.port.rate_match <;> cases hres : this.resampling <;> simp [udiv]
    | some c =>
      have hd := hclock hp c hc
      cases hr : this.port.rate_match <;> cases hres : this.resampling <;> simp [udiv, hd]

/-- `process_buffering` returns when `get_samples` does and, in case it fills a
buffer, that buffer is there, its first segment is large enough and the frame
size is not zero. -/
theorem process_buffering_returns (this : Impl) (env : ProcessEnv) (samples duration : Nat)
    (hsamples : get_samples this = some (samples, duration))
    (hcopy : ∀ index free, this.port.free = index :: free → 0 < u32 env.avail →
      this.port.frame_size ≠ 0 ∧
      ∃ buf, (this.port.buffers index).buf = some buf ∧
        u32 (samples * this.port.frame_size) ≤ buf.maxsize) :
    ∃ next, process_buffering this env = some next := by
  obtain ⟨-, -, -, -, -, -, -, f8, -, f10, -, -, f13, -⟩ := setup_matching_frame
    { this with calls := this.calls ++ [Call.decode_buffer_process samples duration] } env.corr
  simp only [process_buffering, hsamples, Option.bind_eq_bind, Option.some_bind]
  split
  · exact ⟨_, rfl⟩
  · rename_i index free hfree
    split
    · rename_i havail
      rw [f8] at hfree
      obtain ⟨hfs, buf, hbuf, hmax⟩ := hcopy index free hfree havail
      simp only [process_buffering_copy, Option.bind_eq_bind, Option.pure_def]
      rw [f10, f13]
      cases hh : (this.port.buffers index).h <;>
        simp [hbuf, udiv, hfs, Nat.not_lt.mpr hmax]
    · exact ⟨_, rfl⟩

/-! ## The loop of `port_use_buffers` -/

/-- The loop runs to its end exactly when every buffer is mapped. -/
theorem use_buffers_loop_ok_iff (port : Port) (i : Nat) (buffers : List spa_buffer) :
    (use_buffers_loop port i buffers).1 = true ↔ ∀ b ∈ buffers, b.data ≠ none := by
  induction buffers generalizing port i with
  | nil => simp [use_buffers_loop]
  | cons sb rest ih =>
    unfold use_buffers_loop
    by_cases hd : sb.data = none
    · simp [hd]
    · simp [hd, ih]

/-- The fields the loop leaves alone. -/
theorem use_buffers_loop_frame (port : Port) (i : Nat) (buffers : List spa_buffer) :
    (use_buffers_loop port i buffers).2.have_format = port.have_format ∧
    (use_buffers_loop port i buffers).2.n_buffers = port.n_buffers ∧
    (use_buffers_loop port i buffers).2.io = port.io ∧
    (use_buffers_loop port i buffers).2.ready = port.ready ∧
    (use_buffers_loop port i buffers).2.frame_size = port.frame_size ∧
    (use_buffers_loop port i buffers).2.current_format = port.current_format := by
  induction buffers generalizing port i with
  | nil => simp [use_buffers_loop]
  | cons sb rest ih =>
    unfold use_buffers_loop
    by_cases hd : sb.data = none
    · simp [hd]
    · simp only [hd, if_false]
      exact ih _ _

/-- The loop does not touch the entries below its start index. -/
theorem use_buffers_loop_below (port : Port) (i : Nat) (buffers : List spa_buffer)
    (k : Nat) (hk : k < i) :
    (use_buffers_loop port i buffers).2.buffers k = port.buffers k := by
  induction buffers generalizing port i with
  | nil => simp [use_buffers_loop]
  | cons sb rest ih =>
    unfold use_buffers_loop
    have hne : k ≠ i := by omega
    by_cases hd : sb.data = none
    · simp [hd, Function.update_noteq hne]
    · simp only [hd, if_false]
      rw [ih _ (i + 1) (by omega)]
      simp [Function.update_noteq hne]

/-- When every buffer is mapped, the loop appends the indices it runs through
to the free list. -/
theorem use_buffers_loop_free (port : Port) (i : Nat) (buffers : List spa_buffer)
    (h : ∀ b ∈ buffers, b.data ≠ none) :
    (use_buffers_loop port i buffers).2.free = port.free ++ List.range' i buffers.length := by
  induction buffers generalizing port i with
  | nil => simp [use_buffers_loop]
  | cons sb rest ih =>
    unfold use_buffers_loop
    have hd : sb.data ≠ none := h sb (by simp)
    simp only [hd, if_false]
    rw [ih _ _ (fun b hb => h b (by simp [hb]))]
    simp [List.range'_succ]

/-- When every buffer is mapped, the loop records buffer `j` at index `i + j`
and clears its flag. -/
theorem use_buffers_loop_buffers (port : Port) (i : Nat) (buffers : List spa_buffer)
    (h : ∀ b ∈ buffers, b.data ≠ none) (j : Nat) (hj : j < buffers.length) :
    (use_buffers_loop port i buffers).2.buffers (i + j) =
      { id := i + j, outstanding := false, buf := some (buffers.get ⟨j, hj⟩)
        h := (buffers.get ⟨j, hj⟩).header } := by
  induction buffers generalizing port i j with
  | nil => simp at hj
  | cons sb rest ih =>
    unfold use_buffers_loop
    have hd : sb.data ≠ none := h sb (by simp)
    simp only [hd, if_false]
    cases j with
    | zero =>
      rw [Nat.add_zero, use_buffers_loop_below _ _ _ _ (by omega)]
      simp
    | succ j =>
      have hj1 : j < rest.length := by simpa using hj
      have := ih { port with
          free := port.free ++ [i]
          buffers := Function.update port.buffers i
            { id := i, outstanding := false, buf := some sb, h := sb.header } }
        (i + 1) (fun b hb => h b (by simp [hb])) j hj1
      rw [show i + (j + 1) = i + 1 + j by omega]
      rw [this]
      simp

/-- `transport_stop` leaves the port alone. -/
theorem transport_stop_port (this : Impl) (env : CommandEnv) :
    (transport_stop this env).2.port = this.port ∧
    (transport_stop this env).2.started = this.started := by
  simp only [transport_stop, do_remove_source, set_duplex_timeout]
  split_ifs <;> simp

/-- `do_stop` leaves the node stopped and the port alone. -/
theorem do_stop_frame (this : Impl) (env : CommandEnv) :
    (do_stop this env).2.started = false ∧ (do_stop this env).2.port = this.port := by
  unfold do_stop
  by_cases h : this.started = true
  · simp [h, (transport_stop_port this env).1]
  · simp [h]

/-- `clear_buffers` stops the node and leaves no buffer configured. -/
theorem clear_buffers_frame (this : Impl) (env : CommandEnv) :
    (clear_buffers this env).started = false ∧
    (clear_buffers this env).port.n_buffers = 0 ∧
    (clear_buffers this env).port.have_format = this.port.have_format ∧
    (clear_buffers this env).port.io = this.port.io ∧
    (clear_buffers this env).port.buffers = this.port.buffers ∧
    (clear_buffers this env).port.free = (if 0 < this.port.n_buffers then [] else this.port.free) ∧
    (clear_buffers this env).port.ready =
      (if 0 < this.port.n_buffers then [] else this.port.ready) := by
  obtain ⟨h1, h2⟩ := do_stop_frame this env
  unfold clear_buffers
  by_cases h : 0 < this.port.n_buffers
  · simp [h, h1, h2]
  · have h0 : this.port.n_buffers = 0 := by omega
    simp [h0, h1, h2]

/-- The fields `emit_port_info` leaves alone. -/
theorem emit_port_info_frame (this : Impl) (full : Bool) :
    (emit_port_info this full).started = this.started ∧
    (emit_port_info this full).port.n_buffers = this.port.n_buffers ∧
    (emit_port_info this full).port.have_format = this.port.have_format ∧
    (emit_port_info this full).port.frame_size = this.port.frame_size ∧
    (emit_port_info this full).port.free = this.port.free ∧
    (emit_port_info this full).port.ready = this.port.ready ∧
    (emit_port_info this full).port.buffers = this.port.buffers ∧
    (emit_port_info this full).port.current_format = this.port.current_format ∧
    (emit_port_info this full).quantum_limit = this.quantum_limit := by
  simp only [emit_port_info]
  split_ifs <;> simp

/-- The fields the info part of `port_set_format` leaves alone. -/
theorem port_set_format_info_frame (this : Impl) :
    (port_set_format_info this).started = this.started ∧
    (port_set_format_info this).port.n_buffers = this.port.n_buffers ∧
    (port_set_format_info this).port.have_format = this.port.have_format ∧
    (port_set_format_info this).port.frame_size = this.port.frame_size ∧
    (port_set_format_info this).port.free = this.port.free ∧
    (port_set_format_info this).port.ready = this.port.ready ∧
    (port_set_format_info this).port.buffers = this.port.buffers ∧
    (port_set_format_info this).port.current_format = this.port.current_format ∧
    (port_set_format_info this).quantum_limit = this.quantum_limit := by
  unfold port_set_format_info
  by_cases h : this.port.have_format = true
  · simp [h, emit_port_info_frame]
  · simp [h, emit_port_info_frame]

/-- The fields the loop of `reset_buffers` leaves alone. -/
theorem reset_buffers_loop_frame (indices : List Nat) (port : Port) :
    (indices.foldl reset_buffers_step port).n_buffers = port.n_buffers ∧
    (indices.foldl reset_buffers_step port).have_format = port.have_format ∧
    (indices.foldl reset_buffers_step port).io = port.io ∧
    (indices.foldl reset_buffers_step port).frame_size = port.frame_size ∧
    (indices.foldl reset_buffers_step port).current_format = port.current_format ∧
    (indices.foldl reset_buffers_step port).rate_match = port.rate_match ∧
    (indices.foldl reset_buffers_step port).ready = port.ready ∧
    (indices.foldl reset_buffers_step port).free = port.free ++ indices := by
  induction indices generalizing port with
  | nil => simp
  | cons i rest ih =>
    rw [List.foldl_cons]
    obtain ⟨h1, h2, h3, h4, h5, h6, h7, h8⟩ := ih (reset_buffers_step port i)
    rw [h1, h2, h3, h4, h5, h6, h7, h8]
    simp [reset_buffers_step]

/-- `reset_buffers` puts the indices below `n_buffers` on the free list, in
order, empties the ready list, and leaves the other fields alone. -/
theorem reset_buffers_frame (port : Port) :
    (reset_buffers port).n_buffers = port.n_buffers ∧
    (reset_buffers port).have_format = port.have_format ∧
    (reset_buffers port).io = port.io ∧
    (reset_buffers port).frame_size = port.frame_size ∧
    (reset_buffers port).current_format = port.current_format ∧
    (reset_buffers port).rate_match = port.rate_match ∧
    (reset_buffers port).ready = [] ∧
    (reset_buffers port).free = List.range port.n_buffers := by
  unfold reset_buffers
  obtain ⟨h1, h2, h3, h4, h5, h6, h7, h8⟩ :=
    reset_buffers_loop_frame (List.range port.n_buffers) { port with free := [], ready := [] }
  rw [h1, h2, h3, h4, h5, h6, h7, h8]
  simp

/-- `transport_start` leaves the format and the number of buffers alone. -/
theorem transport_start_frame (this : Impl) (transport : spa_bt_transport) (env : CommandEnv) :
    (transport_start this transport env).2.port.have_format = this.port.have_format ∧
    (transport_start this transport env).2.port.n_buffers = this.port.n_buffers ∧
    (transport_start this transport env).2.started = this.started := by
  obtain ⟨r1, r2, -⟩ := reset_buffers_frame this.port
  simp only [transport_start]
  split_ifs <;>
    simp [setup_matching_frame, set_timers, set_timeout, set_duplex_timeout, r1,
      r2]

/-- `do_start` leaves the format and the number of buffers alone. -/
theorem do_start_frame (this : Impl) (env : CommandEnv) :
    (do_start this env).2.port.have_format = this.port.have_format ∧
    (do_start this env).2.port.n_buffers = this.port.n_buffers := by
  have h1 := fun x t => (transport_start_frame x t env).1
  have h2 := fun x t => (transport_start_frame x t env).2.1
  by_cases hs : this.started = true
  · simp [do_start, hs]
  · by_cases hp : (env.transport_state_pending || this.is_duplex) = true <;>
      cases ht : this.transport <;> simp [do_start, hs, hp, ht, h1, h2]

/-- `impl_node_send_command` keeps `started_ok`. -/
theorem send_command_started_ok (this : Impl) (command : NodeCommand) (env : CommandEnv)
    (h : started_ok this) : started_ok (impl_node_send_command this command env).2 := by
  unfold impl_node_send_command
  cases command
  case Start =>
    dsimp only
    by_cases hf : this.port.have_format = true
    · by_cases hn : this.port.n_buffers = 0
      · simpa [hf, hn] using h
      · have hn0 : 0 < this.port.n_buffers := by omega
        obtain ⟨d1, d2⟩ := do_start_frame this env
        simp only [hf, hn, Bool.not_true, if_false, Bool.false_eq_true]
        split <;> intro _ <;> exact ⟨d1.trans hf, d2 ▸ hn0⟩
    · simpa [hf] using h
  case Suspend =>
    dsimp only
    split <;> intro hs <;> simp [(do_stop_frame this env).1] at hs
  case Pause =>
    dsimp only
    split <;> intro hs <;> simp [(do_stop_frame this env).1] at hs
  all_goals exact h

/-- `port_set_format` keeps `started_ok`. -/
theorem port_set_format_started_ok (this : Impl) (format : Option FormatPod) (env : CommandEnv)
    (h : started_ok this) : started_ok (port_set_format this format env).2 := by
  unfold port_set_format
  cases format with
  | none =>
    intro hs
    simp [(port_set_format_info_frame _).1, (clear_buffers_frame this env).1] at hs
  | some pod =>
    dsimp only
    split_ifs
    · exact h
    · exact h
    · exact h
    · split
      · exact h
      · intro hs
        simp only [(port_set_format_info_frame _).1] at hs
        obtain ⟨-, hn⟩ := h hs
        rw [(port_set_format_info_frame _).2.1, (port_set_format_info_frame _).2.2.1]
        exact ⟨rfl, hn⟩

/-- `impl_node_port_use_buffers` keeps `started_ok`. -/
theorem port_use_buffers_started_ok (this : Impl) (direction : spa_direction) (port_id : Nat)
    (buffers : List spa_buffer) (env : CommandEnv) (h : started_ok this) :
    started_ok (impl_node_port_use_buffers this direction port_id buffers env).2 := by
  by_cases hc : CHECK_PORT direction port_id = true
  · by_cases hf : this.port.have_format = true
    · intro hs
      simp only [impl_node_port_use_buffers, hc, hf, Bool.not_true, Bool.false_eq_true,
        if_false] at hs
      split_ifs at hs <;> simp [(clear_buffers_frame this env).1] at hs
    · simpa [impl_node_port_use_buffers, hc, hf] using h
  · simpa [impl_node_port_use_buffers, hc] using h

/-- `impl_node_process` keeps `started_ok`. -/
theorem process_started_ok (this next : Impl) (env : ProcessEnv) (res : Int)
    (hrun : impl_node_process this env = some (res, next)) (h : started_ok this) :
    started_ok next := by
  unfold impl_node_process at hrun
  cases hio : this.port.io with
  | none =>
    simp [hio] at hrun
    exact hrun.2 ▸ h
  | some io =>
    simp only [hio] at hrun
    split_ifs at hrun
    · simp at hrun
      exact hrun.2 ▸ h
    · cases hb : process_buffering (process_recycle this io) env with
      | none => simp [hb] at hrun
      | some buffered =>
        simp only [hb, Option.some.injEq] at hrun
        obtain ⟨b1, -, b3, b4⟩ := process_buffering_frame _ _ _ hb
        obtain ⟨r1, r3, r4⟩ := process_recycle_frame this io
        obtain ⟨d1, d3, d4⟩ := process_dequeue_frame buffered
        have hnext : next = (process_dequeue buffered).2 := by rw [hrun]
        intro hs
        rw [hnext] at hs ⊢
        rw [d1, b1, r1] at hs
        rw [d3, d4, b3, b4, r3, r4]
        exact h hs

/-- Every operation keeps `started_ok`. -/
theorem op_run_started_ok (this next : Impl) (op : Op) (res : Int)
    (hrun : op.run this = some (res, next)) (h : started_ok this) : started_ok next := by
  cases op with
  | port_set_param direction port_id id param env =>
    simp only [Op.run, Option.some.injEq] at hrun
    have hnext : next = (impl_node_port_set_param this direction port_id id param env).2 := by
      rw [hrun]
    rw [hnext]
    unfold impl_node_port_set_param
    split_ifs
    · exact h
    · exact port_set_format_started_ok this param env h
    · exact h
    · exact h
  | port_use_buffers direction port_id buffers env =>
    simp only [Op.run, Option.some.injEq] at hrun
    have hnext : next = (impl_node_port_use_buffers this direction port_id buffers env).2 := by
      rw [hrun]
    rw [hnext]
    exact port_use_buffers_started_ok this direction port_id buffers env h
  | port_set_io direction port_id id data =>
    simp only [Op.run, Option.some.injEq] at hrun
    have hnext : next = (impl_node_port_set_io this direction port_id id data).2 := by rw [hrun]
    rw [hnext]
    unfold impl_node_port_set_io
    split_ifs <;> exact h
  | port_reuse_buffer port_id buffer_id =>
    simp only [Op.run, Option.some.injEq] at hrun
    have hnext : next = (impl_node_port_reuse_buffer this port_id buffer_id).2 := by rw [hrun]
    rw [hnext]
    unfold impl_node_port_reuse_buffer
    obtain ⟨-, r2, r3, -⟩ := recycle_buffer_frame this.port buffer_id
    split_ifs
    · exact h
    · exact h
    · exact h
    · intro hs
      simp only [r2, r3]
      exact h hs
  | send_command command env =>
    simp only [Op.run, Option.some.injEq] at hrun
    have hnext : next = (impl_node_send_command this command env).2 := by rw [hrun]
    rw [hnext]
    exact send_command_started_ok this command env h
  | process env => exact process_started_ok this next env res hrun h
  | set_io id data =>
    simp only [Op.run, Option.some.injEq] at hrun
    have hnext : next = (impl_node_set_io this id data).2 := by rw [hrun]
    rw [hnext]
    unfold impl_node_set_io
    split_ifs <;> first | exact h | (simp only []; split_ifs <;> exact h)
  | transport_destroy =>
    simp only [Op.run, Option.some.injEq, Prod.mk.injEq] at hrun
    rw [← hrun.2]
    exact h


/-- The node as `impl_init` leaves it is not started. -/
theorem impl_init_started (info : InitInfo) : (impl_init info).2.started = false := by
  rcases info with ⟨_ | _, _ | _, _ | _, _ | _, _ | _, _ | _, _ | _, _ | (_ | _), _ | (_ | _)⟩ <;> rfl

/-- What a successful `port_set_format` with a format pod stores. -/
theorem port_set_format_accepts (this : Impl) (pod : FormatPod) (env : CommandEnv) (k : Nat)
    (hparse : 0 ≤ pod.parse_res) (haudio : pod.media_type = SPA_MEDIA_TYPE_audio)
    (hraw : pod.media_subtype = SPA_MEDIA_SUBTYPE_raw) (hrawparse : 0 ≤ pod.raw_parse_res)
    (hk : sample_size pod.raw.format = some k) :
    (port_set_format this (some pod) env).1 = 0 ∧
    (port_set_format this (some pod) env).2.port.have_format = true ∧
    (port_set_format this (some pod) env).2.port.frame_size = u32 (u32 pod.raw.channels * k) ∧
    (port_set_format this (some pod) env).2.port.current_format.raw = pod.raw ∧
    (port_set_format this (some pod) env).2.quantum_limit = this.quantum_limit := by
  have h1 : ¬ pod.parse_res < 0 := by omega
  have h2 : ¬ pod.raw_parse_res < 0 := by omega
  have f3 := fun x => (port_set_format_info_frame x).2.2.1
  have f4 := fun x => (port_set_format_info_frame x).2.2.2.1
  have f8 := fun x => (port_set_format_info_frame x).2.2.2.2.2.2.2.1
  have f9 := fun x => (port_set_format_info_frame x).2.2.2.2.2.2.2.2
  simp [port_set_format, h1, h2, haudio, hraw, hk, f3, f4, f8, f9]

/-! ## The pool on runs without a failing `port_use_buffers` -/

/-- `pool_ok` reads only the lists, `n_buffers` and the outstanding flags. -/
theorem pool_ok_congr (p q : Port) (hfree : q.free = p.free) (hready : q.ready = p.ready)
    (hn : q.n_buffers = p.n_buffers)
    (hflags : ∀ id, (q.buffers id).outstanding = (p.buffers id).outstanding)
    (h : pool_ok p) : pool_ok q := by
  unfold pool_ok at h ⊢
  rw [hfree, hready, hn]
  refine ⟨h.1, ?_⟩
  intro id
  rw [hflags id]
  exact h.2 id

/-- A pool that is `pool_ok` is partitioned as the specification describes. -/
theorem pool_ok_partitioned (port : Port) (h : pool_ok port) : pool_partitioned port := by
  obtain ⟨hnodup, hmem⟩ := h
  have hdisj := List.nodup_append.mp hnodup
  refine ⟨?_, hdisj.1, hdisj.2.1, ?_⟩
  · intro id hid
    cases hout : (port.buffers id).outstanding with
    | false =>
      have hin : id ∈ port.free ++ port.ready := (hmem id).mpr ⟨hid, hout⟩
      rcases List.mem_append.mp hin with hf | hr
      · exact Or.inl ⟨hf, fun hr => hdisj.2.2 hf hr, rfl⟩
      · exact Or.inr (Or.inl ⟨fun hf => hdisj.2.2 hf hr, hr, rfl⟩)
    | true =>
      have hnot : id ∉ port.free ++ port.ready := by
        intro hin
        have := ((hmem id).mp hin).2
        rw [hout] at this
        cases this
      exact Or.inr (Or.inr ⟨fun hf => hnot (List.mem_append.mpr (Or.inl hf)),
        fun hr => hnot (List.mem_append.mpr (Or.inr hr)), rfl⟩)
  · have hperm : (port.free ++ port.ready).Perm
        ((List.range port.n_buffers).filter fun id => !(port.buffers id).outstanding) := by
      rw [List.perm_ext_iff_of_nodup hnodup ((List.nodup_range _).filter _)]
      intro id
      rw [hmem id]
      simp
    have hlen := hperm.length_eq
    have hsplit := List.length_eq_length_filter_add (l := List.range port.n_buffers)
      (fun id => (port.buffers id).outstanding)
    rw [List.length_append] at hlen
    rw [List.length_range] at hsplit
    unfold outstanding_count
    omega

/-- `recycle_buffer` keeps `pool_ok`. -/
theorem recycle_buffer_pool_ok (port : Port) (buffer_id : Nat)
    (hid : buffer_id < port.n_buffers) (h : pool_ok port) :
    pool_ok (recycle_buffer port buffer_id) := by
  by_cases hout : (port.buffers buffer_id).outstanding = true
  · obtain ⟨hnodup, hmem⟩ := h
    have hnot : buffer_id ∉ port.free ++ port.ready := by
      intro hin
      have := ((hmem buffer_id).mp hin).2
      rw [hout] at this
      cases this
    have hperm : ((port.free ++ [buffer_id]) ++ port.ready).Perm
        (buffer_id :: (port.free ++ port.ready)) := by
      rw [List.append_assoc]
      exact List.perm_middle
    simp only [recycle_buffer, hout, if_true, pool_ok]
    refine ⟨hperm.nodup_iff.mpr (List.nodup_cons.mpr ⟨hnot, hnodup⟩), ?_⟩
    intro id
    rw [hperm.mem_iff, List.mem_cons, hmem id]
    by_cases he : id = buffer_id
    · subst he
      simp [hid]
    · simp [he, Function.update_noteq he]
  · simp only [recycle_buffer, hout, if_false]
    exact h

/-- `process_recycle` keeps `pool_ok`. -/
theorem process_recycle_pool_ok (this : Impl) (io : spa_io_buffers) (h : pool_ok this.port) :
    pool_ok (process_recycle this io).port := by
  unfold process_recycle
  split
  · rename_i hid
    exact pool_ok_congr (recycle_buffer this.port io.buffer_id) _ rfl rfl rfl (fun _ => rfl)
      (recycle_buffer_pool_ok this.port io.buffer_id hid h)
  · exact h

/-- `setup_matching` keeps `pool_ok`. -/
theorem setup_matching_pool_ok (this : Impl) (corr : ℚ) (h : pool_ok this.port) :
    pool_ok (setup_matching this corr).port := by
  obtain ⟨-, -, -, -, -, -, -, f8, f9, f10, f11, -, -, -⟩ := setup_matching_frame this corr
  exact pool_ok_congr this.port _ f8 f9 f11 (fun id => by rw [f10]) h

/-- What the copy block of `process_buffering` does to the pool. -/
theorem process_buffering_copy_pool (this next : Impl) (samples avail index : Nat)
    (free : List Nat) (h : process_buffering_copy this samples avail index free = some next) :
    next.port.free = free ∧
    next.port.ready = this.port.ready ++ [index] ∧
    next.port.n_buffers = this.port.n_buffers ∧
    ∀ id, (next.port.buffers id).outstanding = (this.port.buffers id).outstanding := by
  simp only [process_buffering_copy, Option.bind_eq_bind, Option.bind_eq_some, Option.pure_def] at h
  obtain ⟨buf, -, h⟩ := h
  split at h
  · simp at h
  · simp only [Option.bind_eq_some, Option.some.injEq] at h
    obtain ⟨frames, -, h⟩ := h
    subst h
    refine ⟨rfl, rfl, rfl, ?_⟩
    intro id
    by_cases he : id = index
    · subst he
      cases hh : (this.port.buffers id).h <;> simp [hh]
    · simp [Function.update_noteq he]

/-- The copy block of `process_buffering` keeps `pool_ok`. -/
theorem process_buffering_copy_pool_ok (this next : Impl) (samples avail index : Nat)
    (free : List Nat) (hfree : this.port.free = index :: free)
    (hrun : process_buffering_copy this samples avail index free = some next)
    (h : pool_ok this.port) : pool_ok next.port := by
  obtain ⟨c1, c2, c3, c4⟩ := process_buffering_copy_pool this next samples avail index free hrun
  obtain ⟨hnodup, hmem⟩ := h
  rw [hfree] at hnodup hmem
  have hperm : (free ++ (this.port.ready ++ [index])).Perm (index :: free ++ this.port.ready) := by
    rw [← List.append_assoc]
    exact List.perm_append_singleton _ _
  unfold pool_ok
  rw [c1, c2, c3]
  refine ⟨hperm.nodup_iff.mpr hnodup, ?_⟩
  intro id
  rw [hperm.mem_iff, hmem id, c4 id]

/-- `process_buffering` keeps `pool_ok`. -/
theorem process_buffering_pool_ok (this next : Impl) (env : ProcessEnv)
    (hrun : process_buffering this env = some next) (h : pool_ok this.port) :
    pool_ok next.port := by
  unfold process_buffering at hrun
  cases hs : get_samples this with
  | none => simp [hs] at hrun
  | some sd =>
    obtain ⟨samples, duration⟩ := sd
    have hm := setup_matching_pool_ok
      { this with calls := this.calls ++ [Call.decode_buffer_process samples duration] } env.corr h
    simp only [hs, Option.bind_eq_bind, Option.some_bind] at hrun
    split at hrun
    · simp only [Option.pure_def, Option.some.injEq] at hrun
      subst hrun
      exact hm
    · rename_i index free hfree
      split at hrun
      · exact process_buffering_copy_pool_ok _ _ _ _ _ _ hfree hrun hm
      · simp only [Option.pure_def, Option.some.injEq] at hrun
        subst hrun
        exact hm

/-- `process_dequeue` keeps `pool_ok`. -/
theorem process_dequeue_pool_ok (this : Impl) (h : pool_ok this.port) :
    pool_ok (process_dequeue this).2.port := by
  unfold process_dequeue
  cases hready : this.port.ready with
  | nil =>
    simp only
    exact h
  | cons index ready =>
    obtain ⟨hnodup, hmem⟩ := h
    rw [hready] at hnodup hmem
    have hperm : (this.port.free ++ index :: ready).Perm (index :: (this.port.free ++ ready)) :=
      List.perm_middle
    have hnodup' := List.nodup_cons.mp (hperm.nodup_iff.mp hnodup)
    simp only [pool_ok]
    refine ⟨hnodup'.2, ?_⟩
    intro id
    by_cases he : id = index
    · subst he
      simp only [Function.update_same]
      constructor
      · intro hin
        exact absurd hin hnodup'.1
      · intro hcon
        simp at hcon
    · rw [Function.update_noteq he, ← hmem id, hperm.mem_iff, List.mem_cons]
      simp [he]

/-- `impl_node_process` keeps `pool_ok`. -/
theorem process_pool_ok (this next : Impl) (env : ProcessEnv) (res : Int)
    (hrun : impl_node_process this env = some (res, next)) (h : pool_ok this.port) :
    pool_ok next.port := by
  unfold impl_node_process at hrun
  cases hio : this.port.io with
  | none =>
    simp [hio] at hrun
    exact hrun.2 ▸ h
  | some io =>
    simp only [hio] at hrun
    split_ifs at hrun
    · simp at hrun
      exact hrun.2 ▸ h
    · cases hb : process_buffering (process_recycle this io) env with
      | none => simp [hb] at hrun
      | some buffered =>
        simp only [hb, Option.some.injEq] at hrun
        have hnext : next = (process_dequeue buffered).2 := by rw [hrun]
        rw [hnext]
        exact process_dequeue_pool_ok _
          (process_buffering_pool_ok _ _ _ hb (process_recycle_pool_ok this io h))

/-- After `port_use_buffers` succeeds from a state that has buffers, or whose
lists are both empty, the free list is `0, …, n - 1`, the ready list is empty
and none of the `n` buffers is outstanding. -/
theorem port_use_buffers_pool_from_clean (this : Impl) (direction : spa_direction)
    (port_id : Nat) (buffers : List spa_buffer) (env : CommandEnv)
    (hport : CHECK_PORT direction port_id = true) (hformat : this.port.have_format = true)
    (hclean : 0 < this.port.n_buffers ∨ (this.port.free = [] ∧ this.port.ready = []))
    (hmapped : ∀ b ∈ buffers, b.data ≠ none) :
    (impl_node_port_use_buffers this direction port_id buffers env).1 = 0 ∧
    (impl_node_port_use_buffers this direction port_id buffers env).2.port.n_buffers
      = buffers.length ∧
    (impl_node_port_use_buffers this direction port_id buffers env).2.port.free
      = List.range buffers.length ∧
    (impl_node_port_use_buffers this direction port_id buffers env).2.port.ready = [] ∧
    ∀ i, i < buffers.length →
      ((impl_node_port_use_buffers this direction port_id buffers env).2.port.buffers
        i).outstanding = false := by
  obtain ⟨-, -, -, -, -, c6, c7⟩ := clear_buffers_frame this env
  have hfree : (clear_buffers this env).port.free = [] := by
    rw [c6]
    rcases hclean with h | h
    · simp [h]
    · simp [h.1]
  have hready : (clear_buffers this env).port.ready = [] := by
    rw [c7]
    rcases hclean with h | h
    · simp [h]
    · simp [h.2]
  have hok := (use_buffers_loop_ok_iff (clear_buffers this env).port 0 buffers).mpr hmapped
  have hrun : impl_node_port_use_buffers this direction port_id buffers env =
      (0, { clear_buffers this env with
        port := { (use_buffers_loop (clear_buffers this env).port 0 buffers).2 with
          n_buffers := buffers.length } }) := by
    simp [impl_node_port_use_buffers, hport, hformat, hok]
  rw [hrun]
  refine ⟨rfl, rfl, ?_, ?_, ?_⟩
  · have := use_buffers_loop_free (clear_buffers this env).port 0 buffers hmapped
    simp [this, hfree, List.range_eq_range']
  · have := (use_buffers_loop_frame (clear_buffers this env).port 0 buffers).2.2.2.1
    simp [this, hready]
  · intro i hi
    have hb := use_buffers_loop_buffers (clear_buffers this env).port 0 buffers hmapped i hi
    rw [Nat.zero_add] at hb
    simp [hb]

/-- The lists of a pool that is `pool_ok` and has no buffers are empty. -/
theorem pool_ok_empty (port : Port) (h : pool_ok port) (hn : port.n_buffers = 0) :
    port.free = [] ∧ port.ready = [] := by
  have hnil : port.free ++ port.ready = [] := by
    rw [List.eq_nil_iff_forall_not_mem]
    intro id hin
    have := ((h.2 id).mp hin).1
    omega
  exact List.append_eq_nil.mp hnil

/-- A pool with `n` buffers, none outstanding, all on the free list in order
and none on the ready list is `pool_ok`. -/
theorem pool_ok_of_fresh (port : Port) (hfree : port.free = List.range port.n_buffers)
    (hready : port.ready = [])
    (hflags : ∀ i, i < port.n_buffers → (port.buffers i).outstanding = false) :
    pool_ok port := by
  unfold pool_ok
  rw [hfree, hready, List.append_nil]
  refine ⟨List.nodup_range _, ?_⟩
  intro id
  rw [List.mem_range]
  constructor
  · intro hid
    exact ⟨hid, hflags id hid⟩
  · intro hid
    exact hid.1

/-- The flags after the loop of `reset_buffers`. -/
theorem reset_buffers_loop_flags (indices : List Nat) (port : Port) (id : Nat) :
    ((indices.foldl reset_buffers_step port).buffers id).outstanding =
      if id ∈ indices then false else (port.buffers id).outstanding := by
  induction indices generalizing port with
  | nil => simp
  | cons i rest ih =>
    rw [List.foldl_cons, ih]
    by_cases hrest : id ∈ rest
    · simp [hrest]
    · by_cases he : id = i
      · subst he
        simp [hrest, reset_buffers_step]
      · simp [hrest, he, reset_buffers_step, Function.update_noteq he]

/-- `reset_buffers` leaves a pool that is `pool_ok`. -/
theorem reset_buffers_pool_ok (port : Port) : pool_ok (reset_buffers port) := by
  obtain ⟨r1, -, -, -, -, -, r7, r8⟩ := reset_buffers_frame port
  apply pool_ok_of_fresh
  · rw [r8, r1]
  · exact r7
  · intro i hi
    rw [r1] at hi
    unfold reset_buffers
    rw [reset_buffers_loop_flags]
    simp [hi]

/-- `clear_buffers` keeps `pool_ok`, and leaves both lists empty. -/
theorem clear_buffers_pool_ok (this : Impl) (env : CommandEnv) (h : pool_ok this.port) :
    pool_ok (clear_buffers this env).port ∧
    (clear_buffers this env).port.free = [] ∧ (clear_buffers this env).port.ready = [] := by
  obtain ⟨-, c2, -, -, -, c6, c7⟩ := clear_buffers_frame this env
  have hlists : (clear_buffers this env).port.free = [] ∧
      (clear_buffers this env).port.ready = [] := by
    rw [c6, c7]
    by_cases hn : 0 < this.port.n_buffers
    · simp [hn]
    · have h0 : this.port.n_buffers = 0 := by omega
      simpa [h0] using pool_ok_empty this.port h h0
  refine ⟨?_, hlists⟩
  apply pool_ok_of_fresh
  · rw [hlists.1, c2]
    rfl
  · exact hlists.2
  · intro i hi
    rw [c2] at hi
    omega

/-- `impl_node_port_use_buffers` with mapped buffers keeps `pool_ok`. -/
theorem port_use_buffers_pool_ok (this : Impl) (direction : spa_direction) (port_id : Nat)
    (buffers : List spa_buffer) (env : CommandEnv) (hmapped : ∀ b ∈ buffers, b.data ≠ none)
    (h : pool_ok this.port) :
    pool_ok (impl_node_port_use_buffers this direction port_id buffers env).2.port := by
  by_cases hc : CHECK_PORT direction port_id = true
  · by_cases hf : this.port.have_format = true
    · have hclean : 0 < this.port.n_buffers ∨ (this.port.free = [] ∧ this.port.ready = []) := by
        by_cases hn : 0 < this.port.n_buffers
        · exact Or.inl hn
        · exact Or.inr (pool_ok_empty this.port h (by omega))
      obtain ⟨-, u2, u3, u4, u5⟩ :=
        port_use_buffers_pool_from_clean this direction port_id buffers env hc hf hclean hmapped
      apply pool_ok_of_fresh
      · rw [u3, u2]
      · exact u4
      · intro i hi
        rw [u2] at hi
        exact u5 i hi
    · simpa [impl_node_port_use_buffers, hc, hf] using h
  · simpa [impl_node_port_use_buffers, hc] using h

/-- The pool after `transport_start` is the pool before it, or that pool reset. -/
theorem transport_start_pool_ok (this : Impl) (transport : spa_bt_transport) (env : CommandEnv)
    (h : pool_ok this.port) : pool_ok (transport_start this transport env).2.port := by
  have hreset := reset_buffers_pool_ok this.port
  have hm := fun x => setup_matching_pool_ok x env.corr
  simp only [transport_start]
  split_ifs
  all_goals first
    | exact h
    | exact hreset
    | exact hm _ hreset

/-- `do_start` keeps `pool_ok`. -/
theorem do_start_pool_ok (this : Impl) (env : CommandEnv) (h : pool_ok this.port) :
    pool_ok (do_start this env).2.port := by
  have ht := fun x t => transport_start_pool_ok x t env
  by_cases hs : this.started = true
  · simpa [do_start, hs] using h
  · by_cases hp : (env.transport_state_pending || this.is_duplex) = true
    · cases htr : this.transport with
      | none => simpa [do_start, hs, hp, htr] using h
      | some t =>
        have := ht { this with following := is_following this } t h
        simpa [do_start, hs, hp, htr] using this
    · cases htr : this.transport <;> simpa [do_start, hs, hp, htr] using h

/-- `impl_node_send_command` keeps `pool_ok`. -/
theorem send_command_pool_ok (this : Impl) (command : NodeCommand) (env : CommandEnv)
    (h : pool_ok this.port) : pool_ok (impl_node_send_command this command env).2.port := by
  have hstop : pool_ok (do_stop this env).2.port := by
    rw [(do_stop_frame this env).2]
    exact h
  unfold impl_node_send_command
  cases command
  case Start =>
    dsimp only
    split_ifs
    · exact h
    · exact h
    · exact do_start_pool_ok this env h
    · exact do_start_pool_ok this env h
  case Suspend =>
    dsimp only
    split <;> exact hstop
  case Pause =>
    dsimp only
    split <;> exact hstop
  all_goals exact h

/-- `port_set_format` keeps `pool_ok`. -/
theorem port_set_format_pool_ok (this : Impl) (format : Option FormatPod) (env : CommandEnv)
    (h : pool_ok this.port) : pool_ok (port_set_format this format env).2.port := by
  have hinfo : ∀ x : Impl, pool_ok x.port → pool_ok (port_set_format_info x).port := by
    intro x hx
    obtain ⟨-, f2, -, -, f5, f6, f7, -, -⟩ := port_set_format_info_frame x
    exact pool_ok_congr x.port _ f5 f6 f2 (fun id => by rw [f7]) hx
  unfold port_set_format
  cases format with
  | none =>
    apply hinfo
    exact pool_ok_congr (clear_buffers this env).port _ rfl rfl rfl (fun _ => rfl)
      (clear_buffers_pool_ok this env h).1
  | some pod =>
    dsimp only
    split_ifs
    · exact h
    · exact h
    · exact h
    · split
      · exact h
      · apply hinfo
        exact h

/-- Every operation in which `port_use_buffers` gets mapped buffers keeps
`pool_ok`. -/
theorem op_run_pool_ok (this next : Impl) (op : Op) (res : Int) (hmapped : op.mapped)
    (hrun : op.run this = some (res, next)) (h : pool_ok this.port) : pool_ok next.port := by
  cases op with
  | port_set_param direction port_id id param env =>
    simp only [Op.run, Option.some.injEq] at hrun
    have hnext : next = (impl_node_port_set_param this direction port_id id param env).2 := by
      rw [hrun]
    rw [hnext]
    unfold impl_node_port_set_param
    split_ifs
    · exact h
    · exact port_set_format_pool_ok this param env h
    · exact h
    · exact h
  | port_use_buffers direction port_id buffers env =>
    simp only [Op.run, Option.some.injEq] at hrun
    have hnext : next = (impl_node_port_use_buffers this direction port_id buffers env).2 := by
      rw [hrun]
    rw [hnext]
    exact port_use_buffers_pool_ok this direction port_id buffers env hmapped h
  | port_set_io direction port_id id data =>
    simp only [Op.run, Option.some.injEq] at hrun
    have hnext : next = (impl_node_port_set_io this direction port_id id data).2 := by rw [hrun]
    rw [hnext]
    unfold impl_node_port_set_io
    split_ifs <;> exact h
  | port_reuse_buffer port_id buffer_id =>
    simp only [Op.run, Option.some.injEq] at hrun
    have hnext : next = (impl_node_port_reuse_buffer this port_id buffer_id).2 := by rw [hrun]
    rw [hnext]
    unfold impl_node_port_reuse_buffer
    split_ifs
    · exact h
    · exact h
    · exact h
    · rename_i hlt
      exact recycle_buffer_pool_ok this.port buffer_id (by omega) h
  | send_command command env =>
    simp only [Op.run, Option.some.injEq] at hrun
    have hnext : next = (impl_node_send_command this command env).2 := by rw [hrun]
    rw [hnext]
    exact send_command_pool_ok this command env h
  | process env => exact process_pool_ok this next env res hrun h
  | set_io id data =>
    simp only [Op.run, Option.some.injEq] at hrun
    have hnext : next = (impl_node_set_io this id data).2 := by rw [hrun]
    rw [hnext]
    unfold impl_node_set_io
    split_ifs <;> first | exact h | (simp only []; split_ifs <;> exact h)
  | transport_destroy =>
    simp only [Op.run, Option.some.injEq, Prod.mk.injEq] at hrun
    rw [← hrun.2]
    exact h

/-- The pool as `impl_init` leaves it. -/
theorem impl_init_pool (info : InitInfo) :
    (impl_init info).2.port.free = [] ∧ (impl_init info).2.port.ready = [] ∧
    (impl_init info).2.port.n_buffers = 0 := by
  rcases info with ⟨_ | _, _ | _, _ | _, _ | _, _ | _, _ | _, _ | _, _ | (_ | _), _ | (_ | _)⟩ <;>
    exact ⟨rfl, rfl, rfl⟩

/-- On runs in which every buffer given to `port_use_buffers` is mapped, every
buffer id below `n_buffers` is in exactly one of the free list, the ready list
and the outstanding buffers, no id is twice in a list, and the three are
`n_buffers` together. -/
theorem pool_partitioned_of_mapped (this : Impl) (h : ReachableMapped this) :
    pool_partitioned this.port := by
  apply pool_ok_partitioned
  induction h with
  | init info this h =>
    have hinit := impl_init_pool info
    rw [h] at hinit
    have i1 : this.port.free = [] := hinit.1
    have i2 : this.port.ready = [] := hinit.2.1
    have i3 : this.port.n_buffers = 0 := hinit.2.2
    apply pool_ok_of_fresh
    · rw [i1, i3]
      rfl
    · exact i2
    · intro i hi
      rw [i3] at hi
      omega
  | step this op res next _ hmapped hrun ih => exact op_run_pool_ok this next op res hmapped hrun ih

/-! ## Invariants of the reachable states -/

/-- The node of the example is reachable up to the failed `port_use_buffers`. -/
theorem node_failed_buffers_reachable : Reachable Example.node_failed_buffers :=
  Reachable.step Example.node_format
    (Op.port_use_buffers spa_direction.SPA_DIRECTION_OUTPUT 0
      [Example.mapped, Example.unmapped] Example.env) (-EINVAL) _
    (Reachable.step Example.node_init
      (Op.port_set_param spa_direction.SPA_DIRECTION_OUTPUT 0 SPA_PARAM_Format
        (some (Example.pod spa_audio_format.S16 2 48000)) Example.env) 0 _
      (Reachable.init Example.info _ rfl) rfl) rfl

/-- The node of the example is reachable up to `Start`. -/
theorem node_started_reachable : Reachable Example.node_started :=
  Reachable.step Example.node_io (Op.send_command NodeCommand.Start Example.env) 0 _
    (Reachable.step Example.node_buffers
      (Op.port_set_io spa_direction.SPA_DIRECTION_OUTPUT 0 SPA_IO_Buffers Example.io_need_data)
      0 _
      (Reachable.step Example.node_format
        (Op.port_use_buffers spa_direction.SPA_DIRECTION_OUTPUT 0
          [Example.mapped, Example.mapped] Example.env) 0 _
        (Reachable.step Example.node_init
          (Op.port_set_param spa_direction.SPA_DIRECTION_OUTPUT 0 SPA_PARAM_Format
            (some (Example.pod spa_audio_format.S16 2 48000)) Example.env) 0 _
          (Reachable.init Example.info _ rfl) rfl) rfl) rfl) rfl

/-- C2, on the code: after `impl_init`, a format, and a `port_use_buffers`
whose second buffer is not mapped (it returns `-EINVAL`), the state reached has
`n_buffers = 0` while buffer 0 is on the free list, so the free, ready and
outstanding buffers are not `n_buffers` together. -/
theorem pool_not_partitioned_after_failed_use_buffers :
    Reachable Example.node_failed_buffers ∧
    (impl_node_port_use_buffers Example.node_format spa_direction.SPA_DIRECTION_OUTPUT 0
      [Example.mapped, Example.unmapped] Example.env).1 = -EINVAL ∧
    Example.node_failed_buffers.port.n_buffers = 0 ∧
    Example.node_failed_buffers.port.free = [0] ∧
    Example.node_failed_buffers.port.ready = [] ∧
    ¬ pool_partitioned Example.node_failed_buffers.port := by
  refine ⟨node_failed_buffers_reachable, by decide, by decide, by decide, by decide, ?_⟩
  intro h
  have hcount := h.2.2.2
  revert hcount
  decide

/-- Every reachable state is `started_ok`. -/
theorem reachable_started_ok (this : Impl) (h : Reachable this) : started_ok this := by
  induction h with
  | init info this h =>
    intro hs
    have h0 := impl_init_started info
    rw [h] at h0
    rw [h0] at hs
    cases hs
  | step this op res next _ hrun ih => exact op_run_started_ok this next op res hrun ih

/-- C3: in every state reachable from `impl_init` by operations of the node, a
started node has a format and at least one buffer. -/
theorem started_implies_format_and_buffers (this : Impl) (h : Reachable this)
    (hstarted : this.started = true) :
    this.port.have_format = true ∧ 0 < this.port.n_buffers :=
  reachable_started_ok this h hstarted

/-- C3 at the node of the example after `Start`. -/
theorem started_implies_format_and_buffers_witness :
    (Reachable Example.node_started ∧ Example.node_started.started = true) ∧
    Example.node_started.port.have_format = true ∧ 0 < Example.node_started.port.n_buffers :=
  ⟨⟨node_started_reachable, rfl⟩,
    started_implies_format_and_buffers _ node_started_reachable rfl⟩

/-! ## Process -/

/-- C4: when the port IO area is there and its status is already HAVE_DATA,
`process` returns HAVE_DATA and leaves the whole state as it was (the IO area,
both lists, the outstanding flags, the calls made to the decode buffer and
`sample_count` among it), so any number of calls in a row does what one does. -/
theorem process_have_data_idempotent (this : Impl) (io : spa_io_buffers) (env : ProcessEnv)
    (hio : this.port.io = some io) (hstatus : io.status = SPA_STATUS_HAVE_DATA) :
    impl_node_process this env = some (SPA_STATUS_HAVE_DATA, this) ∧
      ∀ (next : ProcessEnv) (envs : List ProcessEnv),
        process_repeatedly this env (next :: envs) = impl_node_process this env := by
  have once : ∀ e : ProcessEnv, impl_node_process this e = some (SPA_STATUS_HAVE_DATA, this) := by
    intro e
    unfold impl_node_process
    simp [hio, hstatus]
  refine ⟨once env, ?_⟩
  intro next envs
  induction envs generalizing env next with
  | nil => simp [process_repeatedly, once]
  | cons e envs ih =>
    rw [process_repeatedly, once env]
    simpa [once] using ih next e

/-- C4 at a node whose IO area holds data. -/
theorem process_have_data_idempotent_witness :
    (Example.node_have_data.port.io = some { status := SPA_STATUS_HAVE_DATA, buffer_id := 0 } ∧
      SPA_STATUS_HAVE_DATA = SPA_STATUS_HAVE_DATA) ∧
    (impl_node_process Example.node_have_data (Example.penv 100)
        = some (SPA_STATUS_HAVE_DATA, Example.node_have_data) ∧
      ∀ (next : ProcessEnv) (envs : List ProcessEnv),
        process_repeatedly Example.node_have_data (Example.penv 100) (next :: envs)
          = impl_node_process Example.node_have_data (Example.penv 100)) :=
  ⟨⟨rfl, rfl⟩, process_have_data_idempotent _ _ _ rfl rfl⟩

/-- C5: with the port IO area there and its status not HAVE_DATA, let
`buffered` be the state after the recycling and `process_buffering`. When its
ready list is empty, `process` returns OK in the state `buffered`, whose IO
status is the one before the call. Otherwise `process` returns HAVE_DATA: the
head of the ready list is removed from it and marked outstanding, the IO area
holds that buffer's id and the status HAVE_DATA, and the free list and the
other buffers are as buffering left them. -/
theorem process_hands_out_ready_head (this buffered : Impl) (io : spa_io_buffers)
    (env : ProcessEnv) (hio : this.port.io = some io)
    (hstatus : io.status ≠ SPA_STATUS_HAVE_DATA)
    (hbuffered : process_buffering (process_recycle this io) env = some buffered) :
    (buffered.port.ready = [] →
      impl_node_process this env = some (SPA_STATUS_OK, buffered) ∧
      buffered.port.io.map (fun a => a.status) = some io.status) ∧
    (∀ index ready, buffered.port.ready = index :: ready →
      ∃ next, impl_node_process this env = some (SPA_STATUS_HAVE_DATA, next) ∧
        next.port.ready = ready ∧
        (next.port.buffers index).outstanding = true ∧
        next.port.io.map (fun a => a.buffer_id) = some (buffered.port.buffers index).id ∧
        next.port.io.map (fun a => a.status) = some SPA_STATUS_HAVE_DATA ∧
        next.port.free = buffered.port.free ∧
        next.port.n_buffers = buffered.port.n_buffers ∧
        ∀ i, i ≠ index → next.port.buffers i = buffered.port.buffers i) := by
  obtain ⟨io1, hio1, hst1⟩ := process_recycle_io this io hio
  have hbio : buffered.port.io = some io1 :=
    (process_buffering_frame _ _ _ hbuffered).2.1.trans hio1
  have hrun : impl_node_process this env = some (process_dequeue buffered) := by
    unfold impl_node_process
    simp [hio, hstatus, hbuffered]
  refine ⟨?_, ?_⟩
  · intro hready
    rw [hrun]
    refine ⟨?_, ?_⟩
    · simp [process_dequeue, hready]
    · simp [hbio, hst1]
  · intro index ready hready
    have hd : process_dequeue buffered = (SPA_STATUS_HAVE_DATA,
        { buffered with port := { buffered.port with
            ready := ready
            buffers := Function.update buffered.port.buffers index
              { buffered.port.buffers index with outstanding := true }
            io := buffered.port.io.map fun io =>
              { io with buffer_id := (buffered.port.buffers index).id
                        status := SPA_STATUS_HAVE_DATA } } }) := by
      unfold process_dequeue
      rw [hready]
    rw [hrun, hd]
    refine ⟨_, rfl, rfl, by simp, by simp [hbio], by simp [hbio], rfl, rfl, ?_⟩
    intro i hi
    exact Function.update_noteq hi _ _

/-- C5 at the started node, when the decode buffer holds 100 bytes: buffer 0
goes through the ready list to the host. -/
theorem process_hands_out_ready_head_witness :
    (Example.node_started.port.io = some { status := 1, buffer_id := SPA_ID_INVALID } ∧
      (1 : Int) ≠ SPA_STATUS_HAVE_DATA ∧
      process_buffering
        (process_recycle Example.node_started { status := 1, buffer_id := SPA_ID_INVALID })
        (Example.penv 100) = some Example.node_buffered ∧
      Example.node_buffered.port.ready = [0]) ∧
    ∃ next, impl_node_process Example.node_started (Example.penv 100)
        = some (SPA_STATUS_HAVE_DATA, next) ∧
      next.port.ready = [] ∧
      (next.port.buffers 0).outstanding = true ∧
      next.port.io.map (fun a => a.buffer_id) = some (Example.node_buffered.port.buffers 0).id ∧
      next.port.io.map (fun a => a.status) = some SPA_STATUS_HAVE_DATA ∧
      next.port.free = Example.node_buffered.port.free ∧
      next.port.n_buffers = Example.node_buffered.port.n_buffers ∧
      ∀ i, i ≠ 0 → next.port.buffers i = Example.node_buffered.port.buffers i :=
  ⟨⟨rfl, by decide, rfl, by decide⟩,
    (process_hands_out_ready_head Example.node_started Example.node_buffered
      { status := 1, buffer_id := SPA_ID_INVALID } (Example.penv 100) rfl (by decide) rfl).2
      0 [] (by decide)⟩

/-- C6, as amended: for a raw audio format pod whose sample format is S16
(2 bytes), S24 (3 bytes), S24_32, S32 or F32 (4 bytes), `port_set_param(Format)`
on the output port returns 0 and the Buffers object then enumerated has the
stride `channels · bytes` reduced modulo `2^32` and read as an `int32_t`, which is
`channels · bytes` whenever that product is below `2^31`; for any other sample
format `port_set_param(Format)` returns `-EINVAL`. -/
theorem port_set_format_then_buffers_stride (this : Impl) (pod : FormatPod) (env : CommandEnv)
    (hparse : 0 ≤ pod.parse_res) (haudio : pod.media_type = SPA_MEDIA_TYPE_audio)
    (hraw : pod.media_subtype = SPA_MEDIA_SUBTYPE_raw) (hrawparse : 0 ≤ pod.raw_parse_res) :
    (sample_size spa_audio_format.S16 = some 2 ∧ sample_size spa_audio_format.S24 = some 3 ∧
      sample_size spa_audio_format.S24_32 = some 4 ∧ sample_size spa_audio_format.S32 = some 4 ∧
      sample_size spa_audio_format.F32 = some 4) ∧
    (∀ k, sample_size pod.raw.format = some k →
      (impl_node_port_set_param this spa_direction.SPA_DIRECTION_OUTPUT 0 SPA_PARAM_Format
        (some pod) env).1 = 0 ∧
      ∃ p, port_enum_params_Buffers
          (impl_node_port_set_param this spa_direction.SPA_DIRECTION_OUTPUT 0 SPA_PARAM_Format
            (some pod) env).2 0 = EnumResult.param p ∧
        p.stride = i32 (u32 (u32 pod.raw.channels * k)) ∧
        (pod.raw.channels * k < 2 ^ 31 → p.stride = ((pod.raw.channels * k : Nat) : Int))) ∧
    (sample_size pod.raw.format = none →
      (impl_node_port_set_param this spa_direction.SPA_DIRECTION_OUTPUT 0 SPA_PARAM_Format
        (some pod) env).1 = -EINVAL) := by
  have hrun : impl_node_port_set_param this spa_direction.SPA_DIRECTION_OUTPUT 0 SPA_PARAM_Format
      (some pod) env = port_set_format this (some pod) env := by
    simp [impl_node_port_set_param, CHECK_PORT]
  rw [hrun]
  refine ⟨⟨rfl, rfl, rfl, rfl, rfl⟩, ?_, ?_⟩
  · intro k hk
    obtain ⟨a1, a2, a3, -, -⟩ :=
      port_set_format_accepts this pod env k hparse haudio hraw hrawparse hk
    refine ⟨a1, ?_⟩
    refine ⟨_, by simp [port_enum_params_Buffers, a2]; rfl, by rw [a3], ?_⟩
    rw [a3]
    intro hlt
    have hk0 : 0 < k := by
      revert hk
      cases pod.raw.format <;> simp [sample_size] <;> omega
    have hch : pod.raw.channels < 2 ^ 32 := by
      have : pod.raw.channels ≤ pod.raw.channels * k := Nat.le_mul_of_pos_right _ hk0
      omega
    have e1 : u32 pod.raw.channels = pod.raw.channels := Nat.mod_eq_of_lt hch
    have e2 : u32 (pod.raw.channels * k) = pod.raw.channels * k :=
      Nat.mod_eq_of_lt (by omega)
    rw [e1, e2]
    unfold i32
    have e3 : pod.raw.channels * k % 2 ^ 32 = pod.raw.channels * k := Nat.mod_eq_of_lt (by omega)
    rw [e3, if_pos hlt]
  · intro hk
    have h1 : ¬ pod.parse_res < 0 := by omega
    have h2 : ¬ pod.raw_parse_res < 0 := by omega
    simp [port_set_format, h1, h2, haudio, hraw, hk]

/-- C6 at two channels of S16. -/
theorem port_set_format_then_buffers_stride_witness :
    ((0 : Int) ≤ (Example.pod spa_audio_format.S16 2 48000).parse_res ∧
      (Example.pod spa_audio_format.S16 2 48000).media_type = SPA_MEDIA_TYPE_audio ∧
      (Example.pod spa_audio_format.S16 2 48000).media_subtype = SPA_MEDIA_SUBTYPE_raw ∧
      (0 : Int) ≤ (Example.pod spa_audio_format.S16 2 48000).raw_parse_res) ∧
    ∃ p, port_enum_params_Buffers Example.node_format 0 = EnumResult.param p ∧ p.stride = 4 := by
  refine ⟨⟨by decide, rfl, rfl, by decide⟩, ?_⟩
  obtain ⟨-, p, hp, -, hs⟩ := (port_set_format_then_buffers_stride Example.node_init
    (Example.pod spa_audio_format.S16 2 48000) Example.env (by decide) rfl rfl (by decide)).2.1
      2 rfl
  exact ⟨p, hp, hs (by decide)⟩

/-- C6 fails as stated: with `2^30` channels of S32 the format is accepted and
the stride enumerated is 0, not `2^30 · 4`. -/
theorem port_set_format_stride_wraps :
    (impl_node_port_set_param Example.node_init spa_direction.SPA_DIRECTION_OUTPUT 0
      SPA_PARAM_Format (some (Example.pod spa_audio_format.S32 1073741824 48000)) Example.env).1
      = 0 ∧
    ∃ p, port_enum_params_Buffers
        (impl_node_port_set_param Example.node_init spa_direction.SPA_DIRECTION_OUTPUT 0
          SPA_PARAM_Format (some (Example.pod spa_audio_format.S32 1073741824 48000))
          Example.env).2 0 = EnumResult.param p ∧
      p.stride = 0 ∧ p.stride ≠ 1073741824 * 4 := by
  refine ⟨by decide, _, rfl, by decide, by decide⟩
/-! ## Buffers -/

/-- C7: on the output port, `port_use_buffers` returns `-EIO` when
`have_format` is false and leaves the state (`n_buffers` and both lists among
it) as it was; with `have_format` it returns `-EINVAL` exactly when the first
data segment of one of the buffers is not mapped, and otherwise it returns 0,
`n_buffers` is the number of buffers given, and entry `i` of the pool records
buffer `i` and the Header meta found in it, if any. -/
theorem port_use_buffers_results (this : Impl) (direction : spa_direction) (port_id : Nat)
    (buffers : List spa_buffer) (env : CommandEnv)
    (hport : CHECK_PORT direction port_id = true) :
    (this.port.have_format = false →
      impl_node_port_use_buffers this direction port_id buffers env = (- EIO, this)) ∧
    (this.port.have_format = true →
      ((impl_node_port_use_buffers this direction port_id buffers env).1 = -EINVAL ↔
        ∃ b ∈ buffers, b.data = none) ∧
      ((∀ b ∈ buffers, b.data ≠ none) →
        (impl_node_port_use_buffers this direction port_id buffers env).1 = 0 ∧
        (impl_node_port_use_buffers this direction port_id buffers env).2.port.n_buffers
          = buffers.length ∧
        ∀ (i : Nat) (hi : i < buffers.length),
          ((impl_node_port_use_buffers this direction port_id buffers env).2.port.buffers i).h
            = (buffers.get ⟨i, hi⟩).header ∧
          ((impl_node_port_use_buffers this direction port_id buffers env).2.port.buffers i).buf
            = some (buffers.get ⟨i, hi⟩) ∧
          ((impl_node_port_use_buffers this direction port_id buffers env).2.port.buffers i).id
            = i)) := by
  refine ⟨?_, ?_⟩
  · intro hf
    simp [impl_node_port_use_buffers, hport, hf]
  · intro hf
    have hrun : impl_node_port_use_buffers this direction port_id buffers env =
        if (use_buffers_loop (clear_buffers this env).port 0 buffers).1 = true then
          (0, { clear_buffers this env with
            port := { (use_buffers_loop (clear_buffers this env).port 0 buffers).2 with
              n_buffers := buffers.length } })
        else
          (-EINVAL, { clear_buffers this env with
            port := (use_buffers_loop (clear_buffers this env).port 0 buffers).2 }) := by
      simp [impl_node_port_use_buffers, hport, hf]
    have hiff := use_buffers_loop_ok_iff (clear_buffers this env).port 0 buffers
    refine ⟨?_, ?_⟩
    · rw [hrun]
      by_cases hok : (use_buffers_loop (clear_buffers this env).port 0 buffers).1 = true
      · have hall := hiff.mp hok
        rw [if_pos hok]
        constructor
        · intro h
          simp [EINVAL] at h
        · rintro ⟨b, hb, hnone⟩
          exact absurd hnone (hall b hb)
      · rw [if_neg hok]
        refine ⟨fun _ => ?_, fun _ => rfl⟩
        by_contra hcon
        apply hok
        rw [hiff]
        intro b hb hnone
        exact hcon ⟨b, hb, hnone⟩
    · intro hall
      have hok := hiff.mpr hall
      rw [hrun, if_pos hok]
      refine ⟨rfl, rfl, ?_⟩
      intro i hi
      have hb := use_buffers_loop_buffers (clear_buffers this env).port 0 buffers hall i hi
      rw [Nat.zero_add] at hb
      simp [hb]

/-- C7 at two mapped buffers given to the node that has a format. -/
theorem port_use_buffers_results_witness :
    (CHECK_PORT spa_direction.SPA_DIRECTION_OUTPUT 0 = true ∧
      Example.node_format.port.have_format = true ∧
      ∀ b ∈ [Example.mapped, Example.mapped], b.data ≠ none) ∧
    (impl_node_port_use_buffers Example.node_format spa_direction.SPA_DIRECTION_OUTPUT 0
      [Example.mapped, Example.mapped] Example.env).1 = 0 ∧
    Example.node_buffers.port.n_buffers = 2 :=
  ⟨⟨rfl, rfl, by decide⟩,
    (((port_use_buffers_results Example.node_format spa_direction.SPA_DIRECTION_OUTPUT 0
      [Example.mapped, Example.mapped] Example.env rfl).2 rfl).2 (by decide)).1,
    (((port_use_buffers_results Example.node_format spa_direction.SPA_DIRECTION_OUTPUT 0
      [Example.mapped, Example.mapped] Example.env rfl).2 rfl).2 (by decide)).2.1⟩

/-- C8, on the code: a `port_use_buffers` that fails on its third buffer leaves
buffers 0 and 1 on the free list with `n_buffers = 0`; the next
`port_use_buffers`, with no buffers, then succeeds without emptying the lists,
so the free list still holds 0 and 1 while `n_buffers` is 0. -/
theorem port_use_buffers_keeps_entries_of_failed_call :
    (impl_node_port_use_buffers Example.node_format spa_direction.SPA_DIRECTION_OUTPUT 0
      [Example.mapped, Example.mapped, Example.unmapped] Example.env).1 = -EINVAL ∧
    (impl_node_port_use_buffers
      (impl_node_port_use_buffers Example.node_format spa_direction.SPA_DIRECTION_OUTPUT 0
        [Example.mapped, Example.mapped, Example.unmapped] Example.env).2
      spa_direction.SPA_DIRECTION_OUTPUT 0 [] Example.env).1 = 0 ∧
    (impl_node_port_use_buffers
      (impl_node_port_use_buffers Example.node_format spa_direction.SPA_DIRECTION_OUTPUT 0
        [Example.mapped, Example.mapped, Example.unmapped] Example.env).2
      spa_direction.SPA_DIRECTION_OUTPUT 0 [] Example.env).2.port.n_buffers = 0 ∧
    (impl_node_port_use_buffers
      (impl_node_port_use_buffers Example.node_format spa_direction.SPA_DIRECTION_OUTPUT 0
        [Example.mapped, Example.mapped, Example.unmapped] Example.env).2
      spa_direction.SPA_DIRECTION_OUTPUT 0 [] Example.env).2.port.free = [0, 1] := by
  refine ⟨by decide, by decide, by decide, by decide⟩

/-! ## Reuse and recycle -/

/-- C9: `port_reuse_buffer` on port 0 returns `-EIO` when no buffers are
configured; it returns `-EINVAL` when `buffer_id ≥ n_buffers > 0` and when
`port_id ≠ 0`; every error leaves the state as it was; for
`buffer_id < n_buffers` on port 0 it returns 0. -/
theorem port_reuse_buffer_results (this : Impl) (port_id buffer_id : Nat) :
    (port_id = 0 → this.port.n_buffers = 0 →
        impl_node_port_reuse_buffer this port_id buffer_id = (- EIO, this)) ∧
    (port_id = 0 → 0 < this.port.n_buffers → this.port.n_buffers ≤ buffer_id →
        impl_node_port_reuse_buffer this port_id buffer_id = (-EINVAL, this)) ∧
    (port_id ≠ 0 → impl_node_port_reuse_buffer this port_id buffer_id = (-EINVAL, this)) ∧
    ((impl_node_port_reuse_buffer this port_id buffer_id).1 < 0 →
        (impl_node_port_reuse_buffer this port_id buffer_id).2 = this) ∧
    (port_id = 0 → buffer_id < this.port.n_buffers →
        (impl_node_port_reuse_buffer this port_id buffer_id).1 = 0) := by
  unfold impl_node_port_reuse_buffer
  refine ⟨?_, ?_, ?_, ?_, ?_⟩
  · intro hp hn
    simp [hp, hn]
  · intro hp hn hb
    have : this.port.n_buffers ≠ 0 := by omega
    simp [hp, this, hb]
  · intro hp
    simp [hp]
  · intro hneg
    split_ifs at hneg ⊢ <;> simp_all
  · intro hp hb
    have h0 : this.port.n_buffers ≠ 0 := by omega
    have h1 : ¬ buffer_id ≥ this.port.n_buffers := by omega
    simp [hp, h0, h1]

/-- C10: `recycle_buffer` is idempotent: for an id below `n_buffers`, recycling
it twice gives the state that recycling it once gives; a buffer that is
outstanding is appended to the free list and its flag is cleared, the ready
list staying as it was; a buffer that is not outstanding leaves the port, and
so every list, as it was. -/
theorem recycle_buffer_idempotent (port : Port) (buffer_id : Nat)
    (_hid : buffer_id < port.n_buffers) :
    recycle_buffer (recycle_buffer port buffer_id) buffer_id = recycle_buffer port buffer_id ∧
    ((port.buffers buffer_id).outstanding = true →
        (recycle_buffer port buffer_id).free = port.free ++ [buffer_id] ∧
        (recycle_buffer port buffer_id).ready = port.ready ∧
        ((recycle_buffer port buffer_id).buffers buffer_id).outstanding = false ∧
        (recycle_buffer port buffer_id).n_buffers = port.n_buffers ∧
        ∀ i, i ≠ buffer_id → (recycle_buffer port buffer_id).buffers i = port.buffers i) ∧
    ((port.buffers buffer_id).outstanding = false → recycle_buffer port buffer_id = port) := by
  refine ⟨?_, ?_, ?_⟩
  · by_cases h : (port.buffers buffer_id).outstanding = true
    · have h1 : recycle_buffer port buffer_id =
          { port with
            free := port.free ++ [buffer_id]
            buffers := Function.update port.buffers buffer_id
              { port.buffers buffer_id with outstanding := false } } := by
        simp [recycle_buffer, h]
      rw [h1]
      simp [recycle_buffer]
    · simp [recycle_buffer, h]
  · intro h
    simp [recycle_buffer, h]
    intro i hi
    exact Function.update_noteq hi _ _
  · intro h
    simp [recycle_buffer, h]

/-- C10 at the node that has handed buffer 0 to the host. -/
theorem recycle_buffer_idempotent_witness :
    (0 < Example.node_handed.port.n_buffers ∧
      (Example.node_handed.port.buffers 0).outstanding = true) ∧
    recycle_buffer (recycle_buffer Example.node_handed.port 0) 0
      = recycle_buffer Example.node_handed.port 0 ∧
    (recycle_buffer Example.node_handed.port 0).free = Example.node_handed.port.free ++ [0] ∧
    (recycle_buffer Example.node_handed.port 0).free = [1, 0] :=
  ⟨⟨by decide, by decide⟩,
    (recycle_buffer_idempotent Example.node_handed.port 0 (by decide)).1,
    ((recycle_buffer_idempotent Example.node_handed.port 0 (by decide)).2.1 (by decide)).1,
    by decide⟩

/-! ## More frame lemmas -/

/-- More fields `setup_matching` leaves alone. -/
theorem setup_matching_frame2 (this : Impl) (corr : ℚ) :
    (setup_matching this corr).info_all = this.info_all ∧
    (setup_matching this corr).info_change_mask = this.info_change_mask ∧
    (setup_matching this corr).port.info_all = this.port.info_all ∧
    (setup_matching this corr).port.info = this.port.info ∧
    (setup_matching this corr).transport_acquired = this.transport_acquired ∧
    (setup_matching this corr).codec_data = this.codec_data ∧
    (setup_matching this corr).source_loop = this.source_loop ∧
    (setup_matching this corr).timer_source_loop = this.timer_source_loop ∧
    (setup_matching this corr).transport = this.transport ∧
    (setup_matching this corr).next_time = this.next_time ∧
    (setup_matching this corr).current_time = this.current_time ∧
    (setup_matching this corr).clock = this.clock ∧
    (setup_matching this corr).position = this.position := by
  unfold setup_matching
  cases this.position <;> cases h : this.port.rate_match <;> simp [h]

/-- More fields the loop of `reset_buffers` leaves alone. -/
theorem reset_buffers_loop_frame2 (indices : List Nat) (port : Port) :
    (indices.foldl reset_buffers_step port).info_all = port.info_all ∧
    (indices.foldl reset_buffers_step port).info = port.info := by
  induction indices generalizing port with
  | nil => simp
  | cons i rest ih =>
    rw [List.foldl_cons]
    obtain ⟨h1, h2⟩ := ih (reset_buffers_step port i)
    rw [h1, h2]
    simp [reset_buffers_step]

/-- More fields `reset_buffers` leaves alone. -/
theorem reset_buffers_frame2 (port : Port) :
    (reset_buffers port).info_all = port.info_all ∧ (reset_buffers port).info = port.info := by
  unfold reset_buffers
  obtain ⟨h1, h2⟩ :=
    reset_buffers_loop_frame2 (List.range port.n_buffers) { port with free := [], ready := [] }
  rw [h1, h2]
  exact ⟨rfl, rfl⟩

/-- The fields of the format and of the infos that `transport_start` leaves alone. -/
theorem transport_start_frame2 (this : Impl) (transport : spa_bt_transport) (env : CommandEnv) :
    (transport_start this transport env).2.info_all = this.info_all ∧
    (transport_start this transport env).2.port.info_all = this.port.info_all ∧
    (transport_start this transport env).2.port.info = this.port.info ∧
    (transport_start this transport env).2.port.have_format = this.port.have_format ∧
    (transport_start this transport env).2.port.frame_size = this.port.frame_size ∧
    (transport_start this transport env).2.port.current_format = this.port.current_format ∧
    (transport_start this transport env).2.port.n_buffers = this.port.n_buffers := by
  obtain ⟨r1, r2, -, r4, r5, -, -, -⟩ := reset_buffers_frame this.port
  obtain ⟨q1, q2⟩ := reset_buffers_frame2 this.port
  simp only [transport_start]
  split_ifs <;>
    simp [setup_matching_frame, setup_matching_frame2, set_timers, set_timeout,
      set_duplex_timeout, r1, r2, r4, r5, q1, q2]

/-- The fields of the format and of the infos that `do_start` leaves alone. -/
theorem do_start_frame2 (this : Impl) (env : CommandEnv) :
    (do_start this env).2.info_all = this.info_all ∧
    (do_start this env).2.port.info_all = this.port.info_all ∧
    (do_start this env).2.port.info = this.port.info ∧
    (do_start this env).2.port.have_format = this.port.have_format ∧
    (do_start this env).2.port.frame_size = this.port.frame_size ∧
    (do_start this env).2.port.current_format = this.port.current_format ∧
    (do_start this env).2.port.n_buffers = this.port.n_buffers := by
  have h1 := fun x t => (transport_start_frame2 x t env).1
  have h2 := fun x t => (transport_start_frame2 x t env).2.1
  have h3 := fun x t => (transport_start_frame2 x t env).2.2.1
  have h4 := fun x t => (transport_start_frame2 x t env).2.2.2.1
  have h5 := fun x t => (transport_start_frame2 x t env).2.2.2.2.1
  have h6 := fun x t => (transport_start_frame2 x t env).2.2.2.2.2.1
  have h7 := fun x t => (transport_start_frame2 x t env).2.2.2.2.2.2
  by_cases hs : this.started = true
  · simp [do_start, hs]
  · by_cases hp : (env.transport_state_pending || this.is_duplex) = true <;>
      cases ht : this.transport <;> simp [do_start, hs, hp, ht, h1, h2, h3, h4, h5, h6, h7]

/-- What `transport_stop` does to the session, and what it leaves alone. -/
theorem transport_stop_frame2 (this : Impl) (env : CommandEnv) :
    (transport_stop this env).2.info_all = this.info_all ∧
    (transport_stop this env).2.transport_acquired = false ∧
    (transport_stop this env).2.codec_data = false ∧
    (transport_stop this env).2.source_loop = false ∧
    (transport_stop this env).2.timer_source_loop = false ∧
    (transport_stop this env).2.timer_value = 0 ∧
    (transport_stop this env).2.duplex_timer_value = 0 ∧
    (transport_stop this env).2.transport = this.transport := by
  simp only [transport_stop, do_remove_source, set_duplex_timeout]
  split_ifs <;> simp_all

/-- What `do_stop` leaves alone. -/
theorem do_stop_frame2 (this : Impl) (env : CommandEnv) :
    (do_stop this env).2.info_all = this.info_all ∧
    (do_stop this env).2.transport = this.transport ∧
    (this.started = false → (do_stop this env) = (0, this)) ∧
    (this.started = true → (do_stop this env).2.transport_acquired = false ∧
      (do_stop this env).2.codec_data = false ∧ (do_stop this env).2.source_loop = false) := by
  obtain ⟨t1, t2, t3, t4, -, -, -, t8⟩ := transport_stop_frame2 this env
  unfold do_stop
  by_cases h : this.started = true
  · simp [h, t1, t2, t3, t4, t8]
  · simp [h]

/-- More fields `emit_port_info` leaves alone. -/
theorem emit_port_info_frame2 (this : Impl) (full : Bool) :
    (emit_port_info this full).info_all = this.info_all ∧
    (emit_port_info this full).info_change_mask = this.info_change_mask ∧
    (emit_port_info this full).port.info_all = this.port.info_all ∧
    (emit_port_info this full).port.info.flags = this.port.info.flags ∧
    (emit_port_info this full).transport_acquired = this.transport_acquired ∧
    (emit_port_info this full).codec_data = this.codec_data ∧
    (emit_port_info this full).source_loop = this.source_loop := by
  simp only [emit_port_info]
  split_ifs <;> simp

/-- What the info part of `port_set_format` does to the flags, and more fields
it leaves alone. -/
theorem port_set_format_info_frame2 (this : Impl) :
    (port_set_format_info this).info_all = this.info_all ∧
    (port_set_format_info this).port.info_all = this.port.info_all ∧
    (port_set_format_info this).transport_acquired = this.transport_acquired ∧
    (port_set_format_info this).codec_data = this.codec_data ∧
    (port_set_format_info this).source_loop = this.source_loop ∧
    (port_set_format_info this).port.info.flags =
      (if this.port.have_format = true then SPA_PORT_FLAG_LIVE else this.port.info.flags) := by
  unfold port_set_format_info
  by_cases h : this.port.have_format = true
  · simp [h, emit_port_info_frame2]
  · simp [h, emit_port_info_frame2]

/-- More fields `clear_buffers` leaves alone. -/
theorem clear_buffers_frame2 (this : Impl) (env : CommandEnv) :
    (clear_buffers this env).info_all = this.info_all ∧
    (clear_buffers this env).port.info_all = this.port.info_all ∧
    (clear_buffers this env).port.info = this.port.info ∧
    (clear_buffers this env).port.frame_size = this.port.frame_size ∧
    (clear_buffers this env).port.current_format = this.port.current_format ∧
    (clear_buffers this env).transport_acquired = (do_stop this env).2.transport_acquired ∧
    (clear_buffers this env).codec_data = (do_stop this env).2.codec_data ∧
    (clear_buffers this env).source_loop = (do_stop this env).2.source_loop := by
  obtain ⟨-, h2⟩ := do_stop_frame this env
  obtain ⟨d1, -, -, -⟩ := do_stop_frame2 this env
  unfold clear_buffers
  by_cases h : 0 < this.port.n_buffers
  · simp [h, h2, d1]
  · have h0 : this.port.n_buffers = 0 := by omega
    simp [h0, h2, d1]

/-- More fields the loop of `port_use_buffers` leaves alone. -/
theorem use_buffers_loop_frame2 (port : Port) (i : Nat) (buffers : List spa_buffer) :
    (use_buffers_loop port i buffers).2.info_all = port.info_all ∧
    (use_buffers_loop port i buffers).2.info = port.info := by
  induction buffers generalizing port i with
  | nil => simp [use_buffers_loop]
  | cons sb rest ih =>
    unfold use_buffers_loop
    by_cases hd : sb.data = none
    · simp [hd]
    · simp only [hd, if_false]
      exact ih _ _

/-- More fields `recycle_buffer` leaves alone. -/
theorem recycle_buffer_frame2 (port : Port) (buffer_id : Nat) :
    (recycle_buffer port buffer_id).info_all = port.info_all ∧
    (recycle_buffer port buffer_id).info = port.info ∧
    (recycle_buffer port buffer_id).frame_size = port.frame_size ∧
    (recycle_buffer port buffer_id).current_format = port.current_format := by
  by_cases h : (port.buffers buffer_id).outstanding = true <;> simp [recycle_buffer, h]

/-- `same_config` holds of a state and itself. -/
theorem same_config_refl (this : Impl) : same_config this this :=
  ⟨rfl, rfl, rfl, rfl, rfl, rfl, rfl, rfl, rfl, rfl⟩

/-- `same_config` is transitive. -/
theorem same_config_trans (a b c : Impl) (hab : same_config a b) (hbc : same_config b c) :
    same_config a c := by
  obtain ⟨a1, a2, a3, a4, a5, a6, a7, a8, a9, a10⟩ := hab
  obtain ⟨b1, b2, b3, b4, b5, b6, b7, b8, b9, b10⟩ := hbc
  exact ⟨b1.trans a1, b2.trans a2, b3.trans a3, b4.trans a4, b5.trans a5, b6.trans a6,
    b7.trans a7, b8.trans a8, b9.trans a9, b10.trans a10⟩

/-- `setup_matching` keeps the configuration. -/
theorem setup_matching_same_config (this : Impl) (corr : ℚ) :
    same_config this (setup_matching this corr) := by
  obtain ⟨-, -, -, -, -, -, -, -, -, -, f11, f12, f13, f14⟩ := setup_matching_frame this corr
  obtain ⟨g1, -, g3, g4, g5, g6, g7, -, -, -, -, -, -⟩ := setup_matching_frame2 this corr
  exact ⟨g1, g3, by rw [g4], f12, f13, f14, g5, g6, g7, f11⟩

/-- `process_recycle` keeps the configuration. -/
theorem process_recycle_same_config (this : Impl) (io : spa_io_buffers) :
    same_config this (process_recycle this io) := by
  obtain ⟨-, r2, r3, -⟩ := recycle_buffer_frame this.port io.buffer_id
  obtain ⟨q1, q2, q3, q4⟩ := recycle_buffer_frame2 this.port io.buffer_id
  unfold process_recycle
  split
  · exact ⟨rfl, q1, by simp [q2], r3, q3, q4, rfl, rfl, rfl, r2⟩
  · exact same_config_refl this

/-- The copy block of `process_buffering` keeps the configuration. -/
theorem process_buffering_copy_same_config (this next : Impl) (samples avail index : Nat)
    (free : List Nat) (h : process_buffering_copy this samples avail index free = some next) :
    same_config this next := by
  simp only [process_buffering_copy, Option.bind_eq_bind, Option.bind_eq_some, Option.pure_def] at h
  obtain ⟨buf, -, h⟩ := h
  split at h
  · simp at h
  · simp only [Option.bind_eq_some, Option.some.injEq] at h
    obtain ⟨frames, -, h⟩ := h
    subst h
    exact ⟨rfl, rfl, rfl, rfl, rfl, rfl, rfl, rfl, rfl, rfl⟩

/-- `process_buffering` keeps the configuration. -/
theorem process_buffering_same_config (this next : Impl) (env : ProcessEnv)
    (h : process_buffering this env = some next) : same_config this next := by
  unfold process_buffering at h
  cases hs : get_samples this with
  | none => simp [hs] at h
  | some sd =>
    obtain ⟨samples, duration⟩ := sd
    have hm := setup_matching_same_config
      { this with calls := this.calls ++ [Call.decode_buffer_process samples duration] } env.corr
    have h0 : same_config this
        { this with calls := this.calls ++ [Call.decode_buffer_process samples duration] } :=
      ⟨rfl, rfl, rfl, rfl, rfl, rfl, rfl, rfl, rfl, rfl⟩
    have hm' := same_config_trans _ _ _ h0 hm
    simp only [hs, Option.bind_eq_bind, Option.some_bind] at h
    split at h
    · simp only [Option.pure_def, Option.some.injEq] at h
      subst h
      exact hm'
    · split at h
      · exact same_config_trans _ _ _ hm' (process_buffering_copy_same_config _ _ _ _ _ _ h)
      · simp only [Option.pure_def, Option.some.injEq] at h
        subst h
        exact hm'

/-- `process_dequeue` keeps the configuration. -/
theorem process_dequeue_same_config (this : Impl) :
    same_config this (process_dequeue this).2 := by
  unfold process_dequeue
  split
  · exact same_config_refl this
  · exact ⟨rfl, rfl, rfl, rfl, rfl, rfl, rfl, rfl, rfl, rfl⟩

/-- `impl_node_process` keeps the configuration. -/
theorem process_same_config (this next : Impl) (env : ProcessEnv) (res : Int)
    (hrun : impl_node_process this env = some (res, next)) : same_config this next := by
  unfold impl_node_process at hrun
  cases hio : this.port.io with
  | none =>
    simp [hio] at hrun
    exact hrun.2 ▸ same_config_refl this
  | some io =>
    simp only [hio] at hrun
    split_ifs at hrun
    · simp at hrun
      exact hrun.2 ▸ same_config_refl this
    · cases hb : process_buffering (process_recycle this io) env with
      | none => simp [hb] at hrun
      | some buffered =>
        simp only [hb, Option.some.injEq] at hrun
        have hnext : next = (process_dequeue buffered).2 := by rw [hrun]
        rw [hnext]
        exact same_config_trans _ _ _
          (same_config_trans _ _ _ (process_recycle_same_config this io)
            (process_buffering_same_config _ _ _ hb))
          (process_dequeue_same_config buffered)

/-- `impl_node_port_set_io` keeps the configuration. -/
theorem port_set_io_same_config (this : Impl) (direction : spa_direction) (port_id id : Nat)
    (data : PortIoData) :
    same_config this (impl_node_port_set_io this direction port_id id data).2 := by
  unfold impl_node_port_set_io
  split_ifs
  · exact same_config_refl this
  · exact ⟨rfl, rfl, rfl, rfl, rfl, rfl, rfl, rfl, rfl, rfl⟩
  · exact ⟨rfl, rfl, rfl, rfl, rfl, rfl, rfl, rfl, rfl, rfl⟩
  · exact same_config_refl this

/-- `impl_node_port_reuse_buffer` keeps the configuration. -/
theorem port_reuse_buffer_same_config (this : Impl) (port_id buffer_id : Nat) :
    same_config this (impl_node_port_reuse_buffer this port_id buffer_id).2 := by
  obtain ⟨-, r2, r3, -⟩ := recycle_buffer_frame this.port buffer_id
  obtain ⟨q1, q2, q3, q4⟩ := recycle_buffer_frame2 this.port buffer_id
  unfold impl_node_port_reuse_buffer
  split_ifs
  · exact same_config_refl this
  · exact same_config_refl this
  · exact same_config_refl this
  · exact ⟨rfl, q1, by simp [q2], r3, q3, q4, rfl, rfl, rfl, r2⟩

/-- `impl_node_set_io` keeps the configuration. -/
theorem set_io_same_config (this : Impl) (id : Nat) (data : NodeIoData) :
    same_config this (impl_node_set_io this id data).2 := by
  unfold impl_node_set_io
  split_ifs <;>
    first
    | exact same_config_refl this
    | (simp only []; split_ifs <;> exact ⟨rfl, rfl, rfl, rfl, rfl, rfl, rfl, rfl, rfl, rfl⟩)

/-- What `port_set_format` with a null format does. -/
theorem port_set_format_none_summary (this : Impl) (env : CommandEnv) :
    (port_set_format this none env).1 = 0 ∧
    (port_set_format this none env).2.started = false ∧
    (port_set_format this none env).2.port.have_format = false ∧
    (port_set_format this none env).2.port.n_buffers = 0 ∧
    (port_set_format this none env).2.port.free =
      (if 0 < this.port.n_buffers then [] else this.port.free) ∧
    (port_set_format this none env).2.port.ready =
      (if 0 < this.port.n_buffers then [] else this.port.ready) ∧
    (port_set_format this none env).2.info_all = this.info_all ∧
    (port_set_format this none env).2.port.info_all = this.port.info_all ∧
    (port_set_format this none env).2.port.info.flags = this.port.info.flags ∧
    (port_set_format this none env).2.port.frame_size = this.port.frame_size ∧
    (port_set_format this none env).2.port.current_format = this.port.current_format ∧
    (port_set_format this none env).2.transport_acquired
      = (do_stop this env).2.transport_acquired ∧
    (port_set_format this none env).2.codec_data = (do_stop this env).2.codec_data ∧
    (port_set_format this none env).2.source_loop = (do_stop this env).2.source_loop := by
  have a := fun x => port_set_format_info_frame x
  have b := fun x => port_set_format_info_frame2 x
  obtain ⟨c1, c2, -, -, -, c6, c7⟩ := clear_buffers_frame this env
  obtain ⟨d1, d2, d3, d4, d5, d6, d7, d8⟩ := clear_buffers_frame2 this env
  simp only [port_set_format]
  refine ⟨trivial, ?_, ?_, ?_, ?_, ?_, ?_, ?_, ?_, ?_, ?_, ?_, ?_, ?_⟩
  · rw [(a _).1]; exact c1
  · rw [(a _).2.2.1]
  · rw [(a _).2.1]; exact c2
  · rw [(a _).2.2.2.2.1]; exact c6
  · rw [(a _).2.2.2.2.2.1]; exact c7
  · rw [(b _).1]; exact d1
  · rw [(b _).2.1]; exact d2
  · rw [(b _).2.2.2.2.2]; simp [d3]
  · rw [(a _).2.2.2.1]; exact d4
  · rw [(a _).2.2.2.2.2.2.2.1]; exact d5
  · rw [(b _).2.2.1]; exact d6
  · rw [(b _).2.2.2.1]; exact d7
  · rw [(b _).2.2.2.2.1]; exact d8

/-- What `port_set_format` with a format pod does: it fails and leaves the
state alone, or it fails on the sample format after it has stored the channel
count in `frame_size`, or it stores the format. -/
theorem port_set_format_some_cases (this : Impl) (pod : FormatPod) (env : CommandEnv) :
    ((port_set_format this (some pod) env).1 < 0 ∧
      (port_set_format this (some pod) env).2 = this) ∨
    (sample_size pod.raw.format = none ∧
      port_set_format this (some pod) env =
        (-EINVAL, { this with port := { this.port with frame_size := u32 pod.raw.channels } })) ∨
    (∃ k, sample_size pod.raw.format = some k ∧
      (port_set_format this (some pod) env).1 = 0 ∧
      (port_set_format this (some pod) env).2.port.have_format = true ∧
      (port_set_format this (some pod) env).2.port.frame_size
        = u32 (u32 pod.raw.channels * k) ∧
      (port_set_format this (some pod) env).2.port.current_format.raw = pod.raw ∧
      (port_set_format this (some pod) env).2.port.info.flags = SPA_PORT_FLAG_LIVE ∧
      (port_set_format this (some pod) env).2.port.n_buffers = this.port.n_buffers ∧
      (port_set_format this (some pod) env).2.started = this.started ∧
      (port_set_format this (some pod) env).2.info_all = this.info_all ∧
      (port_set_format this (some pod) env).2.port.info_all = this.port.info_all ∧
      (port_set_format this (some pod) env).2.transport_acquired = this.transport_acquired ∧
      (port_set_format this (some pod) env).2.codec_data = this.codec_data ∧
      (port_set_format this (some pod) env).2.source_loop = this.source_loop) := by
  have a := fun x => port_set_format_info_frame x
  have b := fun x => port_set_format_info_frame2 x
  by_cases h1 : pod.parse_res < 0
  · left
    simp [port_set_format, h1]
  · by_cases h2 : pod.media_type ≠ SPA_MEDIA_TYPE_audio ∨ pod.media_subtype ≠ SPA_MEDIA_SUBTYPE_raw
    · left
      have h2' : (decide (pod.media_type ≠ SPA_MEDIA_TYPE_audio) ||
          decide (pod.media_subtype ≠ SPA_MEDIA_SUBTYPE_raw)) = true := by
        simpa using h2
      simp only [port_set_format, h1, if_false, h2', if_true]
      exact ⟨by decide, trivial⟩
    · have h2' : (decide (pod.media_type ≠ SPA_MEDIA_TYPE_audio) ||
          decide (pod.media_subtype ≠ SPA_MEDIA_SUBTYPE_raw)) = false := by
        simpa using h2
      by_cases h3 : pod.raw_parse_res < 0
      · left
        simp only [port_set_format, h1, if_false, h2', h3, if_true, Bool.false_eq_true]
        exact ⟨by decide, trivial⟩
      · cases hk : sample_size pod.raw.format with
        | none =>
          right; left
          refine ⟨rfl, ?_⟩
          simp only [port_set_format, h1, if_false, h2', h3, Bool.false_eq_true, hk]
        | some k =>
          right; right
          refine ⟨k, rfl, ?_⟩
          simp only [port_set_format, h1, if_false, h2', h3, Bool.false_eq_true, hk]
          refine ⟨trivial, ?_, ?_, ?_, ?_, ?_, ?_, ?_, ?_, ?_, ?_, ?_⟩
          · rw [(a _).2.2.1]
          · rw [(a _).2.2.2.1]
          · rw [(a _).2.2.2.2.2.2.2.1]
          · rw [(b _).2.2.2.2.2]; simp
          · rw [(a _).2.1]
          · rw [(a _).1]
          · rw [(b _).1]
          · rw [(b _).2.1]
          · rw [(b _).2.2.1]
          · rw [(b _).2.2.2.1]
          · rw [(b _).2.2.2.2.1]

/-- What `impl_node_port_use_buffers` does: it fails and leaves the state
alone, or it clears the buffers and then fails in its loop or succeeds. -/
theorem port_use_buffers_cases (this : Impl) (direction : spa_direction) (port_id : Nat)
    (buffers : List spa_buffer) (env : CommandEnv) :
    ((impl_node_port_use_buffers this direction port_id buffers env).1 < 0 ∧
      (impl_node_port_use_buffers this direction port_id buffers env).2 = this) ∨
    ((((impl_node_port_use_buffers this direction port_id buffers env).1 = -EINVAL ∧
        (impl_node_port_use_buffers this direction port_id buffers env).2.port.n_buffers = 0) ∨
      ((impl_node_port_use_buffers this direction port_id buffers env).1 = 0 ∧
        (impl_node_port_use_buffers this direction port_id buffers env).2.port.n_buffers
          = buffers.length)) ∧
      (impl_node_port_use_buffers this direction port_id buffers env).2.started = false ∧
      (impl_node_port_use_buffers this direction port_id buffers env).2.info_all
        = this.info_all ∧
      (impl_node_port_use_buffers this direction port_id buffers env).2.port.info_all
        = this.port.info_all ∧
      (impl_node_port_use_buffers this direction port_id buffers env).2.port.info.flags
        = this.port.info.flags ∧
      (impl_node_port_use_buffers this direction port_id buffers env).2.port.have_format
        = this.port.have_format ∧
      (impl_node_port_use_buffers this direction port_id buffers env).2.port.frame_size
        = this.port.frame_size ∧
      (impl_node_port_use_buffers this direction port_id buffers env).2.port.current_format
        = this.port.current_format ∧
      (impl_node_port_use_buffers this direction port_id buffers env).2.transport_acquired
        = (do_stop this env).2.transport_acquired ∧
      (impl_node_port_use_buffers this direction port_id buffers env).2.codec_data
        = (do_stop this env).2.codec_data ∧
      (impl_node_port_use_buffers this direction port_id buffers env).2.source_loop
        = (do_stop this env).2.source_loop) := by
  by_cases hc : CHECK_PORT direction port_id = true
  · by_cases hf : this.port.have_format = true
    · right
      obtain ⟨c1, c2, c3, -, -, -, -⟩ := clear_buffers_frame this env
      obtain ⟨d1, d2, d3, d4, d5, d6, d7, d8⟩ := clear_buffers_frame2 this env
      obtain ⟨l1, l2, -, -, l5, l6⟩ :=
        use_buffers_loop_frame (clear_buffers this env).port 0 buffers
      obtain ⟨m1, m2⟩ := use_buffers_loop_frame2 (clear_buffers this env).port 0 buffers
      have hrun : impl_node_port_use_buffers this direction port_id buffers env =
          if (use_buffers_loop (clear_buffers this env).port 0 buffers).1 = true then
            (0, { clear_buffers this env with
              port := { (use_buffers_loop (clear_buffers this env).port 0 buffers).2 with
                n_buffers := buffers.length } })
          else
            (-EINVAL, { clear_buffers this env with
              port := (use_buffers_loop (clear_buffers this env).port 0 buffers).2 }) := by
        simp [impl_node_port_use_buffers, hc, hf]
      rw [hrun]
      by_cases hok : (use_buffers_loop (clear_buffers this env).port 0 buffers).1 = true
      · rw [if_pos hok]
        exact ⟨Or.inr ⟨rfl, rfl⟩, c1, d1, m1.trans d2, by simp [m2, d3], l1.trans c3,
          l5.trans d4, l6.trans d5, d6, d7, d8⟩
      · rw [if_neg hok]
        exact ⟨Or.inl ⟨rfl, l2.trans c2⟩, c1, d1, m1.trans d2, by simp [m2, d3], l1.trans c3,
          l5.trans d4, l6.trans d5, d6, d7, d8⟩
    · left
      simp only [impl_node_port_use_buffers, hc, hf, Bool.not_true, Bool.false_eq_true,
        if_false, Bool.not_false, if_true]
      exact ⟨by decide, trivial⟩
  · left
    simp only [impl_node_port_use_buffers, hc, Bool.not_false, if_true]
    exact ⟨by decide, trivial⟩

/-- The fields of the infos and of the format that `impl_node_send_command`
leaves alone. -/
theorem send_command_frame2 (this : Impl) (command : NodeCommand) (env : CommandEnv) :
    (impl_node_send_command this command env).2.info_all = this.info_all ∧
    (impl_node_send_command this command env).2.port.info_all = this.port.info_all ∧
    (impl_node_send_command this command env).2.port.info = this.port.info ∧
    (impl_node_send_command this command env).2.port.have_format = this.port.have_format ∧
    (impl_node_send_command this command env).2.port.frame_size = this.port.frame_size ∧
    (impl_node_send_command this command env).2.port.current_format
      = this.port.current_format ∧
    (impl_node_send_command this command env).2.port.n_buffers = this.port.n_buffers := by
  obtain ⟨s1, s2, s3, s4, s5, s6, s7⟩ := do_start_frame2 this env
  obtain ⟨-, p⟩ := do_stop_frame this env
  obtain ⟨q1, -, -, -⟩ := do_stop_frame2 this env
  unfold impl_node_send_command
  cases command
  case Start =>
    dsimp only
    split_ifs
    · exact ⟨rfl, rfl, rfl, rfl, rfl, rfl, rfl⟩
    · exact ⟨rfl, rfl, rfl, rfl, rfl, rfl, rfl⟩
    · exact ⟨s1, s2, s3, s4, s5, s6, s7⟩
    · exact ⟨s1, s2, s3, s4, s5, s6, s7⟩
  case Suspend =>
    dsimp only
    split <;> simp [p, q1]
  case Pause =>
    dsimp only
    split <;> simp [p, q1]
  all_goals exact ⟨rfl, rfl, rfl, rfl, rfl, rfl, rfl⟩

/-- What an operation does to the configuration: it leaves it alone, or it is
one of the operations that change it. -/
theorem op_run_cases (this next : Impl) (op : Op) (res : Int)
    (hrun : op.run this = some (res, next)) :
    same_config this next ∨
    (∃ direction port_id id env, op = Op.port_set_param direction port_id id none env ∧
      (res, next) = port_set_format this none env) ∨
    (∃ direction port_id id pod env,
      op = Op.port_set_param direction port_id id (some pod) env ∧ id = SPA_PARAM_Format ∧
      (res, next) = port_set_format this (some pod) env) ∨
    (∃ direction port_id buffers env, op = Op.port_use_buffers direction port_id buffers env ∧
      (res, next) = impl_node_port_use_buffers this direction port_id buffers env) ∨
    (∃ command env, op = Op.send_command command env ∧
      (res, next) = impl_node_send_command this command env) ∨
    (op = Op.transport_destroy ∧ next = do_transport_destroy this) := by
  cases op with
  | port_set_param direction port_id id param env =>
    simp only [Op.run, Option.some.injEq] at hrun
    unfold impl_node_port_set_param at hrun
    split_ifs at hrun with h1 h2 h3
    · left
      rw [← (Prod.mk.inj hrun).2]
      exact same_config_refl this
    · cases param with
      | none => exact Or.inr (Or.inl ⟨_, _, _, _, rfl, hrun.symm⟩)
      | some pod => exact Or.inr (Or.inr (Or.inl ⟨_, _, _, _, _, rfl, h2, hrun.symm⟩))
    · left
      rw [← (Prod.mk.inj hrun).2]
      exact same_config_refl this
    · left
      rw [← (Prod.mk.inj hrun).2]
      exact same_config_refl this
  | port_use_buffers direction port_id buffers env =>
    simp only [Op.run, Option.some.injEq] at hrun
    exact Or.inr (Or.inr (Or.inr (Or.inl ⟨_, _, _, _, rfl, hrun.symm⟩)))
  | port_set_io direction port_id id data =>
    simp only [Op.run, Option.some.injEq] at hrun
    left
    rw [← (Prod.mk.inj hrun).2]
    exact port_set_io_same_config this direction port_id id data
  | port_reuse_buffer port_id buffer_id =>
    simp only [Op.run, Option.some.injEq] at hrun
    left
    rw [← (Prod.mk.inj hrun).2]
    exact port_reuse_buffer_same_config this port_id buffer_id
  | send_command command env =>
    simp only [Op.run, Option.some.injEq] at hrun
    exact Or.inr (Or.inr (Or.inr (Or.inr (Or.inl ⟨_, _, rfl, hrun.symm⟩))))
  | process env => exact Or.inl (process_same_config this next env res hrun)
  | set_io id data =>
    simp only [Op.run, Option.some.injEq] at hrun
    left
    rw [← (Prod.mk.inj hrun).2]
    exact set_io_same_config this id data
  | transport_destroy =>
    simp only [Op.run, Option.some.injEq, Prod.mk.injEq] at hrun
    exact Or.inr (Or.inr (Or.inr (Or.inr (Or.inr ⟨rfl, hrun.2.symm⟩))))

/-! ## Invariants of the configuration -/

/-- Every operation leaves `info_all` of the node and of the port alone. -/
theorem op_run_info_all (this next : Impl) (op : Op) (res : Int)
    (hrun : op.run this = some (res, next)) :
    next.info_all = this.info_all ∧ next.port.info_all = this.port.info_all := by
  rcases op_run_cases this next op res hrun with h | ⟨_, _, _, env, -, h⟩ |
    ⟨_, _, _, pod, env, -, -, h⟩ | ⟨d, p, bs, env, -, h⟩ | ⟨c, env, -, h⟩ | ⟨-, h⟩
  · exact ⟨h.1, h.2.1⟩
  · have hn : next = (port_set_format this none env).2 := by rw [← h]
    obtain ⟨-, -, -, -, -, -, s7, s8, -⟩ := port_set_format_none_summary this env
    rw [hn]
    exact ⟨s7, s8⟩
  · have hn : next = (port_set_format this (some pod) env).2 := by rw [← h]
    rw [hn]
    rcases port_set_format_some_cases this pod env with c | c | ⟨k, c⟩
    · rw [c.2]
      exact ⟨rfl, rfl⟩
    · rw [c.2]
      exact ⟨rfl, rfl⟩
    · exact ⟨c.2.2.2.2.2.2.2.2.1, c.2.2.2.2.2.2.2.2.2.1⟩
  · have hn : next = (impl_node_port_use_buffers this d p bs env).2 := by rw [← h]
    rw [hn]
    rcases port_use_buffers_cases this d p bs env with c | c
    · rw [c.2]
      exact ⟨rfl, rfl⟩
    · exact ⟨c.2.2.1, c.2.2.2.1⟩
  · have hn : next = (impl_node_send_command this c env).2 := by rw [← h]
    rw [hn]
    exact ⟨(send_command_frame2 this c env).1, (send_command_frame2 this c env).2.1⟩
  · rw [h]
    exact ⟨rfl, rfl⟩

/-- The infos as `impl_init` leaves them. -/
theorem impl_init_infos (info : InitInfo) (this : Impl) (h : impl_init info = (0, this)) :
    this.info_all = (SPA_NODE_CHANGE_MASK_FLAGS ||| SPA_NODE_CHANGE_MASK_PROPS)
      ||| SPA_NODE_CHANGE_MASK_PARAMS ∧
    this.port.info_all = SPA_PORT_CHANGE_MASK_FLAGS ||| SPA_PORT_CHANGE_MASK_PARAMS ∧
    this.port.info.flags = SPA_PORT_FLAG_LIVE ||| SPA_PORT_FLAG_TERMINAL ∧
    this.port.have_format = false ∧
    this.transport_acquired = false := by
  have hthis : this = (impl_init info).2 := by rw [h]
  have hres : (impl_init info).1 = 0 := by rw [h]
  rw [hthis]
  clear hthis h
  revert hres
  rcases info with ⟨_ | _, _ | _, _ | _, _ | _, _ | _, _ | _, _ | _, _ | (_ | _), _ | (_ | _)⟩ <;>
    intro hres <;> first
      | exact ⟨rfl, rfl, rfl, rfl, rfl⟩
      | exact absurd (show (-EINVAL : Int) = 0 from hres) (by decide)

/-- In every reachable state `info_all` of the node and of the port are as
`impl_init` set them. -/
theorem reachable_info_all (this : Impl) (h : Reachable this) :
    this.info_all = (SPA_NODE_CHANGE_MASK_FLAGS ||| SPA_NODE_CHANGE_MASK_PROPS)
      ||| SPA_NODE_CHANGE_MASK_PARAMS ∧
    this.port.info_all = SPA_PORT_CHANGE_MASK_FLAGS ||| SPA_PORT_CHANGE_MASK_PARAMS := by
  induction h with
  | init info this h => exact ⟨(impl_init_infos info this h).1, (impl_init_infos info this h).2.1⟩
  | step this op res next _ hrun ih =>
    obtain ⟨h1, h2⟩ := op_run_info_all this next op res hrun
    rw [h1, h2]
    exact ih

/-- Every operation keeps `flags_ok`. -/
theorem op_run_flags_ok (this next : Impl) (op : Op) (res : Int)
    (hrun : op.run this = some (res, next)) (hok : flags_ok this) : flags_ok next := by
  unfold flags_ok at hok ⊢
  rcases op_run_cases this next op res hrun with h | ⟨_, _, _, env, -, h⟩ |
    ⟨_, _, _, pod, env, -, -, h⟩ | ⟨d, p, bs, env, -, h⟩ | ⟨c, env, -, h⟩ | ⟨-, h⟩
  · rw [h.2.2.1, h.2.2.2.1]
    exact hok
  · have hn : next = (port_set_format this none env).2 := by rw [← h]
    obtain ⟨-, -, s3, -, -, -, -, -, s9, -⟩ := port_set_format_none_summary this env
    rw [hn, s9, s3]
    exact ⟨hok.1, fun hf => absurd hf (by decide)⟩
  · have hn : next = (port_set_format this (some pod) env).2 := by rw [← h]
    rw [hn]
    rcases port_set_format_some_cases this pod env with c | c | ⟨k, c⟩
    · rw [c.2]
      exact hok
    · rw [c.2]
      exact hok
    · rw [c.2.2.2.2.2.1]
      exact ⟨Or.inr rfl, fun _ => rfl⟩
  · have hn : next = (impl_node_port_use_buffers this d p bs env).2 := by rw [← h]
    rw [hn]
    rcases port_use_buffers_cases this d p bs env with c | c
    · rw [c.2]
      exact hok
    · rw [c.2.2.2.2.1, c.2.2.2.2.2.1]
      exact hok
  · have hn : next = (impl_node_send_command this c env).2 := by rw [← h]
    obtain ⟨-, -, f3, f4, -, -, -⟩ := send_command_frame2 this c env
    rw [hn, f3, f4]
    exact hok
  · rw [h]
    exact hok

/-- Every reachable state is `flags_ok`. -/
theorem reachable_flags_ok (this : Impl) (h : Reachable this) : flags_ok this := by
  induction h with
  | init info this h =>
    obtain ⟨-, -, i3, i4, -⟩ := impl_init_infos info this h
    exact ⟨Or.inl i3, fun hf => by rw [i4] at hf; cases hf⟩
  | step this op res next _ hrun ih => exact op_run_flags_ok this next op res hrun ih

/-! ## Invariants of the format -/

/-- The sizes of a sample that `port_set_format` knows. -/
theorem sample_size_bounds (format : spa_audio_format) (k : Nat)
    (h : sample_size format = some k) : 2 ≤ k ∧ k ≤ 4 := by
  cases format <;> simp [sample_size] at h <;> omega

/-- Every operation whose format has a supported sample format keeps `frame_ok`. -/
theorem op_run_frame_ok (this next : Impl) (op : Op) (res : Int)
    (hrun : op.run this = some (res, next)) (hop : op.format_supported)
    (hok : frame_ok this) : frame_ok next := by
  unfold frame_ok at hok ⊢
  rcases op_run_cases this next op res hrun with h | ⟨_, _, _, env, -, h⟩ |
    ⟨_, _, _, pod, env, hopeq, -, h⟩ | ⟨d, p, bs, env, -, h⟩ | ⟨c, env, -, h⟩ | ⟨-, h⟩
  · obtain ⟨-, -, -, s4, s5, s6, -⟩ := h
    rw [s4, s5, s6]
    exact hok
  · have hn : next = (port_set_format this none env).2 := by rw [← h]
    obtain ⟨-, -, s3, -⟩ := port_set_format_none_summary this env
    rw [hn, s3]
    intro hf
    cases hf
  · have hn : next = (port_set_format this (some pod) env).2 := by rw [← h]
    rw [hn]
    rcases port_set_format_some_cases this pod env with c | c | ⟨k, c⟩
    · rw [c.2]
      exact hok
    · rw [hopeq] at hop
      exact absurd c.1 hop
    · intro _
      refine ⟨k, ?_, ?_⟩
      · rw [c.2.2.2.2.1]
        exact c.1
      · rw [c.2.2.2.1, c.2.2.2.2.1]
  · have hn : next = (impl_node_port_use_buffers this d p bs env).2 := by rw [← h]
    rw [hn]
    rcases port_use_buffers_cases this d p bs env with c | c
    · rw [c.2]
      exact hok
    · obtain ⟨-, -, -, -, -, c6, c7, c8, -⟩ := c
      rw [c6, c7, c8]
      exact hok
  · have hn : next = (impl_node_send_command this c env).2 := by rw [← h]
    obtain ⟨-, -, -, f4, f5, f6, -⟩ := send_command_frame2 this c env
    rw [hn, f4, f5, f6]
    exact hok
  · rw [h]
    exact hok

/-- On runs in which every format given has a supported sample format, every
state is `frame_ok`. -/
theorem reachable_frame_ok (this : Impl) (h : ReachableBy Op.format_supported this) :
    frame_ok this := by
  induction h with
  | init info this h =>
    intro hf
    rw [(impl_init_infos info this h).2.2.2.1] at hf
    cases hf
  | step this op res next _ hallowed hrun ih =>
    exact op_run_frame_ok this next op res hrun hallowed ih

/-- Every operation whose format has a positive rate and between 1 and
`2^30 - 1` channels keeps `positive_ok`. -/
theorem op_run_positive_ok (this next : Impl) (op : Op) (res : Int)
    (hrun : op.run this = some (res, next)) (hop : op.format_positive)
    (hok : positive_ok this) : positive_ok next := by
  unfold positive_ok at hok ⊢
  rcases op_run_cases this next op res hrun with h | ⟨_, _, _, env, -, h⟩ |
    ⟨_, _, _, pod, env, hopeq, -, h⟩ | ⟨d, p, bs, env, -, h⟩ | ⟨c, env, -, h⟩ | ⟨-, h⟩
  · obtain ⟨-, -, -, s4, s5, s6, -⟩ := h
    rw [s4, s5, s6]
    exact hok
  · have hn : next = (port_set_format this none env).2 := by rw [← h]
    obtain ⟨-, -, s3, -⟩ := port_set_format_none_summary this env
    rw [hn, s3]
    intro hf
    cases hf
  · have hn : next = (port_set_format this (some pod) env).2 := by rw [← h]
    rw [hopeq] at hop
    obtain ⟨p1, p2, p3⟩ : 0 < pod.raw.channels ∧ pod.raw.channels < 2 ^ 30 ∧ 0 < pod.raw.rate :=
      hop
    have hch : u32 pod.raw.channels = pod.raw.channels := by
      unfold u32
      exact Nat.mod_eq_of_lt (by omega)
    rw [hn]
    rcases port_set_format_some_cases this pod env with c | c | ⟨k, c⟩
    · rw [c.2]
      exact hok
    · rw [c.2]
      intro hf
      refine ⟨?_, (hok hf).2⟩
      show 0 < u32 pod.raw.channels
      rw [hch]
      exact p1
    · intro _
      obtain ⟨k2, k4⟩ := sample_size_bounds _ _ c.1
      rw [c.2.2.2.1, c.2.2.2.2.1, hch]
      refine ⟨?_, p3⟩
      have hlt : pod.raw.channels * k < 2 ^ 32 := by
        calc pod.raw.channels * k ≤ pod.raw.channels * 4 := Nat.mul_le_mul_left _ k4
          _ < 2 ^ 32 := by omega
      unfold u32
      rw [Nat.mod_eq_of_lt hlt]
      exact Nat.mul_pos p1 (by omega)
  · have hn : next = (impl_node_port_use_buffers this d p bs env).2 := by rw [← h]
    rw [hn]
    rcases port_use_buffers_cases this d p bs env with c | c
    · rw [c.2]
      exact hok
    · obtain ⟨-, -, -, -, -, c6, c7, c8, -⟩ := c
      rw [c6, c7, c8]
      exact hok
  · have hn : next = (impl_node_send_command this c env).2 := by rw [← h]
    obtain ⟨-, -, -, f4, f5, f6, -⟩ := send_command_frame2 this c env
    rw [hn, f4, f5, f6]
    exact hok
  · rw [h]
    exact hok

/-- On runs in which every format given has a positive rate and between 1 and
`2^30 - 1` channels, every state is `positive_ok`. -/
theorem reachable_positive_ok (this : Impl) (h : ReachableBy Op.format_positive this) :
    positive_ok this := by
  induction h with
  | init info this h =>
    intro hf
    rw [(impl_init_infos info this h).2.2.2.1] at hf
    cases hf
  | step this op res next _ hallowed hrun ih =>
    exact op_run_positive_ok this next op res hrun hallowed ih

/-! ## Invariant of the session -/

/-- The session is judged on three fields. -/
theorem session_ok_congr (this next : Impl) (h : session_ok this)
    (h1 : next.transport_acquired = this.transport_acquired)
    (h2 : next.codec_data = this.codec_data) (h3 : next.source_loop = this.source_loop) :
    session_ok next := by
  unfold session_ok at h ⊢
  rw [h1, h2, h3]
  exact h

/-- `do_stop` keeps `session_ok`. -/
theorem do_stop_session_ok (this : Impl) (env : CommandEnv) (h : session_ok this) :
    session_ok (do_stop this env).2 := by
  obtain ⟨-, -, d3, d4⟩ := do_stop_frame2 this env
  by_cases hs : this.started = true
  · intro ha
    rw [(d4 hs).1] at ha
    cases ha
  · have hs' : this.started = false := by simpa using hs
    rw [d3 hs']
    exact h

/-- When the codec and the decode buffer initialise, `transport_start` keeps
`session_ok`. -/
theorem transport_start_session_ok (this : Impl) (transport : spa_bt_transport)
    (env : CommandEnv) (hc : env.codec_init_ok = true) (hd : 0 ≤ env.decode_buffer_init_res)
    (h : session_ok this) : session_ok (transport_start this transport env).2 := by
  have hd' : ¬ env.decode_buffer_init_res < 0 := by omega
  by_cases ha : this.transport_acquired = true
  · unfold transport_start
    rw [if_pos ha]
    exact h
  · by_cases hq : env.acquire_res < 0
    · unfold transport_start
      rw [if_neg ha]
      simp only [hq, if_true]
      intro hx
      exact absurd hx ha
    · intro _
      have m := fun x => setup_matching_frame2 x env.corr
      by_cases hu : this.use_duplex_source = true <;>
        simp [transport_start, ha, hq, hc, hd', hu, set_timers, set_timeout,
          set_duplex_timeout, (m _).2.2.2.2.2.1, (m _).2.2.2.2.2.2.1]

/-- When the codec and the decode buffer initialise, `do_start` keeps
`session_ok`. -/
theorem do_start_session_ok (this : Impl) (env : CommandEnv) (hc : env.codec_init_ok = true)
    (hd : 0 ≤ env.decode_buffer_init_res) (h : session_ok this) :
    session_ok (do_start this env).2 := by
  unfold do_start
  split_ifs with hs
  · exact h
  · dsimp only
    split
    · exact h
    · rename_i transport _
      split_ifs with hp
      · exact transport_start_session_ok { this with following := is_following this }
          transport env hc hd h
      · exact h

/-- When the codec and the decode buffer initialise, a command keeps
`session_ok`. -/
theorem send_command_session_ok (this : Impl) (command : NodeCommand) (env : CommandEnv)
    (hc : env.codec_init_ok = true) (hd : 0 ≤ env.decode_buffer_init_res)
    (h : session_ok this) : session_ok (impl_node_send_command this command env).2 := by
  have hstart := do_start_session_ok this env hc hd h
  have hstop := do_stop_session_ok this env h
  cases command <;> simp only [impl_node_send_command] <;>
    first
      | exact h
      | (split_ifs <;> first | exact h | exact hstart | exact hstop)

/-- Every operation during which the codec and the decode buffer initialise
keeps `session_ok`. -/
theorem op_run_session_ok (this next : Impl) (op : Op) (res : Int)
    (hrun : op.run this = some (res, next)) (hop : op.codec_ok)
    (hok : session_ok this) : session_ok next := by
  rcases op_run_cases this next op res hrun with h | ⟨_, _, _, env, -, h⟩ |
    ⟨_, _, _, pod, env, -, -, h⟩ | ⟨d, p, bs, env, -, h⟩ | ⟨c, env, hopeq, h⟩ | ⟨-, h⟩
  · obtain ⟨-, -, -, -, -, -, s7, s8, s9, -⟩ := h
    exact session_ok_congr this next hok s7 s8 s9
  · have hn : next = (port_set_format this none env).2 := by rw [← h]
    obtain ⟨-, -, -, -, -, -, -, -, -, -, -, s12, s13, s14⟩ :=
      port_set_format_none_summary this env
    rw [hn]
    exact session_ok_congr _ _ (do_stop_session_ok this env hok) s12 s13 s14
  · have hn : next = (port_set_format this (some pod) env).2 := by rw [← h]
    rw [hn]
    rcases port_set_format_some_cases this pod env with c | c | ⟨k, c⟩
    · rw [c.2]
      exact hok
    · rw [c.2]
      exact hok
    · obtain ⟨-, -, -, -, -, -, -, -, -, -, c11, c12, c13⟩ := c
      exact session_ok_congr _ _ hok c11 c12 c13
  · have hn : next = (impl_node_port_use_buffers this d p bs env).2 := by rw [← h]
    rw [hn]
    rcases port_use_buffers_cases this d p bs env with c | c
    · rw [c.2]
      exact hok
    · obtain ⟨-, -, -, -, -, -, -, -, c9, c10, c11⟩ := c
      exact session_ok_congr _ _ (do_stop_session_ok this env hok) c9 c10 c11
  · have hn : next = (impl_node_send_command this c env).2 := by rw [← h]
    rw [hopeq] at hop
    rw [hn]
    exact send_command_session_ok this c env hop.1 hop.2 hok
  · rw [h]
    intro ha
    cases ha

/-- On runs during which the codec and the decode buffer initialise, every state
is `session_ok`. -/
theorem reachable_session_ok (this : Impl) (h : ReachableBy Op.codec_ok this) :
    session_ok this := by
  induction h with
  | init info this h =>
    intro ha
    rw [(impl_init_infos info this h).2.2.2.2] at ha
    cases ha
  | step this op res next _ hallowed hrun ih =>
    exact op_run_session_ok this next op res hrun hallowed ih

/-! ## What installs a format and buffers -/

/-- Without a format, only a successful `port_set_param(Format, non-null)`
brings one. -/
theorem op_run_have_format_false (this next : Impl) (op : Op) (res : Int)
    (hrun : op.run this = some (res, next)) (hf : this.port.have_format = false)
    (hop : ¬ op.installs_format res) : next.port.have_format = false := by
  rcases op_run_cases this next op res hrun with h | ⟨_, _, _, env, -, h⟩ |
    ⟨_, _, _, pod, env, hopeq, hid, h⟩ | ⟨d, p, bs, env, -, h⟩ | ⟨c, env, -, h⟩ | ⟨-, h⟩
  · rw [h.2.2.2.1]
    exact hf
  · have hn : next = (port_set_format this none env).2 := by rw [← h]
    rw [hn]
    exact (port_set_format_none_summary this env).2.2.1
  · have hn : next = (port_set_format this (some pod) env).2 := by rw [← h]
    have hr : res = (port_set_format this (some pod) env).1 := by rw [← h]
    rw [hn]
    rcases port_set_format_some_cases this pod env with c | c | ⟨k, c⟩
    · rw [c.2]
      exact hf
    · rw [c.2]
      exact hf
    · exfalso
      apply hop
      rw [hopeq]
      exact ⟨hid, by rw [hr]; exact c.2.1⟩
  · have hn : next = (impl_node_port_use_buffers this d p bs env).2 := by rw [← h]
    rw [hn]
    rcases port_use_buffers_cases this d p bs env with c | c
    · rw [c.2]
      exact hf
    · rw [c.2.2.2.2.2.1]
      exact hf
  · have hn : next = (impl_node_send_command this c env).2 := by rw [← h]
    rw [hn, (send_command_frame2 this c env).2.2.2.1]
    exact hf
  · rw [h]
    exact hf

/-- Without buffers, only a successful `port_use_buffers` with at least one
buffer brings some. -/
theorem op_run_n_buffers_zero (this next : Impl) (op : Op) (res : Int)
    (hrun : op.run this = some (res, next)) (hn0 : this.port.n_buffers = 0)
    (hop : ¬ op.installs_buffers res) : next.port.n_buffers = 0 := by
  rcases op_run_cases this next op res hrun with h | ⟨_, _, _, env, -, h⟩ |
    ⟨_, _, _, pod, env, -, -, h⟩ | ⟨d, p, bs, env, hopeq, h⟩ | ⟨c, env, -, h⟩ | ⟨-, h⟩
  · rw [h.2.2.2.2.2.2.2.2.2]
    exact hn0
  · have hn : next = (port_set_format this none env).2 := by rw [← h]
    rw [hn]
    exact (port_set_format_none_summary this env).2.2.2.1
  · have hn : next = (port_set_format this (some pod) env).2 := by rw [← h]
    rw [hn]
    rcases port_set_format_some_cases this pod env with c | c | ⟨k, c⟩
    · rw [c.2]
      exact hn0
    · rw [c.2]
      exact hn0
    · rw [c.2.2.2.2.2.2.1]
      exact hn0
  · have hn : next = (impl_node_port_use_buffers this d p bs env).2 := by rw [← h]
    have hr : res = (impl_node_port_use_buffers this d p bs env).1 := by rw [← h]
    rw [hn]
    rcases port_use_buffers_cases this d p bs env with c | ⟨c | c, -⟩
    · rw [c.2]
      exact hn0
    · exact c.2
    · rw [c.2]
      by_cases hb : bs = []
      · rw [hb]
        rfl
      · exfalso
        apply hop
        rw [hopeq]
        exact ⟨hb, by rw [hr]; exact c.1⟩
  · have hn : next = (impl_node_send_command this c env).2 := by rw [← h]
    rw [hn, (send_command_frame2 this c env).2.2.2.2.2.2]
    exact hn0
  · rw [h]
    exact hn0

/-- A run without a successful `port_set_param(Format, non-null)` brings no
format. -/
theorem run_have_format_false (this next : Impl) (ops : List (Op × Int))
    (hrun : Run this ops next) (hf : this.port.have_format = false)
    (hops : ∀ e ∈ ops, ¬ e.1.installs_format e.2) : next.port.have_format = false := by
  induction hrun with
  | nil this => exact hf
  | cons this mid next op res rest hstep _ ih =>
    apply ih
    · exact op_run_have_format_false this mid op res hstep hf
        (hops (op, res) (List.mem_cons_self _ _))
    · intro e he
      exact hops e (List.mem_cons_of_mem _ he)

/-- A run without a successful `port_use_buffers` with at least one buffer
brings no buffers. -/
theorem run_n_buffers_zero (this next : Impl) (ops : List (Op × Int))
    (hrun : Run this ops next) (hn0 : this.port.n_buffers = 0)
    (hops : ∀ e ∈ ops, ¬ e.1.installs_buffers e.2) : next.port.n_buffers = 0 := by
  induction hrun with
  | nil this => exact hn0
  | cons this mid next op res rest hstep _ ih =>
    apply ih
    · exact op_run_n_buffers_zero this mid op res hstep hn0
        (hops (op, res) (List.mem_cons_self _ _))
    · intro e he
      exact hops e (List.mem_cons_of_mem _ he)

/-- Without a format, or without buffers, `Start` returns `-EIO` and leaves the
state alone. -/
theorem send_command_start_refused (this : Impl) (env : CommandEnv)
    (h : this.port.have_format = false ∨ this.port.n_buffers = 0) :
    impl_node_send_command this NodeCommand.Start env = (- EIO, this) := by
  rcases h with h | h
  · simp [impl_node_send_command, h]
  · simp [impl_node_send_command, h]

/-! ## The handlers on a node that is not started -/

/-- The calls of the loop of `decode_data` go to the codec. -/
theorem decode_loop_calls (codec : CodecOracle) (dst_size fuel index src_size avail : Nat)
    (res : Int) (calls : List Call)
    (h : decode_loop codec dst_size fuel index src_size avail = some (res, calls)) :
    ∀ c ∈ calls, c.changes_decode_buffer = false := by
  induction fuel generalizing index src_size avail res calls with
  | zero =>
    unfold decode_loop at h
    split_ifs at h
    simp only [Option.some.injEq, Prod.mk.injEq] at h
    rw [← h.2]
    simp
  | succ fuel ih =>
    unfold decode_loop at h
    by_cases h1 : src_size > 0
    · rw [if_pos h1] at h
      dsimp only at h
      by_cases h2 : (codec.decode index src_size avail).1 ≤ 0
      · rw [if_pos h2] at h
        simp only [Option.some.injEq, Prod.mk.injEq] at h
        rw [← h.2]
        simp [Call.changes_decode_buffer]
      · rw [if_neg h2] at h
        by_cases h3 : ¬ avail > (codec.decode index src_size avail).2
        · rw [if_pos h3] at h
          simp only [Option.some.injEq, Prod.mk.injEq] at h
          rw [← h.2]
          simp [Call.changes_decode_buffer]
        · rw [if_neg h3] at h
          cases hrec : decode_loop codec dst_size fuel (index + 1)
              (u32_sub src_size (codec.decode index src_size avail).1)
              (avail - (codec.decode index src_size avail).2) with
          | none => simp [hrec] at h
          | some r =>
            obtain ⟨res2, calls2⟩ := r
            simp only [hrec, Option.some.injEq, Prod.mk.injEq] at h
            rw [← h.2]
            intro c hc
            rcases List.mem_cons.mp hc with hc | hc
            · rw [hc]
              rfl
            · exact ih _ _ _ _ _ hrec c hc
    · rw [if_neg h1] at h
      simp only [Option.some.injEq, Prod.mk.injEq] at h
      rw [← h.2]
      simp

/-- The calls of `decode_data` go to the codec. -/
theorem decode_data_calls (codec : CodecOracle) (fuel src_size dst_size : Nat)
    (res : Int) (calls : List Call)
    (h : decode_data codec fuel src_size dst_size = some (res, calls)) :
    ∀ c ∈ calls, c.changes_decode_buffer = false := by
  unfold decode_data at h
  dsimp only at h
  by_cases h1 : codec.start_decode src_size < 0
  · rw [if_pos h1] at h
    simp only [Option.some.injEq, Prod.mk.injEq] at h
    rw [← h.2]
    simp [Call.changes_decode_buffer]
  · rw [if_neg h1] at h
    cases hrec : decode_loop codec dst_size fuel 0
        (u32_sub src_size (codec.start_decode src_size)) dst_size with
    | none => simp [hrec] at h
    | some r =>
      obtain ⟨res2, calls2⟩ := r
      simp only [hrec, Option.some.injEq, Prod.mk.injEq] at h
      rw [← h.2]
      intro c hc
      rcases List.mem_cons.mp hc with hc | hc
      · rw [hc]
        rfl
      · exact decode_loop_calls _ _ _ _ _ _ _ _ hrec c hc

/-- A handler that does nothing is quiet. -/
theorem quiet_step_refl (this : Impl) (hs : this.started = false) : quiet_step this this :=
  ⟨hs, [], by simp, by simp⟩

/-- Quiet steps follow one another. -/
theorem quiet_step_trans (a b c : Impl) (hab : quiet_step a b) (hbc : quiet_step b c) :
    quiet_step a c := by
  obtain ⟨-, l1, e1, q1⟩ := hab
  obtain ⟨s2, l2, e2, q2⟩ := hbc
  refine ⟨s2, l1 ++ l2, ?_, ?_⟩
  · rw [e2, e1, List.append_assoc]
  · intro x hx
    rcases List.mem_append.mp hx with hx | hx
    · exact q1 x hx
    · exact q2 x hx

/-- The label `stop:` is quiet. -/
theorem a2dp_on_ready_read_stop_quiet (this : Impl) (hs : this.started = false) :
    quiet_step this (a2dp_on_ready_read_stop this) := by
  unfold a2dp_on_ready_read_stop
  split_ifs
  · exact ⟨hs, [], by simp, by simp⟩
  · exact quiet_step_refl this hs

/-- On a node that is not started, `a2dp_on_ready_read` is quiet. -/
theorem a2dp_on_ready_read_quiet (this next : Impl) (env : ReadEnv)
    (hs : this.started = false) (h : a2dp_on_ready_read this env = some next) :
    quiet_step this next := by
  unfold a2dp_on_ready_read at h
  by_cases h1 : (!env.rmask_in) = true
  · rw [if_pos h1] at h
    rw [← Option.some.inj h]
    exact a2dp_on_ready_read_stop_quiet this hs
  · rw [if_neg h1] at h
    by_cases h2 : this.transport.isNone = true
    · rw [if_pos h2] at h
      rw [← Option.some.inj h]
      exact a2dp_on_ready_read_stop_quiet this hs
    · rw [if_neg h2] at h
      cases hread : read_data env.recv with
      | none => simp [hread] at h
      | some size_read =>
        simp only [hread] at h
        by_cases h3 : size_read = 0
        · rw [if_pos h3] at h
          rw [← Option.some.inj h]
          exact quiet_step_refl this hs
        · rw [if_neg h3] at h
          by_cases h4 : size_read < 0
          · rw [if_pos h4] at h
            rw [← Option.some.inj h]
            exact a2dp_on_ready_read_stop_quiet this hs
          · rw [if_neg h4] at h
            cases hdec : decode_data env.codec env.fuel size_read.toNat (u32 env.avail) with
            | none => simp [hdec] at h
            | some r =>
              obtain ⟨decoded, calls⟩ := r
              have hcalls := decode_data_calls _ _ _ _ _ _ hdec
              by_cases hu : env.update_props = true
              · simp [hdec, hu, hs] at h
                rw [← h]
                refine ⟨rfl, [Call.codec_update_props, Call.decode_buffer_get_write] ++ calls,
                  by simp, ?_⟩
                intro c hc
                rcases List.mem_append.mp hc with hc | hc
                · simp only [List.mem_cons, List.mem_singleton, List.not_mem_nil, or_false] at hc
                  rcases hc with hc | hc <;> rw [hc] <;> rfl
                · exact hcalls c hc
              · simp [hdec, hu, hs] at h
                rw [← h]
                refine ⟨rfl, [Call.decode_buffer_get_write] ++ calls, by simp, ?_⟩
                intro c hc
                rcases List.mem_append.mp hc with hc | hc
                · simp only [List.mem_singleton] at hc
                  rw [hc]
                  rfl
                · exact hcalls c hc

/-- On a node that is not started, `a2dp_on_duplex_timeout` is quiet. -/
theorem a2dp_on_duplex_timeout_quiet (this next : Impl) (env : ReadEnv)
    (hs : this.started = false) (h : a2dp_on_duplex_timeout this env = some next) :
    quiet_step this next :=
  a2dp_on_ready_read_quiet (set_duplex_timeout this this.duplex_timeout) next env hs h

/-- On a node that is not started, `a2dp_on_timeout` is quiet. -/
theorem a2dp_on_timeout_quiet (this next : Impl) (corr : ℚ)
    (hs : this.started = false) (h : a2dp_on_timeout this corr = some next) :
    quiet_step this next := by
  unfold a2dp_on_timeout at h
  by_cases h1 : this.transport.isNone = true
  · rw [if_pos h1] at h
    rw [← Option.some.inj h]
    exact quiet_step_refl this hs
  · rw [if_neg h1] at h
    have m := fun x => setup_matching_frame x corr
    dsimp only at h
    split at h
    · cases h
    · rw [← Option.some.inj h]
      refine ⟨?_, [Call.call_ready SPA_STATUS_HAVE_DATA], ?_, ?_⟩
      · simp [set_timeout, (m _).1, hs]
      · simp [set_timeout, (m _).2.2.2.1]
      · intro c hc
        simp only [List.mem_singleton] at hc
        rw [hc]
        rfl

/-- On a node that is not started, every handler is quiet. -/
theorem handler_run_quiet (this next : Impl) (handler : Handler)
    (hs : this.started = false) (h : handler.run this = some next) :
    quiet_step this next := by
  cases handler with
  | ready_read env => exact a2dp_on_ready_read_quiet this next env hs h
  | duplex_timeout env => exact a2dp_on_duplex_timeout_quiet this next env hs h
  | timeout corr => exact a2dp_on_timeout_quiet this next corr hs h

/-- On a node that is not started, every sequence of handlers is quiet. -/
theorem handler_runs_quiet (this next : Impl) (handlers : List Handler)
    (hs : this.started = false) (h : Handler.runs this handlers = some next) :
    quiet_step this next := by
  induction handlers generalizing this with
  | nil =>
    simp only [Handler.runs, Option.some.injEq] at h
    rw [← h]
    exact quiet_step_refl this hs
  | cons handler rest ih =>
    unfold Handler.runs at h
    cases hrun : handler.run this with
    | none => simp [hrun] at h
    | some mid =>
      simp only [hrun] at h
      have hq := handler_run_quiet this mid handler hs hrun
      exact quiet_step_trans this mid next hq (ih mid hq.1 h)

/-- A quiet step leaves the calls that change the decode buffer as they were. -/
theorem quiet_step_changes (this next : Impl) (h : quiet_step this next) :
    decode_buffer_changes next = decode_buffer_changes this := by
  obtain ⟨-, added, e, q⟩ := h
  unfold decode_buffer_changes
  rw [e, List.filter_append]
  have : added.filter Call.changes_decode_buffer = [] := by
    rw [List.filter_eq_nil_iff]
    intro c hc
    rw [q c hc]
    simp
  rw [this, List.append_nil]

/-! ## The IO areas of the port -/

/-- C11: on the output port (`CHECK_PORT` holds) `port_set_io` stores the
window in `port.io` for `SPA_IO_Buffers` and in `port.rate_match` for
`SPA_IO_RateMatch`, returns 0 and changes no other field; for every other id
it returns `-ENOENT` and changes nothing; for a wrong direction or port id it
returns `-EINVAL` and changes nothing. -/
theorem port_set_io_results (this : Impl) (direction : spa_direction) (port_id id : Nat)
    (data : PortIoData) :
    (CHECK_PORT direction port_id = true → id = SPA_IO_Buffers →
      impl_node_port_set_io this direction port_id id data =
        (0, { this with port := { this.port with io := data.buffers } })) ∧
    (CHECK_PORT direction port_id = true → id = SPA_IO_RateMatch →
      impl_node_port_set_io this direction port_id id data =
        (0, { this with port := { this.port with rate_match := data.rate_match } })) ∧
    (CHECK_PORT direction port_id = true → id ≠ SPA_IO_Buffers → id ≠ SPA_IO_RateMatch →
      impl_node_port_set_io this direction port_id id data = (-ENOENT, this)) ∧
    (CHECK_PORT direction port_id = false →
      impl_node_port_set_io this direction port_id id data = (-EINVAL, this)) := by
  unfold impl_node_port_set_io
  refine ⟨?_, ?_, ?_, ?_⟩
  · intro hp hid
    simp [hp, hid]
  · intro hp hid
    have hne : ¬ id = SPA_IO_Buffers := by
      rw [hid]
      decide
    rw [if_neg (by simp [hp]), if_neg hne, if_pos hid]
  · intro hp h1 h2
    simp [hp, h1, h2]
  · intro hp
    simp [hp]

/-! ## Format renegotiation -/

/-- C12: from every reachable started state, `port_set_param(Format, null)` on
the output port returns 0 and leaves `started = false`, `have_format = false`,
`n_buffers = 0` and both lists of the pool empty; after every run of
operations from there in which no `port_set_param(Format, non-null)` has
returned 0, or no `port_use_buffers` with at least one buffer has returned 0,
`send_command(Start)` returns `-EIO` and leaves the state as it is. -/
theorem format_renegotiation (this : Impl) (env : CommandEnv) (h : Reachable this)
    (hstarted : this.started = true) :
    (impl_node_port_set_param this spa_direction.SPA_DIRECTION_OUTPUT 0 SPA_PARAM_Format
      none env).1 = 0 ∧
    (impl_node_port_set_param this spa_direction.SPA_DIRECTION_OUTPUT 0 SPA_PARAM_Format
      none env).2.started = false ∧
    (impl_node_port_set_param this spa_direction.SPA_DIRECTION_OUTPUT 0 SPA_PARAM_Format
      none env).2.port.have_format = false ∧
    (impl_node_port_set_param this spa_direction.SPA_DIRECTION_OUTPUT 0 SPA_PARAM_Format
      none env).2.port.n_buffers = 0 ∧
    (impl_node_port_set_param this spa_direction.SPA_DIRECTION_OUTPUT 0 SPA_PARAM_Format
      none env).2.port.free = [] ∧
    (impl_node_port_set_param this spa_direction.SPA_DIRECTION_OUTPUT 0 SPA_PARAM_Format
      none env).2.port.ready = [] ∧
    ∀ (ops : List (Op × Int)) (next : Impl),
      Run (impl_node_port_set_param this spa_direction.SPA_DIRECTION_OUTPUT 0 SPA_PARAM_Format
        none env).2 ops next →
      ((∀ e ∈ ops, ¬ e.1.installs_format e.2) ∨ (∀ e ∈ ops, ¬ e.1.installs_buffers e.2)) →
      ∀ start_env : CommandEnv,
        impl_node_send_command next NodeCommand.Start start_env = (- EIO, next) := by
  have hcall : impl_node_port_set_param this spa_direction.SPA_DIRECTION_OUTPUT 0
      SPA_PARAM_Format none env = port_set_format this none env := by
    simp [impl_node_port_set_param, CHECK_PORT]
  have hn : 0 < this.port.n_buffers := (reachable_started_ok this h hstarted).2
  obtain ⟨s1, s2, s3, s4, s5, s6, -⟩ := port_set_format_none_summary this env
  rw [if_pos hn] at s5 s6
  rw [hcall]
  refine ⟨s1, s2, s3, s4, s5, s6, ?_⟩
  intro ops next hrun hops start_env
  apply send_command_start_refused
  rcases hops with hops | hops
  · exact Or.inl (run_have_format_false _ next ops hrun s3 hops)
  · exact Or.inr (run_n_buffers_zero _ next ops hrun s4 hops)

/-- C12 at the started node of the example: the format is cleared, and after a
new format alone `Start` is still refused. -/
theorem format_renegotiation_witness :
    (Reachable Example.node_started ∧ Example.node_started.started = true) ∧
    (impl_node_port_set_param Example.node_started spa_direction.SPA_DIRECTION_OUTPUT 0
      SPA_PARAM_Format none Example.env).1 = 0 ∧
    (impl_node_port_set_param Example.node_started spa_direction.SPA_DIRECTION_OUTPUT 0
      SPA_PARAM_Format none Example.env).2.port.have_format = false ∧
    (impl_node_send_command
      (impl_node_port_set_param
        (impl_node_port_set_param Example.node_started spa_direction.SPA_DIRECTION_OUTPUT 0
          SPA_PARAM_Format none Example.env).2
        spa_direction.SPA_DIRECTION_OUTPUT 0 SPA_PARAM_Format
        (some (Example.pod spa_audio_format.S16 2 48000)) Example.env).2
      NodeCommand.Start Example.env).1 = - EIO :=
  ⟨⟨node_started_reachable, rfl⟩,
    (format_renegotiation Example.node_started Example.env node_started_reachable rfl).1,
    (format_renegotiation Example.node_started Example.env node_started_reachable rfl).2.2.1,
    congrArg Prod.fst
      ((format_renegotiation Example.node_started Example.env node_started_reachable rfl).2.2.2.2.2.2
        [(Op.port_set_param spa_direction.SPA_DIRECTION_OUTPUT 0 SPA_PARAM_Format
          (some (Example.pod spa_audio_format.S16 2 48000)) Example.env, 0)]
        _ (Run.cons _ _ _ _ _ _ rfl (Run.nil _))
        (Or.inr (by
          intro e he
          rw [List.mem_singleton.mp he]
          exact fun hx => hx))
        Example.env)⟩

/-! ## Pause and Suspend -/

/-- C13, on the code: `Pause` on the started node of the example, with a
`spa_bt_transport_release` that returns 1, calls the release and returns 0,
which is not the release result. -/
theorem send_command_pause_result_is_not_release_result :
    Example.node_started.started = true ∧
    Call.transport_release ∈
      (impl_node_send_command Example.node_started NodeCommand.Pause
        Example.env_release_one).2.calls ∧
    (transport_stop Example.node_started Example.env_release_one).1 = 1 ∧
    (impl_node_send_command Example.node_started NodeCommand.Pause
      Example.env_release_one).1 = 0 := by
  refine ⟨rfl, by decide, rfl, rfl⟩

/-- C13, amended: on every started state `Pause` and `Suspend` return with
`started = false`, `transport_acquired = false`, the codec session destroyed,
the socket (or duplex) source and the timer source removed and both timers
disarmed; the calls they add are the release, exactly when the transport is
present and was acquired, then `codec->deinit` when there was a session, then
the clearing of the decode buffer; the result is the release result when the
release was called and returned a negative value, and 0 otherwise. On a state
that is not started both commands return 0 and leave the state as it is. -/
theorem send_command_stop_effects (this : Impl) (command : NodeCommand) (env : CommandEnv)
    (hcommand : command = NodeCommand.Pause ∨ command = NodeCommand.Suspend) :
    (this.started = true →
      (impl_node_send_command this command env).2.started = false ∧
      (impl_node_send_command this command env).2.transport_acquired = false ∧
      (impl_node_send_command this command env).2.codec_data = false ∧
      (impl_node_send_command this command env).2.source_loop = false ∧
      (impl_node_send_command this command env).2.timer_source_loop = false ∧
      (impl_node_send_command this command env).2.timer_value = 0 ∧
      (impl_node_send_command this command env).2.duplex_timer_value = 0 ∧
      (impl_node_send_command this command env).2.calls =
        this.calls ++
          (if this.transport.isSome && this.transport_acquired then [Call.transport_release]
            else []) ++
          (if this.codec_data then [Call.codec_deinit] else []) ++
          [Call.decode_buffer_clear] ∧
      (impl_node_send_command this command env).1 =
        (if (this.transport.isSome && this.transport_acquired) = true ∧ env.release_res < 0
          then env.release_res else 0)) ∧
    (this.started = false → impl_node_send_command this command env = (0, this)) := by
  have hrun : impl_node_send_command this command env =
      if (do_stop this env).1 < 0 then do_stop this env else (0, (do_stop this env).2) := by
    rcases hcommand with hc | hc <;> rw [hc] <;> rfl
  refine ⟨?_, ?_⟩
  · intro hs
    have hstop : do_stop this env =
        ((transport_stop this env).1, { (transport_stop this env).2 with started := false }) := by
      simp [do_stop, hs]
    have hsecond : (impl_node_send_command this command env).2 =
        { (transport_stop this env).2 with started := false } := by
      rw [hrun, hstop]
      split_ifs <;> rfl
    have hfirst : (impl_node_send_command this command env).1 =
        if (transport_stop this env).1 < 0 then (transport_stop this env).1 else 0 := by
      rw [hrun, hstop]
      split_ifs <;> rfl
    obtain ⟨-, t2, t3, t4, t5, t6, t7, -⟩ := transport_stop_frame2 this env
    rw [hsecond, hfirst]
    refine ⟨rfl, t2, t3, t4, t5, t6, t7, ?_, ?_⟩
    · show (transport_stop this env).2.calls = _
      by_cases hr : (this.transport.isSome && this.transport_acquired) = true <;>
        by_cases hcd : this.codec_data = true <;>
        by_cases hsl : this.source_loop = true <;>
        by_cases htl : this.timer_source_loop = true <;>
        simp [transport_stop, do_remove_source, set_duplex_timeout, hr, hcd, hsl, htl]
    · by_cases hr : (this.transport.isSome && this.transport_acquired) = true <;>
        by_cases hsl : this.source_loop = true <;>
        by_cases htl : this.timer_source_loop = true <;>
        simp [transport_stop, do_remove_source, set_duplex_timeout, hr, hsl, htl]
  · intro hs
    rw [hrun, (do_stop_frame2 this env).2.2.1 hs]
    rfl

/-- C13 at `Pause` on the started node of the example. -/
theorem send_command_stop_effects_witness :
    (NodeCommand.Pause = NodeCommand.Pause ∨ NodeCommand.Pause = NodeCommand.Suspend) ∧
    Example.node_started.started = true ∧
    Example.node_paused.started = false ∧
    Example.node_paused.transport_acquired = false ∧
    Example.node_paused.source_loop = false ∧
    (impl_node_send_command Example.node_started NodeCommand.Pause Example.env).1 = 0 :=
  ⟨Or.inl rfl, rfl,
    ((send_command_stop_effects Example.node_started NodeCommand.Pause Example.env
      (Or.inl rfl)).1 rfl).1,
    ((send_command_stop_effects Example.node_started NodeCommand.Pause Example.env
      (Or.inl rfl)).1 rfl).2.1,
    ((send_command_stop_effects Example.node_started NodeCommand.Pause Example.env
      (Or.inl rfl)).1 rfl).2.2.2.1,
    ((send_command_stop_effects Example.node_started NodeCommand.Pause Example.env
      (Or.inl rfl)).1 rfl).2.2.2.2.2.2.2.2⟩

/-! ## Listeners -/

/-- C14: in every reachable state, whatever the pending change masks of the
node and of the port are, `add_listener` returns 0 and, between isolating the
new listener and joining the hook lists again, emits one node info whose
change mask is `info_all` and one port info whose change mask is the
`info_all` of the port; it leaves the pending change masks, and every other
field, as they were. -/
theorem add_listener_emits_full_info (this : Impl) (pending_node pending_port : Nat)
    (h : Reachable this) :
    impl_node_add_listener
      { this with
        info_change_mask := pending_node
        port := { this.port with info := { this.port.info with change_mask := pending_port } } }
    = (0,
      { this with
        info_change_mask := pending_node
        port := { this.port with info := { this.port.info with change_mask := pending_port } }
        calls := this.calls ++ [Call.hook_list_isolate, Call.emit_node_info this.info_all,
          Call.emit_port_info this.port.info_all this.port.info.flags, Call.hook_list_join] }) ∧
    this.info_all = (SPA_NODE_CHANGE_MASK_FLAGS ||| SPA_NODE_CHANGE_MASK_PROPS)
      ||| SPA_NODE_CHANGE_MASK_PARAMS ∧
    this.port.info_all = SPA_PORT_CHANGE_MASK_FLAGS ||| SPA_PORT_CHANGE_MASK_PARAMS := by
  obtain ⟨h1, h2⟩ := reachable_info_all this h
  refine ⟨?_, h1, h2⟩
  have n1 : this.info_all ≠ 0 := by
    rw [h1]
    decide
  have n2 : this.port.info_all ≠ 0 := by
    rw [h2]
    decide
  simp [impl_node_add_listener, emit_node_info, emit_port_info, n1, n2]

/-- C14 at the started node of the example, with both masks pending as they
are. -/
theorem add_listener_emits_full_info_witness :
    Reachable Example.node_started ∧
    (impl_node_add_listener Example.node_started).1 = 0 ∧
    (impl_node_add_listener Example.node_started).2.info_change_mask
      = Example.node_started.info_change_mask :=
  ⟨node_started_reachable,
    congrArg Prod.fst
      (add_listener_emits_full_info Example.node_started Example.node_started.info_change_mask
        Example.node_started.port.info.change_mask node_started_reachable).1,
    congrArg (fun r => r.2.info_change_mask)
      (add_listener_emits_full_info Example.node_started Example.node_started.info_change_mask
        Example.node_started.port.info.change_mask node_started_reachable).1⟩

/-! ## The flags of the port -/

/-- C15, on the code: after `impl_init` and a successful
`port_set_param(Format)` the port flags are LIVE alone, without TERMINAL. -/
theorem port_flags_after_format_are_live_alone :
    Reachable Example.node_format ∧
    (impl_node_port_set_param Example.node_init spa_direction.SPA_DIRECTION_OUTPUT 0
      SPA_PARAM_Format (some (Example.pod spa_audio_format.S16 2 48000)) Example.env).1 = 0 ∧
    Example.node_format.port.info.flags = SPA_PORT_FLAG_LIVE ∧
    Example.node_format.port.info.flags ≠ SPA_PORT_FLAG_LIVE ||| SPA_PORT_FLAG_TERMINAL := by
  refine ⟨?_, rfl, rfl, by decide⟩
  exact Reachable.step Example.node_init
    (Op.port_set_param spa_direction.SPA_DIRECTION_OUTPUT 0 SPA_PARAM_Format
      (some (Example.pod spa_audio_format.S16 2 48000)) Example.env) 0 _
    (Reachable.init Example.info _ rfl) rfl

/-- C15, amended: in every state reachable after a successful init the flags of
the port are LIVE with TERMINAL or LIVE alone, and they are LIVE alone whenever
`have_format` is set; a successful init leaves LIVE with TERMINAL. -/
theorem port_flags_live_with_or_without_terminal (this : Impl) (h : Reachable this) :
    (this.port.info.flags = SPA_PORT_FLAG_LIVE ||| SPA_PORT_FLAG_TERMINAL ∨
      this.port.info.flags = SPA_PORT_FLAG_LIVE) ∧
    (this.port.have_format = true → this.port.info.flags = SPA_PORT_FLAG_LIVE) ∧
    ∀ (info : InitInfo) (first : Impl), impl_init info = (0, first) →
      first.port.info.flags = SPA_PORT_FLAG_LIVE ||| SPA_PORT_FLAG_TERMINAL := by
  obtain ⟨h1, h2⟩ := reachable_flags_ok this h
  exact ⟨h1, h2, fun info first hinit => (impl_init_infos info first hinit).2.2.1⟩

/-- C15 at the started node of the example. -/
theorem port_flags_live_with_or_without_terminal_witness :
    Reachable Example.node_started ∧
    Example.node_started.port.info.flags = SPA_PORT_FLAG_LIVE :=
  ⟨node_started_reachable,
    (port_flags_live_with_or_without_terminal Example.node_started node_started_reachable).2.1
      rfl⟩

/-! ## The frame size -/

/-- C16, on the code: with the format S16 and `2^31` channels the call returns
0 and `frame_size` is 0, not `2^31 × 2`; and on the node with the format S16,
2 channels (`frame_size = 4`), a `port_set_param(Format)` with the format U8,
1 channel, returns `-EINVAL`, keeps `have_format` and the format, and leaves
`frame_size = 1`. -/
theorem frame_size_is_not_channels_times_sample_size :
    (impl_node_port_set_param Example.node_init spa_direction.SPA_DIRECTION_OUTPUT 0
      SPA_PARAM_Format (some (Example.pod spa_audio_format.S16 2147483648 48000))
      Example.env).1 = 0 ∧
    Example.node_format_wide.port.have_format = true ∧
    Example.node_format_wide.port.current_format.raw.channels = 2147483648 ∧
    sample_size Example.node_format_wide.port.current_format.raw.format = some 2 ∧
    Example.node_format_wide.port.frame_size = 0 ∧
    Example.node_format.port.frame_size = 4 ∧
    (impl_node_port_set_param Example.node_format spa_direction.SPA_DIRECTION_OUTPUT 0
      SPA_PARAM_Format (some (Example.pod spa_audio_format.U8 1 48000)) Example.env).1
      = -EINVAL ∧
    Example.node_format_rejected.port.have_format = true ∧
    Example.node_format_rejected.port.current_format.raw.channels = 2 ∧
    sample_size Example.node_format_rejected.port.current_format.raw.format = some 2 ∧
    Example.node_format_rejected.port.frame_size = 1 := by
  refine ⟨rfl, rfl, rfl, rfl, by decide, by decide, rfl, rfl, rfl, rfl, by decide⟩

/-- C16, amended: in every state reachable by operations in which every format
given to `port_set_param` has a sample format that `port_set_format` supports,
`have_format` implies that `frame_size` is the channel count times the size of
a sample (2 for S16, 3 for S24, 4 for S24_32, S32 and F32) modulo `2^32`; and
in every state a `port_set_param` that returns an error leaves
`current_format` and `have_format` as they were. -/
theorem frame_size_of_supported_formats (this : Impl)
    (h : ReachableBy Op.format_supported this) :
    (this.port.have_format = true →
      ∃ k, sample_size this.port.current_format.raw.format = some k ∧
        this.port.frame_size = (this.port.current_format.raw.channels * k) % 2 ^ 32) ∧
    ∀ (state : Impl) (direction : spa_direction) (port_id id : Nat) (param : Option FormatPod)
      (env : CommandEnv),
      (impl_node_port_set_param state direction port_id id param env).1 < 0 →
      (impl_node_port_set_param state direction port_id id param env).2.port.current_format
        = state.port.current_format ∧
      (impl_node_port_set_param state direction port_id id param env).2.port.have_format
        = state.port.have_format := by
  refine ⟨?_, ?_⟩
  · intro hf
    obtain ⟨k, hk, hsize⟩ := reachable_frame_ok this h hf
    refine ⟨k, hk, ?_⟩
    rw [hsize]
    unfold u32
    rw [Nat.mod_mul_mod]
  · intro state direction port_id id param env hneg
    unfold impl_node_port_set_param at hneg ⊢
    split_ifs at hneg ⊢ with h1 h2 h3
    · exact ⟨rfl, rfl⟩
    · cases param with
      | none =>
        rw [(port_set_format_none_summary state env).1] at hneg
        exact absurd hneg (by decide)
      | some pod =>
        rcases port_set_format_some_cases state pod env with c | c | ⟨k, c⟩
        · rw [c.2]
          exact ⟨rfl, rfl⟩
        · rw [c.2]
          exact ⟨rfl, rfl⟩
        · rw [c.2.1] at hneg
          exact absurd hneg (by decide)
    · exact absurd hneg (by simp)
    · exact ⟨rfl, rfl⟩

/-- C16 at the node of the example with the format S16, 2 channels. -/
theorem frame_size_of_supported_formats_witness :
    ReachableBy Op.format_supported Example.node_format ∧
    ∃ k, sample_size Example.node_format.port.current_format.raw.format = some k ∧
      Example.node_format.port.frame_size
        = (Example.node_format.port.current_format.raw.channels * k) % 2 ^ 32 :=
  ⟨ReachableBy.step Example.node_init
      (Op.port_set_param spa_direction.SPA_DIRECTION_OUTPUT 0 SPA_PARAM_Format
        (some (Example.pod spa_audio_format.S16 2 48000)) Example.env) 0 _
      (ReachableBy.init Example.info _ rfl)
      (show sample_size spa_audio_format.S16 ≠ none by decide) rfl,
    (frame_size_of_supported_formats Example.node_format
      (ReachableBy.step Example.node_init
        (Op.port_set_param spa_direction.SPA_DIRECTION_OUTPUT 0 SPA_PARAM_Format
          (some (Example.pod spa_audio_format.S16 2 48000)) Example.env) 0 _
        (ReachableBy.init Example.info _ rfl)
      (show sample_size spa_audio_format.S16 ≠ none by decide) rfl)).1 rfl⟩

/-- C17, on the code: `port_set_param(Format)` accepts the format S16 with no
channels, with rate 0, and with `2^31` channels; the states reached have
`have_format` set with `frame_size = 0`, with rate 0, and with
`frame_size = 0`. -/
theorem accepted_format_without_channels_or_rate :
    Reachable Example.node_format_no_channels ∧
    (impl_node_port_set_param Example.node_init spa_direction.SPA_DIRECTION_OUTPUT 0
      SPA_PARAM_Format (some (Example.pod spa_audio_format.S16 0 48000)) Example.env).1 = 0 ∧
    Example.node_format_no_channels.port.have_format = true ∧
    Example.node_format_no_channels.port.frame_size = 0 ∧
    Reachable Example.node_format_no_rate ∧
    (impl_node_port_set_param Example.node_init spa_direction.SPA_DIRECTION_OUTPUT 0
      SPA_PARAM_Format (some (Example.pod spa_audio_format.S16 2 0)) Example.env).1 = 0 ∧
    Example.node_format_no_rate.port.have_format = true ∧
    Example.node_format_no_rate.port.current_format.raw.rate = 0 ∧
    Reachable Example.node_format_wide ∧
    Example.node_format_wide.port.have_format = true ∧
    Example.node_format_wide.port.frame_size = 0 := by
  refine ⟨?_, rfl, rfl, by decide, ?_, rfl, rfl, rfl, ?_, rfl, by decide⟩
  · exact Reachable.step Example.node_init
      (Op.port_set_param spa_direction.SPA_DIRECTION_OUTPUT 0 SPA_PARAM_Format
        (some (Example.pod spa_audio_format.S16 0 48000)) Example.env) 0 _
      (Reachable.init Example.info _ rfl) rfl
  · exact Reachable.step Example.node_init
      (Op.port_set_param spa_direction.SPA_DIRECTION_OUTPUT 0 SPA_PARAM_Format
        (some (Example.pod spa_audio_format.S16 2 0)) Example.env) 0 _
      (Reachable.init Example.info _ rfl) rfl
  · exact Reachable.step Example.node_init
      (Op.port_set_param spa_direction.SPA_DIRECTION_OUTPUT 0 SPA_PARAM_Format
        (some (Example.pod spa_audio_format.S16 2147483648 48000)) Example.env) 0 _
      (Reachable.init Example.info _ rfl) rfl

/-- C17, amended: in every state reachable by operations in which every format
given to `port_set_param` has at least 1 and fewer than `2^30` channels and a
rate that is not 0, `have_format` implies `frame_size > 0` and a rate above 0. -/
theorem frame_size_and_rate_positive (this : Impl) (h : ReachableBy Op.format_positive this)
    (hformat : this.port.have_format = true) :
    0 < this.port.frame_size ∧ 0 < this.port.current_format.raw.rate :=
  reachable_positive_ok this h hformat

/-- C17 at the node of the example with the format S16, 2 channels, 48000 Hz. -/
theorem frame_size_and_rate_positive_witness :
    (ReachableBy Op.format_positive Example.node_format ∧
      Example.node_format.port.have_format = true) ∧
    0 < Example.node_format.port.frame_size ∧
    0 < Example.node_format.port.current_format.raw.rate :=
  ⟨⟨ReachableBy.step Example.node_init
      (Op.port_set_param spa_direction.SPA_DIRECTION_OUTPUT 0 SPA_PARAM_Format
        (some (Example.pod spa_audio_format.S16 2 48000)) Example.env) 0 _
      (ReachableBy.init Example.info _ rfl)
      (show 0 < 2 ∧ 2 < 2 ^ 30 ∧ 0 < 48000 by decide) rfl, rfl⟩,
    frame_size_and_rate_positive Example.node_format
      (ReachableBy.step Example.node_init
        (Op.port_set_param spa_direction.SPA_DIRECTION_OUTPUT 0 SPA_PARAM_Format
          (some (Example.pod spa_audio_format.S16 2 48000)) Example.env) 0 _
        (ReachableBy.init Example.info _ rfl)
        (show 0 < 2 ∧ 2 < 2 ^ 30 ∧ 0 < 48000 by decide) rfl) rfl⟩

/-! ## The size of the pool -/

/-- C18, on the code: on the node with a format, `port_use_buffers` with 33
mapped buffers returns 0, leaves `n_buffers = 33`, above `MAX_BUFFERS`, and
records the last buffer at index 32 of the pool. -/
theorem port_use_buffers_exceeds_max_buffers :
    Reachable Example.node_many_buffers ∧
    (impl_node_port_use_buffers Example.node_format spa_direction.SPA_DIRECTION_OUTPUT 0
      (List.replicate 33 Example.mapped) Example.env).1 = 0 ∧
    Example.node_many_buffers.port.n_buffers = 33 ∧
    MAX_BUFFERS < Example.node_many_buffers.port.n_buffers ∧
    (Example.node_many_buffers.port.buffers 32).buf = some Example.mapped ∧
    (Example.node_many_buffers.port.buffers 32).id = 32 ∧
    32 ∈ Example.node_many_buffers.port.free := by
  refine ⟨?_, rfl, rfl, by decide, rfl, rfl, by decide⟩
  exact Reachable.step Example.node_format
    (Op.port_use_buffers spa_direction.SPA_DIRECTION_OUTPUT 0
      (List.replicate 33 Example.mapped) Example.env) 0 _
    (Reachable.step Example.node_init
      (Op.port_set_param spa_direction.SPA_DIRECTION_OUTPUT 0 SPA_PARAM_Format
        (some (Example.pod spa_audio_format.S16 2 48000)) Example.env) 0 _
      (Reachable.init Example.info _ rfl) rfl) rfl

/-! ## The session -/

/-- C19, on the code: a `Start` during which `spa_bt_transport_acquire`
succeeds and `codec->init` returns NULL returns `-EIO` and leaves
`transport_acquired` set with no codec session and no source registered. -/
theorem transport_acquired_without_codec_session :
    Reachable Example.node_codec_failed ∧
    (impl_node_send_command Example.node_io NodeCommand.Start Example.env_codec_fails).1
      = - EIO ∧
    Example.node_codec_failed.transport_acquired = true ∧
    Example.node_codec_failed.codec_data = false ∧
    Example.node_codec_failed.source_loop = false := by
  refine ⟨?_, rfl, rfl, rfl, rfl⟩
  exact Reachable.step Example.node_io
    (Op.send_command NodeCommand.Start Example.env_codec_fails) (- EIO) _
    (Reachable.step Example.node_buffers
      (Op.port_set_io spa_direction.SPA_DIRECTION_OUTPUT 0 SPA_IO_Buffers Example.io_need_data)
      0 _
      (Reachable.step Example.node_format
        (Op.port_use_buffers spa_direction.SPA_DIRECTION_OUTPUT 0
          [Example.mapped, Example.mapped] Example.env) 0 _
        (Reachable.step Example.node_init
          (Op.port_set_param spa_direction.SPA_DIRECTION_OUTPUT 0 SPA_PARAM_Format
            (some (Example.pod spa_audio_format.S16 2 48000)) Example.env) 0 _
          (Reachable.init Example.info _ rfl) rfl) rfl) rfl) rfl

/-- C19, amended: in every state reachable by operations of the node during
which `codec->init` and `spa_bt_decode_buffer_init` succeed whenever they are
called (`spa_bt_transport_acquire` and `spa_bt_transport_release` may return
anything), `transport_acquired` implies that there is a codec session and that
the socket (or duplex timer) source is registered with the data loop. -/
theorem transport_acquired_implies_session (this : Impl) (h : ReachableBy Op.codec_ok this)
    (hacquired : this.transport_acquired = true) :
    this.codec_data = true ∧ this.source_loop = true :=
  reachable_session_ok this h hacquired

/-- C19 at the started node of the example. -/
theorem transport_acquired_implies_session_witness :
    (ReachableBy Op.codec_ok Example.node_started ∧
      Example.node_started.transport_acquired = true) ∧
    Example.node_started.codec_data = true ∧ Example.node_started.source_loop = true :=
  ⟨⟨ReachableBy.step Example.node_io (Op.send_command NodeCommand.Start Example.env) 0 _
      (ReachableBy.step Example.node_buffers
        (Op.port_set_io spa_direction.SPA_DIRECTION_OUTPUT 0 SPA_IO_Buffers
          Example.io_need_data) 0 _
        (ReachableBy.step Example.node_format
          (Op.port_use_buffers spa_direction.SPA_DIRECTION_OUTPUT 0
            [Example.mapped, Example.mapped] Example.env) 0 _
          (ReachableBy.step Example.node_init
            (Op.port_set_param spa_direction.SPA_DIRECTION_OUTPUT 0 SPA_PARAM_Format
              (some (Example.pod spa_audio_format.S16 2 48000)) Example.env) 0 _
            (ReachableBy.init Example.info _ rfl) trivial rfl) trivial rfl) trivial rfl)
      (show true = true ∧ (0 : Int) ≤ 0 by decide) rfl, rfl⟩,
    transport_acquired_implies_session Example.node_started
      (ReachableBy.step Example.node_io (Op.send_command NodeCommand.Start Example.env) 0 _
        (ReachableBy.step Example.node_buffers
          (Op.port_set_io spa_direction.SPA_DIRECTION_OUTPUT 0 SPA_IO_Buffers
            Example.io_need_data) 0 _
          (ReachableBy.step Example.node_format
            (Op.port_use_buffers spa_direction.SPA_DIRECTION_OUTPUT 0
              [Example.mapped, Example.mapped] Example.env) 0 _
            (ReachableBy.step Example.node_init
              (Op.port_set_param spa_direction.SPA_DIRECTION_OUTPUT 0 SPA_PARAM_Format
                (some (Example.pod spa_audio_format.S16 2 48000)) Example.env) 0 _
              (ReachableBy.init Example.info _ rfl) trivial rfl) trivial rfl) trivial rfl)
        (show true = true ∧ (0 : Int) ≤ 0 by decide) rfl) rfl⟩

/-! ## The handlers after Pause -/

/-- C20: after `send_command(Pause)` has returned, every sequence of
invocations of `a2dp_on_ready_read`, `a2dp_on_duplex_timeout` and
`a2dp_on_timeout`, whatever `recv` and the codec return, leaves the node not
started, and none of the calls it adds changes the decode buffer (none is
`spa_bt_decode_buffer_write_packet`): the calls made so far that change the
decode buffer are those made when `Pause` returned. -/
theorem handlers_after_pause_leave_decode_buffer (this : Impl) (env : CommandEnv)
    (handlers : List Handler) (next : Impl)
    (hrun : Handler.runs (impl_node_send_command this NodeCommand.Pause env).2 handlers
      = some next) :
    (impl_node_send_command this NodeCommand.Pause env).2.started = false ∧
    next.started = false ∧
    (∃ added,
      next.calls = (impl_node_send_command this NodeCommand.Pause env).2.calls ++ added ∧
      (∀ c ∈ added, Call.changes_decode_buffer c = false) ∧
      ∀ size, Call.decode_buffer_write_packet size ∉ added) ∧
    decode_buffer_changes next
      = decode_buffer_changes (impl_node_send_command this NodeCommand.Pause env).2 := by
  have hpaused : (impl_node_send_command this NodeCommand.Pause env).2.started = false := by
    have hrun : impl_node_send_command this NodeCommand.Pause env =
        if (do_stop this env).1 < 0 then do_stop this env else (0, (do_stop this env).2) := rfl
    have hstop := (do_stop_frame this env).1
    rw [hrun]
    split_ifs
    · exact hstop
    · exact hstop
  have hq := handler_runs_quiet _ next handlers hpaused hrun
  refine ⟨hpaused, hq.1, ?_, quiet_step_changes _ next hq⟩
  obtain ⟨added, e, q⟩ := hq.2
  refine ⟨added, e, q, ?_⟩
  intro size hmem
  have := q _ hmem
  simp [Call.changes_decode_buffer] at this

/-- C20 at the paused node of the example, after the socket handler, the
duplex timer and the graph timer. -/
theorem handlers_after_pause_leave_decode_buffer_witness :
    Handler.runs (impl_node_send_command Example.node_started NodeCommand.Pause Example.env).2
      Example.handlers = some Example.node_paused_handled ∧
    Example.node_paused_handled.started = false ∧
    decode_buffer_changes Example.node_paused_handled
      = decode_buffer_changes Example.node_paused :=
  ⟨rfl,
    (handlers_after_pause_leave_decode_buffer Example.node_started Example.env Example.handlers
      Example.node_paused_handled rfl).2.1,
    (handlers_after_pause_leave_decode_buffer Example.node_started Example.env Example.handlers
      Example.node_paused_handled rfl).2.2.2⟩

/-! ## The tick of the graph timer -/

/-- With a transport, `a2dp_on_timeout` is its part up to the publication of
the clock, followed by the writes through `io`. -/
theorem a2dp_on_timeout_parts (this : Impl) (corr : ℚ) :
    a2dp_on_timeout this corr =
      if this.transport.isNone then some this
      else
        match (a2dp_on_timeout_clock this corr).port.io with
        | none => none
        | some io =>
          some (set_timeout
            { a2dp_on_timeout_clock this corr with
              port := { (a2dp_on_timeout_clock this corr).port with
                io := some { io with status := SPA_STATUS_HAVE_DATA } }
              calls := (a2dp_on_timeout_clock this corr).calls
                ++ [Call.call_ready SPA_STATUS_HAVE_DATA] }
            (a2dp_on_timeout_clock this corr).next_time) := by
  rfl

/-- What the first part of `a2dp_on_timeout` leaves in the state. -/
theorem a2dp_on_timeout_clock_fields (this : Impl) (corr : ℚ) (duration rate : Nat)
    (hduration : duration = match this.position with
      | some position => position.clock.duration
      | none => 1024)
    (hrate : rate = match this.position with
      | some position => position.clock.rate_denom
      | none => 48000) :
    (a2dp_on_timeout_clock this corr).current_time = this.next_time ∧
    (a2dp_on_timeout_clock this corr).next_time = u64 (Int.toNat ⌊(this.next_time : ℚ) +
      (u64 (duration * SPA_NSEC_PER_SEC) : ℚ) / corr / (rate : ℚ)⌋) ∧
    (a2dp_on_timeout_clock this corr).clock = this.clock.map (fun (clock : spa_io_clock) =>
      { clock with
        nsec := this.next_time
        position := u64 (clock.position + duration)
        duration := duration
        rate_diff := corr
        next_nsec := u64 (Int.toNat ⌊(this.next_time : ℚ) +
          (u64 (duration * SPA_NSEC_PER_SEC) : ℚ) / corr / (rate : ℚ)⌋) }) ∧
    (a2dp_on_timeout_clock this corr).port.io = this.port.io ∧
    (a2dp_on_timeout_clock this corr).calls = this.calls := by
  have m := fun x => setup_matching_frame x corr
  have m2 := fun x => setup_matching_frame2 x corr
  subst hduration hrate
  unfold a2dp_on_timeout_clock
  refine ⟨?_, ?_, ?_, ?_, ?_⟩
  · simp [(m2 _).2.2.2.2.2.2.2.2.2.2.1]
  · simp
  · simp [(m2 _).2.2.2.2.2.2.2.2.2.2.2.1]
  · simp [(m _).2.2.2.2.2.2.1]
  · simp [(m _).2.2.2.1]

/-- C21: on every tick of the graph timer with a transport and a clock, when
the state reaches the writes through `io` the handler has set `current_time` to
the previous `next_time`, taken the duration and the rate from the position, or
1024 and 48000 without one, set `next_time` to
`current_time + duration · NSEC_PER_SEC / corr / rate` and published in the
clock `nsec = current_time`, `position` increased by that duration (in 64
bits), `duration` that same duration, `rate_diff = corr` and
`next_nsec = next_time`; with an IO area on the port the handler returns, in a
state that has these times and this clock, the IO status HAVE_DATA and the
timer armed at `next_time`. -/
theorem on_timeout_publishes_clock (this : Impl) (corr : ℚ) (transport : spa_bt_transport)
    (clock : spa_io_clock) (htransport : this.transport = some transport)
    (hclock : this.clock = some clock) :
    (∀ position, this.position = some position →
      tick_published this clock corr position.clock.duration position.clock.rate_denom
        (a2dp_on_timeout_clock this corr)) ∧
    (this.position = none →
      tick_published this clock corr 1024 48000 (a2dp_on_timeout_clock this corr)) ∧
    (∀ io, this.port.io = some io →
      ∃ next, a2dp_on_timeout this corr = some next ∧
        next.current_time = (a2dp_on_timeout_clock this corr).current_time ∧
        next.next_time = (a2dp_on_timeout_clock this corr).next_time ∧
        next.clock = (a2dp_on_timeout_clock this corr).clock ∧
        next.port.io = some { io with status := SPA_STATUS_HAVE_DATA } ∧
        next.timer_value = next.next_time ∧
        next.calls = this.calls ++ [Call.call_ready SPA_STATUS_HAVE_DATA]) := by
  refine ⟨?_, ?_, ?_⟩
  · intro position hposition
    obtain ⟨h1, h2, h3, -, -⟩ := a2dp_on_timeout_clock_fields this corr
      position.clock.duration position.clock.rate_denom (by rw [hposition]) (by rw [hposition])
    refine ⟨h1, h2, ?_⟩
    rw [h3, hclock, h1, h2]
    rfl
  · intro hposition
    obtain ⟨h1, h2, h3, -, -⟩ := a2dp_on_timeout_clock_fields this corr 1024 48000
      (by rw [hposition]) (by rw [hposition])
    refine ⟨h1, h2, ?_⟩
    rw [h3, hclock, h1, h2]
    rfl
  · intro io hio
    obtain ⟨-, -, -, h4, h5⟩ := a2dp_on_timeout_clock_fields this corr _ _ rfl rfl
    rw [a2dp_on_timeout_parts, htransport]
    rw [hio] at h4
    simp only [Option.isNone_some, Bool.false_eq_true, if_false, h4]
    refine ⟨_, rfl, rfl, rfl, rfl, rfl, rfl, ?_⟩
    show (a2dp_on_timeout_clock this corr).calls ++ _ = _
    rw [h5]

/-- C21 at the started node of the example with a clock and a position, for
`corr = 3/2`: the tick returns and publishes the duration 512 of the position. -/
theorem on_timeout_publishes_clock_witness :
    (Example.node_position.transport = some Example.transport ∧
      Example.node_position.clock = some { Example.clock with name := DEFAULT_CLOCK_NAME } ∧
      Example.node_position.position = some Example.position) ∧
    tick_published Example.node_position { Example.clock with name := DEFAULT_CLOCK_NAME }
      (3 / 2) 512 44100 (a2dp_on_timeout_clock Example.node_position (3 / 2)) :=
  ⟨⟨rfl, rfl, rfl⟩,
    (on_timeout_publishes_clock Example.node_position (3 / 2) Example.transport
      { Example.clock with name := DEFAULT_CLOCK_NAME } rfl rfl).1 Example.position rfl⟩

/-! ## Rate matching -/

/-- `SPA_FLAG_UPDATE` with the ACTIVE flag sets bit 0 to the value and keeps
bits 1 to 31. -/
theorem flag_update_active_bits (field : Nat) (val : Bool) :
    (SPA_FLAG_UPDATE field SPA_IO_RATE_MATCH_FLAG_ACTIVE val).testBit 0 = val ∧
    ∀ i, i ≠ 0 → i < 32 →
      (SPA_FLAG_UPDATE field SPA_IO_RATE_MATCH_FLAG_ACTIVE val).testBit i = field.testBit i := by
  unfold SPA_FLAG_UPDATE SPA_IO_RATE_MATCH_FLAG_ACTIVE
  cases val
  · refine ⟨?_, ?_⟩
    · simp [Nat.testBit_and]
    · intro i h0 h32
      have hb : (0xffffffff ^^^ 1 : Nat).testBit i = true := by
        interval_cases i <;> first | exact absurd rfl h0 | decide
      simp only [Bool.false_eq_true, if_false, Nat.testBit_and, hb, Bool.and_true]
  · refine ⟨?_, ?_⟩
    · simp [Nat.testBit_or]
    · intro i h0 h32
      have hb : (1 : Nat).testBit i = false := by
        interval_cases i <;> first | exact absurd rfl h0 | decide
      simp only [if_true, Nat.testBit_or, hb, Bool.or_false]

/-- C22: after `setup_matching`, in every state: with a position and a rate
match, the rate of the rate match is `1 / corr`, `matching` is `following` and
`resampling` is `matching` or a format rate other than the rate denominator of
the position; without one of them `matching` and `resampling` are false; with a
rate match, bit 0 of its flags (ACTIVE) is `matching`, the other 31 bits of the
flags, the size and the delay are as before; without one there is still none;
and `matching` implies `resampling`. -/
theorem setup_matching_results (this : Impl) (corr : ℚ) :
    (∀ position rate_match, this.position = some position →
      this.port.rate_match = some rate_match →
      (∃ updated, (setup_matching this corr).port.rate_match = some updated ∧
        updated.rate = 1 / corr) ∧
      (setup_matching this corr).matching = this.following ∧
      (setup_matching this corr).resampling =
        ((setup_matching this corr).matching ||
          decide (this.port.current_format.raw.rate ≠ position.clock.rate_denom))) ∧
    ((this.position = none ∨ this.port.rate_match = none) →
      (setup_matching this corr).matching = false ∧
      (setup_matching this corr).resampling = false) ∧
    (∀ rate_match, this.port.rate_match = some rate_match →
      ∃ updated, (setup_matching this corr).port.rate_match = some updated ∧
        updated.flags.testBit 0 = (setup_matching this corr).matching ∧
        (∀ i, i ≠ 0 → i < 32 → updated.flags.testBit i = rate_match.flags.testBit i) ∧
        updated.size = rate_match.size ∧ updated.delay = rate_match.delay) ∧
    (this.port.rate_match = none → (setup_matching this corr).port.rate_match = none) ∧
    ((setup_matching this corr).matching = true →
      (setup_matching this corr).resampling = true) := by
  refine ⟨?_, ?_, ?_, ?_, ?_⟩
  · intro position rate_match hp hr
    simp [setup_matching, hp, hr]
  · intro h
    rcases h with h | h
    · cases hr : this.port.rate_match <;> simp [setup_matching, h, hr]
    · cases hp : this.position <;> simp [setup_matching, h, hp]
  · intro rate_match hr
    cases hp : this.position with
    | none =>
      have hb := flag_update_active_bits rate_match.flags false
      refine ⟨{ rate_match with
        flags := SPA_FLAG_UPDATE rate_match.flags SPA_IO_RATE_MATCH_FLAG_ACTIVE false }, ?_, ?_,
        hb.2, rfl, rfl⟩
      · simp [setup_matching, hp, hr]
      · rw [hb.1]
        simp [setup_matching, hp, hr]
    | some position =>
      have hb := flag_update_active_bits rate_match.flags this.following
      refine ⟨{ rate_match with
        rate := 1 / corr
        flags := SPA_FLAG_UPDATE rate_match.flags SPA_IO_RATE_MATCH_FLAG_ACTIVE
          this.following }, ?_, ?_, hb.2, rfl, rfl⟩
      · simp [setup_matching, hp, hr]
      · rw [hb.1]
        simp [setup_matching, hp, hr]
  · intro hr
    cases hp : this.position <;> simp [setup_matching, hp, hr]
  · cases hp : this.position <;> cases hr : this.port.rate_match <;>
      simp [setup_matching, hp, hr]
    intro hf
    exact Or.inl hf

/-! ## The samples a `process` asks for -/

/-- C23, on the code: on the node with the format S16, 2 channels, 48000 Hz, a
clock of duration 256 at 48000 Hz and no position, `get_samples` returns 1024,
not the 256 that the clock gives; on the node with the format at 44100 Hz and
neither position nor clock it returns 1024, not `1024 · 44100 / 48000 = 940`. In
both it is the duration stored alongside that has the other value. -/
theorem get_samples_without_position_is_1024 :
    Example.node_format_clock.port.rate_match = none ∧
    Example.node_format_clock.position = none ∧
    Example.node_format_clock.clock
      = some { Example.clock with name := DEFAULT_CLOCK_NAME } ∧
    get_samples Example.node_format_clock = some (1024, 256) ∧
    claimed_samples Example.node_format_clock = some 256 ∧
    Example.node_format_44100.port.rate_match = none ∧
    Example.node_format_44100.position = none ∧
    Example.node_format_44100.clock = none ∧
    get_samples Example.node_format_44100 = some (1024, 940) ∧
    claimed_samples Example.node_format_44100 = some 940 := by
  refine ⟨rfl, rfl, rfl, by decide, by decide, rfl, rfl, rfl, by decide, by decide⟩

/-- C23, amended: when the rate denominators it divides by are not 0 (that of
the position, or without a position that of the clock), `get_samples` returns,
and the sample count it returns is the size of the rate match when there is a
rate match and `resampling` is set; else, with a position,
`position.clock.duration · format.rate / position.clock.rate.denom` computed in
64 bits and cut to 32 bits, which is the plain quotient when the product is
below `2^64` and the quotient below `2^32`; else 1024. The duration it stores
alongside is that quotient with a position, else the same from the clock, else
`1024 · format.rate` in 32 bits, divided by 48000. -/
theorem get_samples_required (this : Impl)
    (hposition : ∀ p, this.position = some p → p.clock.rate_denom ≠ 0)
    (hclock : this.position = none → ∀ c, this.clock = some c → c.rate_denom ≠ 0) :
    ∃ samples duration, get_samples this = some (samples, duration) ∧
      (∀ rate_match, this.port.rate_match = some rate_match → this.resampling = true →
        samples = rate_match.size) ∧
      ((this.port.rate_match = none ∨ this.resampling = false) →
        ∀ p, this.position = some p →
          samples = u32 (u64 (p.clock.duration * this.port.current_format.raw.rate)
            / p.clock.rate_denom) ∧
          (p.clock.duration * this.port.current_format.raw.rate < 2 ^ 64 →
            p.clock.duration * this.port.current_format.raw.rate / p.clock.rate_denom < 2 ^ 32 →
            samples = p.clock.duration * this.port.current_format.raw.rate
              / p.clock.rate_denom)) ∧
      ((this.port.rate_match = none ∨ this.resampling = false) →
        this.position = none → samples = 1024) ∧
      (∀ p, this.position = some p →
        duration = u32 (u64 (p.clock.duration * this.port.current_format.raw.rate)
          / p.clock.rate_denom)) ∧
      (this.position = none → ∀ c, this.clock = some c →
        duration = u32 (u64 (c.duration * this.port.current_format.raw.rate)
          / c.rate_denom)) ∧
      (this.position = none → this.clock = none →
        duration = u32 (1024 * this.port.current_format.raw.rate) / 48000) := by
  have hwrap : ∀ a b : Nat, a < 2 ^ 64 → a / b < 2 ^ 32 → u32 (u64 a / b) = a / b := by
    intro a b ha hq
    unfold u32 u64
    rw [Nat.mod_eq_of_lt ha, Nat.mod_eq_of_lt hq]
  unfold get_samples
  cases hp : this.position with
  | some p =>
    have hd := hposition p hp
    cases hr : this.port.rate_match <;> cases hres : this.resampling <;>
      simp [udiv, hd] <;> intro h1 h2 <;> exact hwrap _ _ h1 h2
  | none =>
    cases hc : this.clock with
    | none => cases hr : this.port.rate_match <;> cases hres : this.resampling <;> simp [udiv]
    | some c =>
      have hd := hclock hp c hc
      cases hr : this.port.rate_match <;> cases hres : this.resampling <;> simp [udiv, hd]

/-- C23 at the started node of the example with a position of duration 512 at
44100 Hz: 512 · 48000 / 44100 = 557 samples. -/
theorem get_samples_required_witness :
    ((∀ p, Example.node_position.position = some p → p.clock.rate_denom ≠ 0) ∧
      (Example.node_position.position = none →
        ∀ c, Example.node_position.clock = some c → c.rate_denom ≠ 0)) ∧
    get_samples Example.node_position = some (557, 557) :=
  ⟨⟨fun p hp => by
      have h2 : some p = some Example.position := hp.symm
      cases h2
      decide,
    fun hp => by
      have h2 : some Example.position = none := hp
      cases h2⟩,
    by
      obtain ⟨samples, duration, hget, -, hs, -, hd, -, -⟩ :=
        get_samples_required Example.node_position
          (fun p hp => by
            have h2 : some p = some Example.position := hp.symm
            cases h2
            decide)
          (fun hp => by
            have h2 : some Example.position = none := hp
            cases h2)
      rw [hget, (hs (Or.inl rfl) Example.position rfl).1, hd Example.position rfl]
      decide⟩

/-! ## The buffer a `process` fills -/

/-- What `process_buffering` does when it finds a free buffer and readable
bytes, the segment of the buffer is large enough and the frame size is not 0. -/
theorem process_buffering_fills (this : Impl) (env : ProcessEnv) (samples duration index : Nat)
    (free : List Nat) (buf : spa_buffer)
    (hsamples : get_samples this = some (samples, duration))
    (hfree : this.port.free = index :: free) (havail : 0 < u32 env.avail)
    (hbuf : (this.port.buffers index).buf = some buf)
    (hmax : u32 (samples * this.port.frame_size) ≤ buf.maxsize)
    (hframe : this.port.frame_size ≠ 0) :
    ∃ next, process_buffering this env = some next ∧
      next.calls = this.calls ++ [Call.decode_buffer_process samples duration,
        Call.decode_buffer_read (min (u32 env.avail) (u32 (samples * this.port.frame_size))),
        Call.memcpy index (min (u32 env.avail) (u32 (samples * this.port.frame_size)))] ∧
      next.port.free = free ∧
      next.port.ready = this.port.ready ++ [index] ∧
      (next.port.buffers index).buf = some { buf with
        chunk := { offset := 0
                   size := min (u32 env.avail) (u32 (samples * this.port.frame_size))
                   stride := this.port.frame_size } } ∧
      (next.port.buffers index).h = (this.port.buffers index).h.map (fun _ =>
        { seq := this.sample_count, pts := this.now, dts_offset := 0 }) ∧
      (∀ i, i ≠ index → next.port.buffers i = this.port.buffers i) ∧
      next.sample_count = u64 (this.sample_count +
        min (u32 env.avail) (u32 (samples * this.port.frame_size)) / this.port.frame_size) := by
  obtain ⟨-, -, -, f4, f5, f6, -, f8, f9, f10, -, -, f13, -⟩ := setup_matching_frame
    { this with calls := this.calls ++ [Call.decode_buffer_process samples duration] } env.corr
  have hfree2 : (setup_matching
      { this with calls := this.calls ++ [Call.decode_buffer_process samples duration] }
      env.corr).port.free = index :: free := by
    rw [f8]
    exact hfree
  simp only [process_buffering, hsamples, Option.bind_eq_bind, Option.some_bind, hfree2,
    havail, if_true, Option.pure_def]
  simp only [process_buffering_copy, Option.bind_eq_bind, Option.pure_def]
  rw [f10, f13, f4, f5, f6, f9]
  cases hh : (this.port.buffers index).h with
  | none =>
    simp only [hbuf, hh, Option.some_bind, Nat.not_lt.mpr hmax, if_false, udiv, hframe]
    refine ⟨_, rfl, ?_, rfl, rfl, ?_, ?_, ?_, rfl⟩
    · simp
    · simp
    · simp [hh]
    · intro i hi
      simp [Function.update_noteq hi]
  | some header =>
    simp only [hbuf, hh, Option.some_bind, Nat.not_lt.mpr hmax, if_false, udiv, hframe]
    refine ⟨_, rfl, ?_, rfl, rfl, ?_, ?_, ?_, rfl⟩
    · simp
    · simp
    · simp
    · intro i hi
      simp [Function.update_noteq hi]

/-- What `process_buffering` does when the free list is empty or nothing is
readable. -/
theorem process_buffering_skips (this : Impl) (env : ProcessEnv) (samples duration : Nat)
    (hsamples : get_samples this = some (samples, duration))
    (hskip : this.port.free = [] ∨ u32 env.avail = 0) :
    ∃ next, process_buffering this env = some next ∧
      next.calls = this.calls ++ [Call.decode_buffer_process samples duration] ∧
      next.port.free = this.port.free ∧
      next.port.ready = this.port.ready ∧
      next.port.buffers = this.port.buffers ∧
      next.sample_count = this.sample_count := by
  obtain ⟨-, -, -, f4, f5, -, -, f8, f9, f10, -⟩ := setup_matching_frame
    { this with calls := this.calls ++ [Call.decode_buffer_process samples duration] } env.corr
  simp only [process_buffering, hsamples, Option.bind_eq_bind, Option.some_bind,
    Option.pure_def]
  rcases hskip with h | h
  · have hfree2 : (setup_matching
        { this with calls := this.calls ++ [Call.decode_buffer_process samples duration] }
        env.corr).port.free = [] := by
      rw [f8]
      exact h
    simp only [hfree2]
    exact ⟨_, rfl, f4, f8, f9, f10, f5⟩
  · have h0 : ¬ u32 env.avail > 0 := by omega
    split
    · exact ⟨_, rfl, f4, f8, f9, f10, f5⟩
    · rw [if_neg h0]
      exact ⟨_, rfl, f4, f8, f9, f10, f5⟩

/-! ## The results of `decode_data` -/

/-- The sum of the `written` counts with one more return in front. -/
theorem written_sum_cons (r : Int × Nat) (returns : List (Int × Nat)) :
    written_sum (r :: returns) = r.2 + written_sum returns := by
  simp [written_sum]

/-- The three ways in which the loop of `decode_data` ends: a call of `decode`
returns 0 or less, a call reports at least as many bytes written as there is
room left, or the source is used up. -/
theorem decode_loop_result (codec : CodecOracle) (dst_size fuel index src_size avail : Nat)
    (res : Int) (calls : List Call)
    (h : decode_loop codec dst_size fuel index src_size avail = some (res, calls)) :
    (∃ front last, decode_returns codec index calls = front ++ [last] ∧
      (∀ x ∈ front, 0 < x.1) ∧ last.1 ≤ 0 ∧ res = i32_of_int last.1) ∨
    (∃ front last, decode_returns codec index calls = front ++ [last] ∧
      (∀ x ∈ front, 0 < x.1) ∧ 0 < last.1 ∧ written_sum front ≤ avail ∧
      avail - written_sum front ≤ last.2 ∧ res = -ENOSPC) ∨
    ((∀ x ∈ decode_returns codec index calls, 0 < x.1) ∧
      written_sum (decode_returns codec index calls) ≤ avail ∧
      res = i32 (dst_size - (avail - written_sum (decode_returns codec index calls)))) := by
  induction fuel generalizing index src_size avail res calls with
  | zero =>
    unfold decode_loop at h
    by_cases h1 : src_size > 0
    · rw [if_pos h1] at h
      cases h
    · rw [if_neg h1] at h
      simp only [Option.some.injEq, Prod.mk.injEq] at h
      rw [← h.1, ← h.2]
      right; right
      simp [decode_returns, written_sum]
  | succ fuel ih =>
    unfold decode_loop at h
    by_cases h1 : src_size > 0
    · rw [if_pos h1] at h
      dsimp only at h
      by_cases h2 : (codec.decode index src_size avail).1 ≤ 0
      · rw [if_pos h2] at h
        simp only [Option.some.injEq, Prod.mk.injEq] at h
        rw [← h.1, ← h.2]
        left
        exact ⟨[], codec.decode index src_size avail, rfl, by simp, h2, rfl⟩
      · rw [if_neg h2] at h
        by_cases h3 : ¬ avail > (codec.decode index src_size avail).2
        · rw [if_pos h3] at h
          simp only [Option.some.injEq, Prod.mk.injEq] at h
          rw [← h.1, ← h.2]
          right; left
          refine ⟨[], codec.decode index src_size avail, rfl, by simp, by omega, ?_, ?_, rfl⟩
          · simp [written_sum]
          · simp only [written_sum, List.map_nil, List.sum_nil, Nat.sub_zero]
            omega
        · rw [if_neg h3] at h
          cases hrec : decode_loop codec dst_size fuel (index + 1)
              (u32_sub src_size (codec.decode index src_size avail).1)
              (avail - (codec.decode index src_size avail).2) with
          | none => simp [hrec] at h
          | some r =>
            obtain ⟨res2, calls2⟩ := r
            simp only [hrec, Option.some.injEq, Prod.mk.injEq] at h
            have hpos : 0 < (codec.decode index src_size avail).1 := by omega
            have hroom : (codec.decode index src_size avail).2 < avail := by omega
            have hrets : decode_returns codec index calls =
                codec.decode index src_size avail :: decode_returns codec (index + 1) calls2 := by
              rw [← h.2]
              rfl
            rw [hrets, ← h.1]
            rcases ih _ _ _ _ _ hrec with ⟨front, last, e, hf, hl, hr⟩ |
              ⟨front, last, e, hf, hl, hw, hs, hr⟩ | ⟨hall, hw, hr⟩
            · left
              refine ⟨codec.decode index src_size avail :: front, last, ?_, ?_, hl, hr⟩
              · rw [e]
                rfl
              · intro x hx
                rcases List.mem_cons.mp hx with hx | hx
                · rw [hx]
                  exact hpos
                · exact hf x hx
            · right; left
              refine ⟨codec.decode index src_size avail :: front, last, ?_, ?_, hl, ?_, ?_, hr⟩
              · rw [e]
                rfl
              · intro x hx
                rcases List.mem_cons.mp hx with hx | hx
                · rw [hx]
                  exact hpos
                · exact hf x hx
              · rw [written_sum_cons]
                omega
              · rw [written_sum_cons]
                omega
            · right; right
              refine ⟨?_, ?_, ?_⟩
              · intro x hx
                rcases List.mem_cons.mp hx with hx | hx
                · rw [hx]
                  exact hpos
                · exact hall x hx
              · rw [written_sum_cons]
                omega
              · rw [written_sum_cons, hr]
                congr 2
                omega
    · rw [if_neg h1] at h
      simp only [Option.some.injEq, Prod.mk.injEq] at h
      rw [← h.1, ← h.2]
      right; right
      simp [decode_returns, written_sum]

/-- A value below `2^32` that reads as a non-negative `int32_t` is that value. -/
theorem i32_nonneg (n : Nat) (hn : n < 2 ^ 32) (h : 0 ≤ i32 n) : i32 n = n := by
  unfold i32 at h ⊢
  rw [Nat.mod_eq_of_lt hn] at h ⊢
  split_ifs at h ⊢ with h1
  · rfl
  · omega

/-- C25, on the code: with a codec whose first call of `decode` writes 400
bytes and whose second call returns 0, `decode_data` returns 0, which is not
negative, while the call that succeeded has written 400 bytes. -/
theorem decode_data_returns_zero_after_written_bytes :
    decode_data Example.codec_stops 8 212 4096 =
      some (0, [Call.codec_start_decode 212, Call.codec_decode 200 4096,
        Call.codec_decode 100 3696]) ∧
    decode_returns Example.codec_stops 0
      [Call.codec_start_decode 212, Call.codec_decode 200 4096, Call.codec_decode 100 3696]
      = [(100, 400), (0, 0)] ∧
    written_sum ([((100 : Int), 400), (0, 0)].filter fun r => decide (0 < r.1)) = 400 := by
  refine ⟨by decide, by decide, by decide⟩

/-- C25, amended: for every codec, when `decode_data` returns: if
`start_decode` fails, the result is its negative value read as an `int32_t` and
no call of `decode` is made; else the calls of `decode` before the last have all
returned a positive value, and either the last has returned 0 or less and the
result is that value read as an `int32_t`, or the last has returned a positive
value and reported at least as many bytes written as the reservation had left
and the result is `-ENOSPC`, or all calls have returned a positive value, the
source is used up, and the result is the sum of their written counts, which is
at most `dst_size` (read as an `int32_t`: the sum itself when `dst_size` is a
`uint32_t` and the result is not negative). -/
theorem decode_data_result (codec : CodecOracle) (fuel src_size dst_size : Nat) (res : Int)
    (calls : List Call) (h : decode_data codec fuel src_size dst_size = some (res, calls)) :
    (codec.start_decode src_size < 0 →
      res = i32_of_int (codec.start_decode src_size) ∧
      calls = [Call.codec_start_decode src_size] ∧ decode_returns codec 0 calls = []) ∧
    (0 ≤ codec.start_decode src_size →
      (∃ front last, decode_returns codec 0 calls = front ++ [last] ∧
        (∀ x ∈ front, 0 < x.1) ∧ last.1 ≤ 0 ∧ res = i32_of_int last.1) ∨
      (∃ front last, decode_returns codec 0 calls = front ++ [last] ∧
        (∀ x ∈ front, 0 < x.1) ∧ 0 < last.1 ∧ written_sum front ≤ dst_size ∧
        dst_size - written_sum front ≤ last.2 ∧ res = -ENOSPC) ∨
      ((∀ x ∈ decode_returns codec 0 calls, 0 < x.1) ∧
        written_sum (decode_returns codec 0 calls) ≤ dst_size ∧
        res = i32 (written_sum (decode_returns codec 0 calls)) ∧
        (dst_size < 2 ^ 32 → 0 ≤ res →
          res = written_sum (decode_returns codec 0 calls)))) := by
  unfold decode_data at h
  dsimp only at h
  refine ⟨?_, ?_⟩
  · intro hneg
    rw [if_pos hneg] at h
    simp only [Option.some.injEq, Prod.mk.injEq] at h
    rw [← h.1, ← h.2]
    exact ⟨rfl, rfl, rfl⟩
  · intro hpos
    have h1 : ¬ codec.start_decode src_size < 0 := by omega
    rw [if_neg h1] at h
    cases hrec : decode_loop codec dst_size fuel 0
        (u32_sub src_size (codec.start_decode src_size)) dst_size with
    | none => simp [hrec] at h
    | some r =>
      obtain ⟨res2, calls2⟩ := r
      simp only [hrec, Option.some.injEq, Prod.mk.injEq] at h
      have hrets : decode_returns codec 0 calls = decode_returns codec 0 calls2 := by
        rw [← h.2]
        rfl
      rw [hrets, ← h.1]
      rcases decode_loop_result _ _ _ _ _ _ _ _ hrec with c | c | ⟨hall, hw, hr⟩
      · exact Or.inl c
      · exact Or.inr (Or.inl c)
      · right; right
        have hres : res2 = i32 (written_sum (decode_returns codec 0 calls2)) := by
          rw [hr]
          congr 1
          omega
        refine ⟨hall, hw, hres, ?_⟩
        intro hsize hnonneg
        rw [hres] at hnonneg ⊢
        exact i32_nonneg _ (by omega) hnonneg

/-- C25 at the codec of the example, which decodes 212 bytes in two calls
that write 400 bytes each: the result is 800. -/
theorem decode_data_result_witness :
    decode_data Example.codec 8 212 4096 =
      some (800, [Call.codec_start_decode 212, Call.codec_decode 200 4096,
        Call.codec_decode 100 3696]) ∧
    (0 : Int) ≤ Example.codec.start_decode 212 ∧
    ((∃ front last, decode_returns Example.codec 0
        [Call.codec_start_decode 212, Call.codec_decode 200 4096, Call.codec_decode 100 3696]
          = front ++ [last] ∧
        (∀ x ∈ front, 0 < x.1) ∧ last.1 ≤ 0 ∧ (800 : Int) = i32_of_int last.1) ∨
      (∃ front last, decode_returns Example.codec 0
        [Call.codec_start_decode 212, Call.codec_decode 200 4096, Call.codec_decode 100 3696]
          = front ++ [last] ∧
        (∀ x ∈ front, 0 < x.1) ∧ 0 < last.1 ∧ written_sum front ≤ 4096 ∧
        4096 - written_sum front ≤ last.2 ∧ (800 : Int) = -ENOSPC) ∨
      ((∀ x ∈ decode_returns Example.codec 0
        [Call.codec_start_decode 212, Call.codec_decode 200 4096, Call.codec_decode 100 3696],
          0 < x.1) ∧
        written_sum (decode_returns Example.codec 0
          [Call.codec_start_decode 212, Call.codec_decode 200 4096,
            Call.codec_decode 100 3696]) ≤ 4096 ∧
        (800 : Int) = i32 (written_sum (decode_returns Example.codec 0
          [Call.codec_start_decode 212, Call.codec_decode 200 4096,
            Call.codec_decode 100 3696])) ∧
        (4096 < 2 ^ 32 → (0 : Int) ≤ 800 →
          (800 : Int) = written_sum (decode_returns Example.codec 0
            [Call.codec_start_decode 212, Call.codec_decode 200 4096,
              Call.codec_decode 100 3696])))) :=
  ⟨by decide, by decide,
    (decode_data_result Example.codec 8 212 4096 800
      [Call.codec_start_decode 212, Call.codec_decode 200 4096, Call.codec_decode 100 3696]
      (by decide)).2 (by decide)⟩

/-! ## The end of `decode_data` -/

/-- Taking between 1 and all of the bytes of a `uint32_t` source size leaves the
plain difference, which is less than before. -/
theorem u32_sub_exact (a : Nat) (b : Int) (ha : a < 2 ^ 32) (hb0 : 0 ≤ b) (hb : b ≤ a) :
    ((u32_sub a b : Nat) : Int) = (a : Int) - b ∧ u32_sub a b ≤ a ∧ (0 < b → u32_sub a b < a) := by
  unfold u32_sub
  have h1 : ((a : Int) - b) % 2 ^ 32 = (a : Int) - b := by
    apply Int.emod_eq_of_lt
    · omega
    · have : (a : Int) < 2 ^ 32 := by exact_mod_cast ha
      omega
  rw [h1]
  have h2 : (((a : Int) - b).toNat : Int) = (a : Int) - b := Int.toNat_of_nonneg (by omega)
  refine ⟨h2, ?_, ?_⟩
  · omega
  · intro hpos
    omega

/-- With a codec that takes at most what is left whenever it succeeds, the
loop of `decode_data` ends within as many turns as the source has bytes, and
the source sizes it gives to `decode` go down strictly. -/
theorem decode_loop_terminates (codec : CodecOracle) (dst_size : Nat)
    (hdecode : ∀ i s a, 0 < (codec.decode i s a).1 → (codec.decode i s a).1 ≤ s)
    (fuel index src_size avail : Nat) (hfuel : src_size ≤ fuel) (hsize : src_size < 2 ^ 32) :
    ∃ res calls, decode_loop codec dst_size fuel index src_size avail = some (res, calls) ∧
      (decode_src_sizes calls).length ≤ src_size ∧
      (∀ s ∈ decode_src_sizes calls, 0 < s ∧ s ≤ src_size) ∧
      (decode_src_sizes calls).Pairwise (fun a b => b < a) := by
  induction fuel generalizing index src_size avail with
  | zero =>
    have h0 : ¬ src_size > 0 := by omega
    unfold decode_loop
    rw [if_neg h0]
    exact ⟨_, _, rfl, by simp [decode_src_sizes], by simp [decode_src_sizes],
      by simp [decode_src_sizes]⟩
  | succ fuel ih =>
    unfold decode_loop
    by_cases h1 : src_size > 0
    · rw [if_pos h1]
      dsimp only
      by_cases h2 : (codec.decode index src_size avail).1 ≤ 0
      · rw [if_pos h2]
        refine ⟨_, _, rfl, ?_, ?_, ?_⟩
        · simp only [decode_src_sizes, List.length_singleton]
          omega
        · intro s hs
          simp only [decode_src_sizes, List.mem_singleton] at hs
          omega
        · simp [decode_src_sizes]
      · rw [if_neg h2]
        by_cases h3 : ¬ avail > (codec.decode index src_size avail).2
        · rw [if_pos h3]
          refine ⟨_, _, rfl, ?_, ?_, ?_⟩
          · simp only [decode_src_sizes, List.length_singleton]
            omega
          · intro s hs
            simp only [decode_src_sizes, List.mem_singleton] at hs
            omega
          · simp [decode_src_sizes]
        · rw [if_neg h3]
          have hpos : 0 < (codec.decode index src_size avail).1 := by omega
          obtain ⟨-, hle, hlt⟩ := u32_sub_exact src_size (codec.decode index src_size avail).1
            hsize (by omega) (hdecode index src_size avail hpos)
          have hlt2 := hlt hpos
          obtain ⟨res, calls, hrec, hlen, hall, hpair⟩ := ih (index + 1)
            (u32_sub src_size (codec.decode index src_size avail).1)
            (avail - (codec.decode index src_size avail).2) (by omega) (by omega)
          rw [hrec]
          refine ⟨_, _, rfl, ?_, ?_, ?_⟩
          · simp only [decode_src_sizes, List.length_cons]
            omega
          · intro s hs
            simp only [decode_src_sizes, List.mem_cons] at hs
            rcases hs with hs | hs
            · omega
            · have := hall s hs
              omega
          · simp only [decode_src_sizes, List.pairwise_cons]
            refine ⟨?_, hpair⟩
            intro s hs
            have := hall s hs
            omega
    · rw [if_neg h1]
      exact ⟨_, _, rfl, by simp [decode_src_sizes], by simp [decode_src_sizes],
        by simp [decode_src_sizes]⟩

/-- C29: for a source size that is a `uint32_t` and every codec whose
`start_decode` takes at most `src_size` bytes and whose `decode`, whenever it
returns a positive value, takes at most the bytes that are left, `decode_data`
returns once its loop may take `src_size` turns or more: it calls `decode` at
most `src_size` times, the source sizes it gives to `decode` are between 1 and
`src_size` and each is less than the one before, and the subtractions that
update the source size (after `start_decode`, and after every successful
`decode` on a size up to `src_size`) give the plain difference, without a
wrap. -/
theorem decode_data_terminates (codec : CodecOracle) (fuel src_size dst_size : Nat)
    (hsize : src_size < 2 ^ 32)
    (hstart : codec.start_decode src_size ≤ src_size)
    (hdecode : ∀ i s a, 0 < (codec.decode i s a).1 → (codec.decode i s a).1 ≤ s)
    (hfuel : src_size ≤ fuel) :
    ∃ res calls, decode_data codec fuel src_size dst_size = some (res, calls) ∧
      (decode_src_sizes calls).length ≤ src_size ∧
      (∀ s ∈ decode_src_sizes calls, 0 < s ∧ s ≤ src_size) ∧
      (decode_src_sizes calls).Pairwise (fun a b => b < a) ∧
      (0 ≤ codec.start_decode src_size →
        ((u32_sub src_size (codec.start_decode src_size) : Nat) : Int)
          = (src_size : Int) - codec.start_decode src_size) ∧
      (∀ i s a, s ≤ src_size → 0 < (codec.decode i s a).1 →
        ((u32_sub s (codec.decode i s a).1 : Nat) : Int) = (s : Int) - (codec.decode i s a).1 ∧
        u32_sub s (codec.decode i s a).1 < s) := by
  have hsteps : ∀ i s a, s ≤ src_size → 0 < (codec.decode i s a).1 →
      ((u32_sub s (codec.decode i s a).1 : Nat) : Int) = (s : Int) - (codec.decode i s a).1 ∧
      u32_sub s (codec.decode i s a).1 < s := by
    intro i s a hs hpos
    obtain ⟨e, -, hlt⟩ := u32_sub_exact s (codec.decode i s a).1 (by omega) (by omega)
      (hdecode i s a hpos)
    exact ⟨e, hlt hpos⟩
  have hfirst : 0 ≤ codec.start_decode src_size →
      ((u32_sub src_size (codec.start_decode src_size) : Nat) : Int)
        = (src_size : Int) - codec.start_decode src_size := by
    intro h0
    exact (u32_sub_exact src_size _ hsize h0 hstart).1
  unfold decode_data
  dsimp only
  by_cases h1 : codec.start_decode src_size < 0
  · rw [if_pos h1]
    exact ⟨_, _, rfl, by simp [decode_src_sizes], by simp [decode_src_sizes],
      by simp [decode_src_sizes], hfirst, hsteps⟩
  · rw [if_neg h1]
    obtain ⟨-, hle, -⟩ := u32_sub_exact src_size (codec.start_decode src_size) hsize
      (by omega) hstart
    obtain ⟨res, calls, hrec, hlen, hall, hpair⟩ := decode_loop_terminates codec dst_size
      hdecode fuel 0 (u32_sub src_size (codec.start_decode src_size)) dst_size
      (by omega) (by omega)
    rw [hrec]
    refine ⟨_, _, rfl, ?_, ?_, ?_, hfirst, hsteps⟩
    · simp only [decode_src_sizes]
      omega
    · intro s hs
      simp only [decode_src_sizes] at hs
      have := hall s hs
      omega
    · simp only [decode_src_sizes]
      exact hpair

/-- C29 at a codec of the example that takes at most 12 bytes at the start
and at most 100 bytes at each call, with 212 bytes of source: three calls. -/
theorem decode_data_terminates_witness :
    ((212 : Nat) < 2 ^ 32 ∧
      Example.codec_bounded.start_decode 212 ≤ ((212 : Nat) : Int) ∧
      (∀ i s a, 0 < (Example.codec_bounded.decode i s a).1 →
        (Example.codec_bounded.decode i s a).1 ≤ s) ∧
      212 ≤ 212) ∧
    ∃ res calls, decode_data Example.codec_bounded 212 212 4096 = some (res, calls) ∧
      (decode_src_sizes calls).length ≤ 212 :=
  ⟨⟨by decide, by decide, fun i s a _ => Int.min_le_left _ _, Nat.le_refl _⟩,
    (decode_data_terminates Example.codec_bounded 212 212 4096 (by decide) (by decide)
      (fun i s a _ => Int.min_le_left _ _) (Nat.le_refl _)).imp fun _ h =>
        h.imp fun _ h2 => ⟨h2.1, h2.2.1⟩⟩

/-! ## A `process` with small buffers -/

/-- C24, on the code: `port_use_buffers` accepts two mapped buffers whose first
segment holds 64 bytes; on the started node, where `get_samples` asks for 1024
samples of 4 bytes, a `process` that finds 100 readable bytes then fails the
assertion `datas[0].maxsize >= data_size` (64 against 4096) and does not return.
Where the assertion holds and the frame size is not 0, `process_buffering` does
what the claim says: it reads `size = min(avail, samples · frame_size)` bytes,
sets the chunk to offset 0, that size and the stride `frame_size`, writes the
Header (`seq` the sample count before, `pts = now`, `dts_offset = 0`) when
there is one, adds `size / frame_size` to the sample count and moves the buffer
from the head of the free list to the end of the ready list; with an empty free
list or nothing readable it reads nothing and leaves both lists. -/
theorem process_buffering_asserts_on_small_buffers :
    Reachable Example.node_small_started ∧
    (impl_node_port_use_buffers Example.node_format spa_direction.SPA_DIRECTION_OUTPUT 0
      [Example.small, Example.small] Example.env).1 = 0 ∧
    Example.node_small_started.started = true ∧
    get_samples Example.node_small_started = some (1024, 1024) ∧
    Example.node_small_started.port.frame_size = 4 ∧
    Example.node_small_started.port.free = [0, 1] ∧
    (Example.node_small_started.port.buffers 0).buf = some Example.small ∧
    Example.small.maxsize = 64 ∧
    process_buffering Example.node_small_started (Example.penv 100) = none ∧
    impl_node_process Example.node_small_started (Example.penv 100) = none ∧
    (∀ (this : Impl) (env : ProcessEnv) (samples duration index : Nat) (free : List Nat)
      (buf : spa_buffer),
      get_samples this = some (samples, duration) →
      this.port.free = index :: free → 0 < u32 env.avail →
      (this.port.buffers index).buf = some buf →
      u32 (samples * this.port.frame_size) ≤ buf.maxsize →
      this.port.frame_size ≠ 0 →
      ∃ next, process_buffering this env = some next ∧
        next.calls = this.calls ++ [Call.decode_buffer_process samples duration,
          Call.decode_buffer_read (min (u32 env.avail) (u32 (samples * this.port.frame_size))),
          Call.memcpy index (min (u32 env.avail) (u32 (samples * this.port.frame_size)))] ∧
        next.port.free = free ∧
        next.port.ready = this.port.ready ++ [index] ∧
        (next.port.buffers index).buf = some { buf with
          chunk := { offset := 0
                     size := min (u32 env.avail) (u32 (samples * this.port.frame_size))
                     stride := this.port.frame_size } } ∧
        (next.port.buffers index).h = (this.port.buffers index).h.map (fun _ =>
          { seq := this.sample_count, pts := this.now, dts_offset := 0 }) ∧
        (∀ i, i ≠ index → next.port.buffers i = this.port.buffers i) ∧
        next.sample_count = u64 (this.sample_count +
          min (u32 env.avail) (u32 (samples * this.port.frame_size))
            / this.port.frame_size)) ∧
    (∀ (this : Impl) (env : ProcessEnv) (samples duration : Nat),
      get_samples this = some (samples, duration) →
      (this.port.free = [] ∨ u32 env.avail = 0) →
      ∃ next, process_buffering this env = some next ∧
        next.calls = this.calls ++ [Call.decode_buffer_process samples duration] ∧
        next.port.free = this.port.free ∧
        next.port.ready = this.port.ready ∧
        next.port.buffers = this.port.buffers ∧
        next.sample_count = this.sample_count) := by
  refine ⟨?_, rfl, rfl, by decide, by decide, by decide, rfl, rfl, rfl, rfl, ?_, ?_⟩
  · exact Reachable.step _ (Op.send_command NodeCommand.Start Example.env) 0 _
      (Reachable.step Example.node_small_buffers
        (Op.port_set_io spa_direction.SPA_DIRECTION_OUTPUT 0 SPA_IO_Buffers
          Example.io_need_data) 0 _
        (Reachable.step Example.node_format
          (Op.port_use_buffers spa_direction.SPA_DIRECTION_OUTPUT 0
            [Example.small, Example.small] Example.env) 0 _
          (Reachable.step Example.node_init
            (Op.port_set_param spa_direction.SPA_DIRECTION_OUTPUT 0 SPA_PARAM_Format
              (some (Example.pod spa_audio_format.S16 2 48000)) Example.env) 0 _
            (Reachable.init Example.info _ rfl) rfl) rfl) rfl) rfl
  · intro this env samples duration index free buf h1 h2 h3 h4 h5 h6
    exact process_buffering_fills this env samples duration index free buf h1 h2 h3 h4 h5 h6
  · intro this env samples duration h1 h2
    exact process_buffering_skips this env samples duration h1 h2

/-! ## Null IO areas -/

/-- C26, on the code: with a transport and no IO area on the port,
`a2dp_on_timeout` reaches `io->status = SPA_STATUS_HAVE_DATA` and writes through
the null pointer: it does not return. Such a state is reached by `Start` on a
node with a format and buffers whose port IO area was never set, which
registers the timer source. `impl_node_process` does check: without an IO
area it returns `-EIO` and leaves the state alone. -/
theorem on_timeout_writes_through_null_io :
    (∀ (this : Impl) (corr : ℚ), this.transport.isSome = true → this.port.io = none →
      a2dp_on_timeout this corr = none) ∧
    Reachable Example.node_started_no_io ∧
    Example.node_started_no_io.transport = some Example.transport ∧
    Example.node_started_no_io.port.io = none ∧
    Example.node_started_no_io.started = true ∧
    Example.node_started_no_io.timer_source_loop = true ∧
    a2dp_on_timeout Example.node_started_no_io 1 = none ∧
    (∀ (this : Impl) (env : ProcessEnv), this.port.io = none →
      impl_node_process this env = some (- EIO, this)) := by
  have hgeneral : ∀ (this : Impl) (corr : ℚ), this.transport.isSome = true →
      this.port.io = none → a2dp_on_timeout this corr = none := by
    intro this corr ht hio
    obtain ⟨-, -, -, h4, -⟩ := a2dp_on_timeout_clock_fields this corr _ _ rfl rfl
    have hn : this.transport.isNone = false := by
      cases h : this.transport with
      | none => rw [h] at ht; cases ht
      | some t => rfl
    rw [a2dp_on_timeout_parts, hn]
    rw [hio] at h4
    simp only [Bool.false_eq_true, if_false, h4]
  refine ⟨hgeneral, ?_, rfl, rfl, rfl, rfl, hgeneral _ _ rfl rfl, ?_⟩
  · exact Reachable.step Example.node_buffers (Op.send_command NodeCommand.Start Example.env) 0 _
      (Reachable.step Example.node_format
        (Op.port_use_buffers spa_direction.SPA_DIRECTION_OUTPUT 0
          [Example.mapped, Example.mapped] Example.env) 0 _
        (Reachable.step Example.node_init
          (Op.port_set_param spa_direction.SPA_DIRECTION_OUTPUT 0 SPA_PARAM_Format
            (some (Example.pod spa_audio_format.S16 2 48000)) Example.env) 0 _
          (Reachable.init Example.info _ rfl) rfl) rfl) rfl
  · intro this env hio
    simp [impl_node_process, hio]

/-! ## A failed Start -/

/-- C27, on the code: on the configured node a `Start` during which
`spa_bt_transport_acquire` fails returns that error and leaves `started` set;
the next `Start` then returns 0 without acquiring anything. In general
`do_start` sets `started` after `transport_start` whatever it returned, so with
a transport every `Start` on a node with a format and buffers leaves `started`
set; only without a transport does it return `-EIO` with the state as it
was. -/
theorem failed_start_leaves_started_set :
    Reachable Example.node_acquire_failed ∧
    Example.node_io.port.have_format = true ∧
    0 < Example.node_io.port.n_buffers ∧
    Example.node_io.started = false ∧
    (impl_node_send_command Example.node_io NodeCommand.Start Example.env_acquire_fails).1
      = -1 ∧
    Example.node_acquire_failed.started = true ∧
    Example.node_acquire_failed.transport_acquired = false ∧
    impl_node_send_command Example.node_acquire_failed NodeCommand.Start Example.env
      = (0, Example.node_acquire_failed) ∧
    (∀ (this : Impl) (env : CommandEnv) (transport : spa_bt_transport),
      this.port.have_format = true → this.port.n_buffers ≠ 0 →
      this.transport = some transport →
      (impl_node_send_command this NodeCommand.Start env).2.started = true) ∧
    (∀ (this : Impl) (env : CommandEnv),
      this.port.have_format = true → this.port.n_buffers ≠ 0 → this.started = false →
      this.transport = none →
      (impl_node_send_command this NodeCommand.Start env).1 = - EIO ∧
      (impl_node_send_command this NodeCommand.Start env).2.started = false) := by
  refine ⟨?_, rfl, by decide, rfl, rfl, rfl, rfl, rfl, ?_, ?_⟩
  · exact Reachable.step Example.node_io
      (Op.send_command NodeCommand.Start Example.env_acquire_fails) (-1) _
      (Reachable.step Example.node_buffers
        (Op.port_set_io spa_direction.SPA_DIRECTION_OUTPUT 0 SPA_IO_Buffers
          Example.io_need_data) 0 _
        (Reachable.step Example.node_format
          (Op.port_use_buffers spa_direction.SPA_DIRECTION_OUTPUT 0
            [Example.mapped, Example.mapped] Example.env) 0 _
          (Reachable.step Example.node_init
            (Op.port_set_param spa_direction.SPA_DIRECTION_OUTPUT 0 SPA_PARAM_Format
              (some (Example.pod spa_audio_format.S16 2 48000)) Example.env) 0 _
            (Reachable.init Example.info _ rfl) rfl) rfl) rfl) rfl
  · intro this env transport hf hn ht
    have hstart : (do_start this env).2.started = true := by
      by_cases hs : this.started = true
      · simp [do_start, hs]
      · simp [do_start, hs, ht]
    have hrun : impl_node_send_command this NodeCommand.Start env =
        if (do_start this env).1 < 0 then do_start this env else (0, (do_start this env).2) := by
      simp [impl_node_send_command, hf, hn]
    rw [hrun]
    split_ifs
    · exact hstart
    · exact hstart
  · intro this env hf hn hs ht
    have hstart : do_start this env = (- EIO, { this with following := is_following this }) := by
      simp [do_start, hs, ht]
    have hrun : impl_node_send_command this NodeCommand.Start env =
        if (do_start this env).1 < 0 then do_start this env else (0, (do_start this env).2) := by
      simp [impl_node_send_command, hf, hn]
    rw [hrun, hstart]
    simp [ EIO, hs]

/-! ## The size the Buffers param prefers -/

/-- C28, on the code: with `clock.quantum-limit` set to 1 and the format S16,
2 channels, the Buffers param prefers the size 4, below its minimum 64; with
the default quantum limit 8192 and the format S32 with 65536 channels the
product `8192 · 262144 = 2^31` reads as the `int32_t` `-2^31`, below its
minimum 4194304. -/
theorem buffers_param_size_outside_its_range :
    Reachable Example.node_quantum_one ∧
    Example.node_quantum_one.quantum_limit = 1 ∧
    Example.node_quantum_one.port.frame_size = 4 ∧
    port_enum_params_Buffers Example.node_quantum_one 0 = EnumResult.param
      { buffers_default := 2, buffers_min := 1, buffers_max := 32, blocks := 1
        size_default := 4, size_min := 64, size_max := 2147483647, stride := 4 } ∧
    Reachable Example.node_many_channels ∧
    Example.node_many_channels.quantum_limit = 8192 ∧
    Example.node_many_channels.port.frame_size = 262144 ∧
    port_enum_params_Buffers Example.node_many_channels 0 = EnumResult.param
      { buffers_default := 2, buffers_min := 1, buffers_max := 32, blocks := 1
        size_default := -2147483648, size_min := 4194304, size_max := 2147483647
        stride := 262144 } := by
  refine ⟨?_, rfl, by decide, by decide, ?_, rfl, by decide, by decide⟩
  · exact Reachable.step (impl_init Example.info_quantum_one).2
      (Op.port_set_param spa_direction.SPA_DIRECTION_OUTPUT 0 SPA_PARAM_Format
        (some (Example.pod spa_audio_format.S16 2 48000)) Example.env) 0 _
      (Reachable.init Example.info_quantum_one _ rfl) rfl
  · exact Reachable.step Example.node_init
      (Op.port_set_param spa_direction.SPA_DIRECTION_OUTPUT 0 SPA_PARAM_Format
        (some (Example.pod spa_audio_format.S32 65536 48000)) Example.env) 0 _
      (Reachable.init Example.info _ rfl) rfl

/-- C28, amended: in every state with a format the Buffers param prefers 2
buffers, within its range from 1 to `MAX_BUFFERS`; and when the quantum limit is
at least 16 and `quantum_limit · frame_size` is at most `INT32_MAX`, the size it
prefers is that product, within its range from `16 · frame_size` to
`INT32_MAX`. -/
theorem buffers_param_size_in_range (this : Impl) (hformat : this.port.have_format = true) :
    ∃ p, port_enum_params_Buffers this 0 = EnumResult.param p ∧
      p.buffers_default = 2 ∧ p.buffers_min = 1 ∧ p.buffers_max = MAX_BUFFERS ∧
      p.buffers_min ≤ p.buffers_default ∧ p.buffers_default ≤ p.buffers_max ∧
      p.size_max = INT32_MAX ∧
      (16 ≤ this.quantum_limit → this.quantum_limit * this.port.frame_size ≤ 2147483647 →
        p.size_default = ((this.quantum_limit * this.port.frame_size : Nat) : Int) ∧
        p.size_min = ((16 * this.port.frame_size : Nat) : Int) ∧
        p.size_min ≤ p.size_default ∧ p.size_default ≤ p.size_max) := by
  have hcast : ∀ n : Nat, n ≤ 2147483647 → i32 (u32 n) = (n : Int) := by
    intro n hn
    unfold i32 u32
    have h1 : n % 2 ^ 32 = n := Nat.mod_eq_of_lt (by omega)
    rw [h1, h1, if_pos (by omega)]
  have hrun : port_enum_params_Buffers this 0 = EnumResult.param
      { buffers_default := 2, buffers_min := 1, buffers_max := MAX_BUFFERS
        blocks := 1
        size_default := i32 (u32 (this.quantum_limit * this.port.frame_size))
        size_min := i32 (u32 (16 * this.port.frame_size))
        size_max := INT32_MAX
        stride := i32 this.port.frame_size } := by
    simp [port_enum_params_Buffers, hformat]
  refine ⟨_, hrun, rfl, rfl, rfl, (show (1 : Int) ≤ 2 by decide),
    (show (2 : Int) ≤ ((32 : Nat) : Int) by decide), rfl, ?_⟩
  intro hq hmax
  have hmul : 16 * this.port.frame_size ≤ this.quantum_limit * this.port.frame_size :=
    Nat.mul_le_mul_right _ hq
  have h1 := hcast (this.quantum_limit * this.port.frame_size) hmax
  have h2 := hcast (16 * this.port.frame_size) (by omega)
  refine ⟨h1, h2, ?_, ?_⟩
  · show i32 (u32 (16 * this.port.frame_size)) ≤ i32 (u32 (this.quantum_limit * this.port.frame_size))
    rw [h1, h2]
    exact_mod_cast hmul
  · show i32 (u32 (this.quantum_limit * this.port.frame_size)) ≤ INT32_MAX
    rw [h1]
    unfold INT32_MAX
    exact_mod_cast hmax

/-- C28 at the node of the example with the format S16, 2 channels, and the
default quantum limit 8192: the size preferred is 32768, from 64 up. -/
theorem buffers_param_size_in_range_witness :
    Example.node_format.port.have_format = true ∧
    ∃ p, port_enum_params_Buffers Example.node_format 0 = EnumResult.param p ∧
      p.size_default = 32768 ∧ p.size_min = 64 ∧ p.size_min ≤ p.size_default := by
  refine ⟨rfl, ?_⟩
  obtain ⟨p, hp, -, -, -, -, -, -, hsize⟩ := buffers_param_size_in_range Example.node_format rfl
  obtain ⟨h1, h2, h3, -⟩ := hsize (by decide) (by decide)
  exact ⟨p, hp, h1, h2, h3⟩

/-! ## The codec of a RAOP device -/

/-- The comma is the one delimiter. -/
theorem contains_comma (c : Char) : ([','] : List Char).contains c = true ↔ c = ',' := by
  simp

/-- Leading commas open no entry. -/
theorem entries_dropWhile (l : List Char) :
    RaopDiscover.entries (l.dropWhile fun c => [','].contains c) []
      = RaopDiscover.entries l [] := by
  induction l with
  | nil => rfl
  | cons c rest ih =>
    by_cases hc : ([','] : List Char).contains c = true
    · rw [List.dropWhile_cons_of_pos hc, ih]
      have hcomma : c = ',' := (contains_comma c).mp hc
      rw [hcomma, RaopDiscover.entries]
      simp
    · rw [List.dropWhile_cons_of_neg hc]

/-- The characters of an entry are added to the run being read. -/
theorem entries_append (token rest acc : List Char) (htoken : ∀ c ∈ token, c ≠ ',') :
    RaopDiscover.entries (token ++ rest) acc = RaopDiscover.entries rest (acc ++ token) := by
  induction token generalizing acc with
  | nil => simp
  | cons c token ih =>
    have hc : c ≠ ',' := htoken c (List.mem_cons_self _ _)
    have hrest : ∀ x ∈ token, x ≠ ',' := fun x hx => htoken x (List.mem_cons_of_mem _ hx)
    rw [List.cons_append, RaopDiscover.entries, if_neg hc, ih _ hrest]
    simp

/-- At the end of the list or at a comma the run being read becomes an entry. -/
theorem entries_close (rest acc : List Char) (hacc : acc ≠ [])
    (hrest : rest = [] ∨ ∃ r, rest = ',' :: r) :
    RaopDiscover.entries rest acc = acc :: RaopDiscover.entries rest [] := by
  rcases hrest with h | ⟨r, h⟩
  · subst h
    simp [RaopDiscover.entries, hacc]
  · subst h
    simp [RaopDiscover.entries, hacc]

/-- What is left after the characters before the first comma is empty or
starts with a comma. -/
theorem dropWhile_not_comma (s : List Char) :
    (s.dropWhile fun c => !([','] : List Char).contains c) = [] ∨
    ∃ r, (s.dropWhile fun c => !([','] : List Char).contains c) = ',' :: r := by
  induction s with
  | nil => exact Or.inl rfl
  | cons c rest ih =>
    by_cases hc : ([','] : List Char).contains c = true
    · right
      have hneg : ¬ ((fun c => !([','] : List Char).contains c) c = true) := by
        simp only [hc, Bool.not_true, Bool.false_eq_true, not_false_eq_true]
      rw [List.dropWhile_cons_of_neg (p := fun c => !([','] : List Char).contains c) hneg,
        (contains_comma c).mp hc]
      exact ⟨rest, rfl⟩
    · have hpos : (fun c => !([','] : List Char).contains c) c = true := by
        simp only [Bool.not_eq_true] at hc
        simp only [hc, Bool.not_false]
      rw [List.dropWhile_cons_of_pos (p := fun c => !([','] : List Char).contains c) hpos]
      exact ih

/-- The first character that `dropWhile` leaves fails the test. -/
theorem dropWhile_head (p : Char → Bool) (l : List Char) (t0 : Char) (r : List Char)
    (h : l.dropWhile p = t0 :: r) : ¬ p t0 = true := by
  induction l with
  | nil => cases h
  | cons c rest ih =>
    by_cases hc : p c = true
    · rw [List.dropWhile_cons_of_pos hc] at h
      exact ih h
    · rw [List.dropWhile_cons_of_neg hc] at h
      rw [← (List.cons.inj h).1]
      exact hc

/-- Dropping as many characters as `takeWhile` takes is `dropWhile`. -/
theorem drop_length_takeWhile (p : Char → Bool) (s : List Char) :
    s.drop (s.takeWhile p).length = s.dropWhile p := by
  induction s with
  | nil => rfl
  | cons c rest ih =>
    by_cases hc : p c = true
    · rw [List.takeWhile_cons_of_pos hc, List.dropWhile_cons_of_pos hc, List.length_cons,
        List.drop_succ_cons, ih]
    · rw [List.takeWhile_cons_of_neg hc, List.dropWhile_cons_of_neg hc]
      rfl

/-- Against a needle of one character, `spa_strneq` over the length of a token
holds exactly when the token is that character. -/
theorem spa_strneq_one (c : Char) (token rest : List Char) (htoken : token ≠ []) :
    RaopDiscover.spa_strneq [c] (token ++ rest) token.length = decide (token = [c]) := by
  unfold RaopDiscover.spa_strneq
  cases token with
  | nil => exact absurd rfl htoken
  | cons t0 ts =>
    cases ts with
    | nil =>
      simp only [List.cons_append, List.nil_append, List.length_singleton,
        RaopDiscover.strncmp_eq, Bool.and_true]
      by_cases h : c = t0
      · subst h
        simp
      · have h2 : ¬ t0 = c := fun e => h e.symm
        simp [h, h2]
    | cons t1 ts =>
      simp [RaopDiscover.strncmp_eq]

/-- The loop of `str_in_list`, with the comma as delimiter and a needle of one
character, says whether an entry of the list is that character; it does so
within one turn for every character of the list and one for the end. -/
theorem str_in_list_loop_entries (c : Char) (fuel : Nat) (state : List Char)
    (hfuel : state.length < fuel) :
    RaopDiscover.str_in_list_loop [','] [c] fuel state
      = some (decide ([c] ∈ RaopDiscover.entries state [])) := by
  induction fuel generalizing state with
  | zero => omega
  | succ fuel ih =>
    unfold RaopDiscover.str_in_list_loop RaopDiscover.pw_split_walk
    have hskip := entries_dropWhile state
    have hlen : (state.dropWhile fun c => [','].contains c).length ≤ state.length :=
      (List.dropWhile_sublist _).length_le
    cases hs : state.dropWhile fun c => [','].contains c with
    | nil =>
      rw [hs] at hskip
      rw [← hskip]
      rfl
    | cons t0 r =>
      rw [hs] at hskip hlen
      have ht0 : (fun c => !([','] : List Char).contains c) t0 = true := by
        have h := dropWhile_head (fun c => ([','] : List Char).contains c) state t0 r hs
        simp only [Bool.not_eq_true] at h
        simp only [h, Bool.not_false]
      have hsplit := List.takeWhile_append_dropWhile
        (fun c => !([','] : List Char).contains c) (t0 :: r)
      have hdrop := drop_length_takeWhile (fun c => !([','] : List Char).contains c) (t0 :: r)
      have htoken : ∀ x ∈ (t0 :: r).takeWhile (fun c => !([','] : List Char).contains c),
          x ≠ ',' := by
        intro x hx e
        have h := List.mem_takeWhile_imp hx
        rw [e] at h
        exact absurd h (by decide)
      have hne : (t0 :: r).takeWhile (fun c => !([','] : List Char).contains c) ≠ [] := by
        rw [List.takeWhile_cons_of_pos (p := fun c => !([','] : List Char).contains c) ht0]
        exact List.cons_ne_nil _ _
      have hentries : RaopDiscover.entries (t0 :: r) [] =
          (t0 :: r).takeWhile (fun c => !([','] : List Char).contains c) ::
            RaopDiscover.entries
              ((t0 :: r).dropWhile fun c => !([','] : List Char).contains c) [] := by
        conv_lhs => rw [← hsplit]
        rw [entries_append _ _ _ htoken, List.nil_append]
        exact entries_close _ _ hne (dropWhile_not_comma _)
      have hmatch := spa_strneq_one c
        ((t0 :: r).takeWhile (fun c => !([','] : List Char).contains c))
        ((t0 :: r).dropWhile fun c => !([','] : List Char).contains c) hne
      rw [hsplit] at hmatch
      have hrestlen : ((t0 :: r).dropWhile
          fun c => !([','] : List Char).contains c).length < fuel := by
        have h1 := congrArg List.length hsplit
        rw [List.length_append] at h1
        have h2 : 0 < ((t0 :: r).takeWhile
            (fun c => !([','] : List Char).contains c)).length :=
          List.length_pos.mpr hne
        omega
      dsimp only
      rw [hmatch, hdrop, ← hskip, hentries]
      by_cases heq : (t0 :: r).takeWhile (fun c => !([','] : List Char).contains c) = [c]
      · have hmem : [c] ∈ (t0 :: r).takeWhile (fun c => !([','] : List Char).contains c) ::
            RaopDiscover.entries
              ((t0 :: r).dropWhile fun c => !([','] : List Char).contains c) [] := by
          rw [heq]
          exact List.mem_cons_self _ _
        rw [if_pos (decide_eq_true heq), decide_eq_true hmem]
      · have hiff : [c] ∈ (t0 :: r).takeWhile (fun c => !([','] : List Char).contains c) ::
            RaopDiscover.entries
              ((t0 :: r).dropWhile fun c => !([','] : List Char).contains c) [] ↔
            [c] ∈ RaopDiscover.entries
              ((t0 :: r).dropWhile fun c => !([','] : List Char).contains c) [] := by
          rw [List.mem_cons]
          constructor
          · intro h
            rcases h with h | h
            · exact absurd h.symm heq
            · exact h
          · intro h
            exact Or.inr h
        rw [if_neg (fun h => heq (of_decide_eq_true h)), ih _ hrestlen,
          decide_eq_decide.mpr hiff]

/-- With the comma as delimiter and a needle of one character, `str_in_list`
returns, and says whether an entry of the list is that character. -/
theorem str_in_list_entries (c : Char) (haystack : List Char) :
    RaopDiscover.str_in_list haystack [','] [c]
      = some (decide ([c] ∈ RaopDiscover.entries haystack [])) :=
  str_in_list_loop_entries c _ haystack (Nat.lt_succ_self _)

/-- C30, on the code: for the `cn` value `3` the module sets
`raop.audio.codec` to `unknown`, not `AAC-ELD`: the fourth test of
`pw_properties_from_avahi_string` looks for the code 2 again. In general the
value it sets is `PCM` when an entry of the list is exactly `0`, else `ALAC`
when one is exactly `1`, else `AAC` when one is exactly `2`, else `unknown`,
and never `AAC-ELD`; an entry such as `10` matches no code. -/
theorem raop_codec_three_is_unknown :
    RaopDiscover.pw_properties_from_avahi_string_cn ['3'] = some "unknown" ∧
    RaopDiscover.pw_properties_from_avahi_string_cn ['4', ',', '3'] = some "unknown" ∧
    RaopDiscover.pw_properties_from_avahi_string_cn ['3', ',', '2'] = some "AAC" ∧
    RaopDiscover.pw_properties_from_avahi_string_cn ['1', '0', ',', '3'] = some "unknown" ∧
    RaopDiscover.entries ['1', '0', ',', '3'] [] = [['1', '0'], ['3']] ∧
    (∀ value : List Char,
      RaopDiscover.pw_properties_from_avahi_string_cn value = some
        (if ['0'] ∈ RaopDiscover.entries value [] then "PCM"
          else if ['1'] ∈ RaopDiscover.entries value [] then "ALAC"
          else if ['2'] ∈ RaopDiscover.entries value [] then "AAC"
          else "unknown")) ∧
    (∀ value : List Char,
      RaopDiscover.pw_properties_from_avahi_string_cn value ≠ some "AAC-ELD") := by
  have hgeneral : ∀ value : List Char,
      RaopDiscover.pw_properties_from_avahi_string_cn value = some
        (if ['0'] ∈ RaopDiscover.entries value [] then "PCM"
          else if ['1'] ∈ RaopDiscover.entries value [] then "ALAC"
          else if ['2'] ∈ RaopDiscover.entries value [] then "AAC"
          else "unknown") := by
    intro value
    unfold RaopDiscover.pw_properties_from_avahi_string_cn
    rw [str_in_list_entries '0' value, str_in_list_entries '1' value,
      str_in_list_entries '2' value]
    by_cases h0 : ['0'] ∈ RaopDiscover.entries value []
    · simp [h0]
    · by_cases h1 : ['1'] ∈ RaopDiscover.entries value []
      · simp [h0, h1]
      · by_cases h2 : ['2'] ∈ RaopDiscover.entries value []
        · simp [h0, h1, h2]
        · simp [h0, h1, h2]
  refine ⟨by decide, by decide, by decide, by decide, by decide, hgeneral, ?_⟩
  intro value
  rw [hgeneral value]
  split_ifs <;> decide

end A2dpSource
